import Mathlib

/-!
# Android audio HAL routing core: port groups and the route reconsideration engine

Shallow embedding of `audio_route_manager/AudioPortGroup.cpp` and of the route manager
declared in `audio_route_manager/AudioRouteManager.h` and
`audio_route_manager/AudioStreamRoute.h`.

Objects that the C++ code handles through pointers are addressed by natural numbers;
address `0` is `NULL`.  The ports live in a heap, a total function from addresses to port
states.  A failed `AUDIOCOMMS_ASSERT` is the result `none`.  The `uint32_t` route masks
are natural numbers, reduced modulo `2 ^ 32` where a bit could be pushed out.

The bodies of the member functions of `AudioRouteManager`, `AudioRoute`,
`AudioStreamRoute` and `AudioPort` are not part of the sources at hand, which hold their
declarations and documentation only; their definitions below follow the specification and
that documentation, and say so.

The development also embeds the parameter helpers of
`audio_platform_state/include/AudioPlatformState.hpp`, the device of
`stream_lib/TinyAlsaAudioDevice.cpp` and the sample specification of
`sample_specifications/SampleSpec.cpp`.  The values of `uint32_t`, `uint64_t` and `size_t`
are natural numbers, reduced modulo `2 ^ 32`, `2 ^ 64` and `2 ^ sizeBits` where the C++
arithmetic could wrap; `sizeBits`, the width of `size_t`, is 32 or 64.
-/

set_option autoImplicit false

namespace intel_audio

/-! ## Pointers and ports -/

/-- Address of a heap object. -/
abbrev Ptr := Nat

/-- The null pointer. -/
def NULL : Ptr := 0

/-- Modelled from the spec: the class `AudioPort` (AudioPort.hpp and AudioPort.cpp are not
among the sources).  The spec's data model gives a port an identity (name, numeric id), the
boolean `blocked` (forced unusable), the boolean `used` (currently claimed by an enabled
route) and back-references to its owning groups. -/
structure AudioPort where
  name : String
  id : Nat
  mIsBlocked : Bool
  mIsUsed : Bool
  mGroupList : List Ptr
  deriving DecidableEq, Repr

/-- Modelled from the spec: `AudioPort::setBlocked` (not among the sources) writes the
`blocked` state of the port, the only state of a member port that the spec lets change at
runtime through its group. -/
def AudioPort.setBlocked (p : AudioPort) (blocked : Bool) : AudioPort :=
  { p with mIsBlocked := blocked }

/-- Heap of ports: the state of the port stored at each address. -/
abbrev PortHeap := Ptr → AudioPort

/-- Overwrites the port stored at address `a`. -/
def PortHeap.store (mem : PortHeap) (a : Ptr) (p : AudioPort) : PortHeap :=
  fun q => if q = a then p else mem q

/-! ## AudioPortGroup (AudioPortGroup.cpp) -/

/-- State of `AudioPortGroup`: the name of the routing element and `mPortList`. -/
structure AudioPortGroup where
  name : String
  mPortList : List Ptr
  deriving DecidableEq, Repr

/-- The `for` loop of `AudioPortGroup::blockMutualExclusivePort` over `mPortList`:
every `itPort` with `port != itPort` receives `setBlocked(true)`. -/
def blockMutualExclusivePortLoop (port : Ptr) : List Ptr → PortHeap → PortHeap
  | [], mem => mem
  | itPort :: rest, mem =>
    if port ≠ itPort then
      blockMutualExclusivePortLoop port rest (mem.store itPort ((mem itPort).setBlocked true))
    else
      blockMutualExclusivePortLoop port rest mem

/-- `AudioPortGroup::blockMutualExclusivePort`.  `none` is the failed
`AUDIOCOMMS_ASSERT(port != NULL, ...)`; otherwise the group and the port heap after the
call. -/
def AudioPortGroup.blockMutualExclusivePort (g : AudioPortGroup) (port : Ptr)
    (mem : PortHeap) : Option (AudioPortGroup × PortHeap) :=
  if port = NULL then none
  else some (g, blockMutualExclusivePortLoop port g.mPortList mem)

/-! ## Route manager: data model (AudioRouteManager.h) -/

/-- Bitwise complement of a `uint32_t` value. -/
def not32 (x : Nat) : Nat := (2 ^ 32 - 1) ^^^ (x % 2 ^ 32)

/-- Modelled from the spec: `AudioRouteManager::setBit` (declared in AudioRouteManager.h,
defined in the missing AudioRouteManager.cpp): "if true, the bit will be set, if false, nop
(bit will not be cleared)".  The mask is a `uint32_t`. -/
def setBit (isSet : Bool) (index : Nat) (mask : Nat) : Nat :=
  if isSet then (mask ||| (1 <<< index)) % 2 ^ 32 else mask

/-- A value per direction, indexed as the arrays `x[isOut]` of the route manager:
`Direction::Input = 0`, `Direction::Output = 1`. -/
structure PerDirection (α : Type) where
  input : α
  output : α

/-- Reads `x[isOut]`. -/
def PerDirection.get {α : Type} (p : PerDirection α) (isOut : Bool) : α :=
  match isOut with
  | true => p.output
  | false => p.input

/-- Writes `x[isOut]`. -/
def PerDirection.set {α : Type} (p : PerDirection α) (isOut : Bool) (v : α) :
    PerDirection α :=
  match isOut with
  | true => { p with output := v }
  | false => { p with input := v }

/-- Modelled from the spec: the external entity `Stream` (its class is not among the
sources).  A stream has an applicability mask (output flags or input source) and is marked
started or not; `isRouted` records that a route has claimed the stream in the current
reconsideration ("already attached elsewhere").  The direction of a stream is the list of
the registry it is stored in. -/
structure Stream where
  id : Ptr
  isStarted : Bool
  applicabilityMask : Nat
  isRouted : Bool
  deriving DecidableEq, Repr

/-- Modelled from the spec: `AudioRoute` and its specialisation `AudioStreamRoute`
(AudioRoute.h and the .cpp files are not among the sources; AudioStreamRoute.h declares the
members).  Identity (name, id = bit index in the mask of its direction), direction, source
and destination port (`NULL` for none), the `applicable` flag given by the rule engine, the
flags `used`, `previouslyUsed` and `needReconfigure`, and for a stream route the
applicability mask, the pre-enable / post-disable requirements of its configuration, the
attached stream `_currentStream` and the pending `_newStream`. -/
structure AudioRoute where
  name : String
  id : Nat
  isOut : Bool
  isStreamRoute : Bool
  portSrc : Ptr
  portDst : Ptr
  applicable : Bool
  needReconfigure : Bool
  isUsed : Bool
  previouslyUsed : Bool
  applicabilityMask : Nat
  requirePreEnable : Bool
  requirePostDisable : Bool
  _currentStream : Ptr
  _newStream : Ptr
  deriving DecidableEq, Repr

/-- The anonymous struct of `_routes[direction]` in AudioRouteManager.h: four `uint32_t`
bit fields of routes. -/
structure RouteMasks where
  needReflow : Nat
  needRepath : Nat
  enabled : Nat
  prevEnabled : Nat
  deriving DecidableEq, Repr

/-- Modelled from the spec: the five stages of the transition protocol (RoutingStage.h is
not among the sources). -/
inductive Stage where
  | Mute
  | Disable
  | Configure
  | Enable
  | Unmute
  deriving DecidableEq, Repr

/-- Modelled from the spec: what the route manager does that is visible outside of its
masks, the "stage call order" of the testable properties: the entry in a stage, the writes
of the ClosingRoutes and OpenedRoutes criteria, the commits to the rule engine, and the
detach / attach of the stream of a stream route (`unroute` and `route` hook points of
AudioStreamRoute.h, keyed by direction and route id). -/
inductive Event where
  | stage (s : Stage)
  | setClosingRoutes (isOut : Bool) (mask : Nat)
  | setOpenedRoutes (isOut : Bool) (mask : Nat)
  | commitCriteriaAndApply
  | unroute (isOut : Bool) (routeId : Nat) (isPostDisable : Bool)
  | route (isOut : Bool) (routeId : Nat) (isPreEnable : Bool)
  deriving DecidableEq, Repr

/-- State of `AudioRouteManager` (members of AudioRouteManager.h): the routes in the
iteration order of `_routeMap`, the stream lists, the ports and port groups, the masks
`_routes`, the values of the criteria `_routingStageCriterion`, `_selectedClosingRoutes`,
`_selectedOpenedRoutes` and of the voice volume, and the log of events. -/
structure AudioRouteManager where
  _routeMap : List AudioRoute
  _streamsList : PerDirection (List Stream)
  _portMap : PortHeap
  _portGroupMap : Ptr → AudioPortGroup
  _routes : PerDirection RouteMasks
  _routingStageCriterion : Option Stage
  _selectedClosingRoutes : PerDirection Nat
  _selectedOpenedRoutes : PerDirection Nat
  voiceVolume : ℚ
  trace : List Event

/-- Status codes of `utils/Errors.h` and `errno.h` used by the route manager. -/
def OK : Int := 0

/-- The errno value `ERANGE`. -/
def ERANGE : Int := 34

/-! ## Route manager: mask accessors and `routingHasChanged` -/

/-- `needReflowRoutes(isOut)`. -/
def AudioRouteManager.needReflowRoutes (m : AudioRouteManager) (isOut : Bool) : Nat :=
  (m._routes.get isOut).needReflow

/-- `needRepathRoutes(isOut)`. -/
def AudioRouteManager.needRepathRoutes (m : AudioRouteManager) (isOut : Bool) : Nat :=
  (m._routes.get isOut).needRepath

/-- `enabledRoutes(isOut)`. -/
def AudioRouteManager.enabledRoutes (m : AudioRouteManager) (isOut : Bool) : Nat :=
  (m._routes.get isOut).enabled

/-- `prevEnabledRoutes(isOut)`. -/
def AudioRouteManager.prevEnabledRoutes (m : AudioRouteManager) (isOut : Bool) : Nat :=
  (m._routes.get isOut).prevEnabled

/-- Modelled from the spec: the body of `AudioRouteManager::routingHasChanged<isOut>`
(declared in AudioRouteManager.h, defined in the missing AudioRouteManager.cpp): true iff
`enabled != prevEnabled`, or a route needs to be reconfigured (reflow mask), or the repath
mask is non-zero. -/
def AudioRouteManager.routingHasChanged (m : AudioRouteManager) (isOut : Bool) : Bool :=
  (m.prevEnabledRoutes isOut != m.enabledRoutes isOut) ||
    (m.needReflowRoutes isOut != 0) || (m.needRepathRoutes isOut != 0)

/-- Appends an event to the log. -/
def AudioRouteManager.log (m : AudioRouteManager) (e : Event) : AudioRouteManager :=
  { m with trace := m.trace ++ [e] }

/-! ## Route applicability and port exclusivity -/

/-- Modelled from the spec: whether a port of the route forbids its use (AudioRoute.cpp is
not among the sources).  "If its source or destination Port is `blocked`, the route is
forced inapplicable"; a null port reference "means no port-exclusivity constraint". -/
def AudioRoute.isBlocked (r : AudioRoute) (mem : PortHeap) : Bool :=
  (r.portSrc != NULL && (mem r.portSrc).mIsBlocked) ||
    (r.portDst != NULL && (mem r.portDst).mIsBlocked)

/-- Modelled from the spec: `AudioRoute::isApplicable` (AudioRoute.cpp is not among the
sources): the applicability given by the rule engine, forced to false when a port of the
route is blocked. -/
def AudioRoute.isApplicable (r : AudioRoute) (mem : PortHeap) : Bool :=
  !r.isBlocked mem && r.applicable

/-- Modelled from the spec: `AudioStreamRoute::isApplicable(mask)` (declared in
AudioStreamRoute.h, defined in the missing AudioStreamRoute.cpp): "it overrides the
applicability of Route Parameter Manager to apply the port strategy and to match the mask
of the stream requesting to be routed". -/
def AudioStreamRoute.isApplicable (r : AudioRoute) (mask : Nat) (mem : PortHeap) : Bool :=
  r.isApplicable mem && ((mask &&& r.applicabilityMask) % 2 ^ 32 != 0)

/-- Modelled from the spec: enabling a route on a port "blocks all sibling ports" in every
group the port belongs to; each group is asked through `blockMutualExclusivePort`. -/
def blockSiblings (groups : Ptr → AudioPortGroup) (port : Ptr) :
    List Ptr → PortHeap → PortHeap
  | [], mem => mem
  | g :: rest, mem =>
    match (groups g).blockMutualExclusivePort port mem with
    | some r => blockSiblings groups port rest r.2
    | none => blockSiblings groups port rest mem

/-- Modelled from the spec: a port claimed by an enabled route becomes `used` and its
siblings are blocked (AudioPort.cpp is not among the sources).  A null port reference is
skipped. -/
def setPortUsed (groups : Ptr → AudioPortGroup) (port : Ptr) (mem : PortHeap) : PortHeap :=
  if port = NULL then mem
  else
    blockSiblings groups port (mem port).mGroupList
      (mem.store port { mem port with mIsUsed := true })

/-- Modelled from the spec: `AudioRoute::setUsed`: records whether the route is used in
this cycle and, when it is, claims its source and destination ports. -/
def AudioRoute.setUsed (r : AudioRoute) (isUsed : Bool) (groups : Ptr → AudioPortGroup)
    (mem : PortHeap) : AudioRoute × PortHeap :=
  if isUsed then
    ({ r with isUsed := true },
      setPortUsed groups r.portDst (setPortUsed groups r.portSrc mem))
  else ({ r with isUsed := false }, mem)

/-! ## Stream assignment -/

/-- Modelled from the spec: a stream is eligible for a route when it "is marked
started/active and its applicability mask intersects the route's `applicabilityMask`
(bitwise AND non-zero), and is not already attached elsewhere". -/
def Stream.isEligible (st : Stream) (route : AudioRoute) : Bool :=
  st.isStarted && !st.isRouted &&
    ((st.applicabilityMask &&& route.applicabilityMask) % 2 ^ 32 != 0)

/-- Modelled from the spec: the iteration of `setStreamForRoute` over the stream list of the
direction of the route, in registry order: the first eligible stream is claimed.  Returns
the address of the stream and the list with that stream marked routed. -/
def setStreamForRouteLoop (route : AudioRoute) : List Stream → Option (Ptr × List Stream)
  | [] => none
  | st :: rest =>
    if st.isEligible route then some (st.id, { st with isRouted := true } :: rest)
    else
      match setStreamForRouteLoop route rest with
      | some r => some (r.1, st :: r.2)
      | none => none

/-- Modelled from the spec: `AudioRouteManager::setStreamForRoute` (declared in
AudioRouteManager.h, defined in the missing AudioRouteManager.cpp): "greedily assigns the
first eligible, unattached stream, first-match-wins by registry iteration order"; returns
"true if a stream was found and attached to the route, false otherwise", with the route and
the manager after the call. -/
def AudioRouteManager.setStreamForRoute (m : AudioRouteManager) (route : AudioRoute) :
    Bool × AudioRoute × AudioRouteManager :=
  match setStreamForRouteLoop route (m._streamsList.get route.isOut) with
  | some r =>
    (true, { route with _newStream := r.1 },
      { m with _streamsList := m._streamsList.set route.isOut r.2 })
  | none => (false, route, m)

/-! ## The preparation of a cycle -/

/-- Modelled from the spec: `resetAvailability` of a route: the transient state of the
cycle is cleared and `used` is backed up in `previouslyUsed`. -/
def AudioRoute.resetAvailability (r : AudioRoute) : AudioRoute :=
  { r with previouslyUsed := r.isUsed, isUsed := false, _newStream := NULL }

/-- Modelled from the spec: `resetAvailability` of a port. -/
def AudioPort.resetAvailability (p : AudioPort) : AudioPort :=
  { p with mIsBlocked := false, mIsUsed := false }

/-- Modelled from the spec: a stream is no longer claimed by a route of the new cycle. -/
def Stream.resetAvailability (st : Stream) : Stream :=
  { st with isRouted := false }

/-- Modelled from the spec: the masks of one direction in `resetRouting`: the enabled
routes are backed up in `prevEnabled`, the three other masks are cleared. -/
def RouteMasks.reset (k : RouteMasks) : RouteMasks :=
  { needReflow := 0, needRepath := 0, enabled := 0, prevEnabled := k.enabled }

/-- Modelled from the spec: what `resetRouting` does to a route: its `needReconfigure` flag
is reset and its availability is reset. -/
def AudioRoute.resetRouting (r : AudioRoute) : AudioRoute :=
  { r.resetAvailability with needReconfigure := false }

/-- Modelled from the spec: `AudioRouteManager::resetRouting` (declared in
AudioRouteManager.h, defined in the missing AudioRouteManager.cpp): "it backup the enabled
routes, resets the route criteria, resets the needReconfigure flags, resets the
availability of the routes and ports".  The backup goes to `prevEnabled`; what is reset is
the bit field of the enabled routes and the two bit fields of the routes that need a
reflow or a repath, the `needReconfigure` flag of every route, and the transient state of
the routes, ports and streams. -/
def AudioRouteManager.resetRouting (m : AudioRouteManager) : AudioRouteManager :=
  { m with
    _routes := { input := m._routes.input.reset, output := m._routes.output.reset }
    _routeMap := m._routeMap.map AudioRoute.resetRouting
    _portMap := fun q => (m._portMap q).resetAvailability
    _streamsList :=
      { input := m._streamsList.input.map Stream.resetAvailability,
        output := m._streamsList.output.map Stream.resetAvailability } }

/-- Modelled from the spec: `needReflow()` of a route: "enabled both before and after but
flagged `needReconfigure`", or, for a stream route, "used by a different stream"
(AudioStreamRoute.h). -/
def AudioRoute.needReflow (r : AudioRoute) : Bool :=
  r.previouslyUsed && r.isUsed &&
    (r.needReconfigure || (r.isStreamRoute && r._currentStream != r._newStream))

/-- Modelled from the spec: `needRepath()` of a route: "its enabled/disabled state itself
changes". -/
def AudioRoute.needRepath (r : AudioRoute) : Bool :=
  r.previouslyUsed != r.isUsed

/-- Modelled from the spec: the applicability test of `prepareRoute`: "applicability of a
Route is true iff the route's declared applicability condition holds AND, for StreamRoute,
at least one registered Stream of matching direction is eligible", a blocked port forcing
the route inapplicable.  Returns the result, the route and the manager after the test. -/
def AudioRouteManager.evaluateApplicability (m : AudioRouteManager) (route : AudioRoute) :
    Bool × AudioRoute × AudioRouteManager :=
  if route.isStreamRoute then
    if route.isApplicable m._portMap then m.setStreamForRoute route else (false, route, m)
  else (route.isApplicable m._portMap, route, m)

/-- Modelled from the spec: `AudioRouteManager::prepareRoute` (declared in
AudioRouteManager.h, defined in the missing AudioRouteManager.cpp): the applicability of
the route is evaluated, the route is marked used accordingly, and its bit is set in the
`enabled` mask of its direction. -/
def AudioRouteManager.prepareRoute (m : AudioRouteManager) (route : AudioRoute) :
    AudioRoute × AudioRouteManager :=
  let found := m.evaluateApplicability route
  let used := found.2.1.setUsed found.1 found.2.2._portGroupMap found.2.2._portMap
  let masks := found.2.2._routes.get route.isOut
  (used.1,
    { found.2.2 with
      _portMap := used.2
      _routes := found.2.2._routes.set route.isOut
        { masks with enabled := setBit found.1 route.id masks.enabled } })

/-- Modelled from the spec: the two `setBit` calls of `checkAndPrepareRouting` that
"recompute the per-route flags" `needReflow` and `needRepath` of a prepared route. -/
def AudioRouteManager.setNeedBits (m : AudioRouteManager) (route : AudioRoute) :
    AudioRouteManager :=
  let masks := m._routes.get route.isOut
  { m with
    _routes := m._routes.set route.isOut
      { masks with
        needReflow := setBit route.needReflow route.id masks.needReflow
        needRepath := setBit route.needRepath route.id masks.needRepath } }

/-- Modelled from the spec: the loop of `checkAndPrepareRouting` over the routes. -/
def prepareRoutes : List AudioRoute → AudioRouteManager → List AudioRoute × AudioRouteManager
  | [], m => ([], m)
  | route :: rest, m =>
    let p := m.prepareRoute route
    let q := prepareRoutes rest (p.2.setNeedBits p.1)
    (p.1 :: q.1, q.2)

/-- Modelled from the spec: `AudioRouteManager::checkAndPrepareRouting` (declared in
AudioRouteManager.h, defined in the missing AudioRouteManager.cpp): "performs graph-wide
applicability reevaluation for both directions, recomputes the per-route flags, and returns
whether any stage execution is needed". -/
def AudioRouteManager.checkAndPrepareRouting (m : AudioRouteManager) :
    Bool × AudioRouteManager :=
  let p := prepareRoutes m.resetRouting._routeMap m.resetRouting
  let m2 : AudioRouteManager := { p.2 with _routeMap := p.1 }
  (m2.routingHasChanged true || m2.routingHasChanged false, m2)

/-! ## The five stages -/

/-- Modelled from the spec: the write of the criteria `ClosingRoutes` and `OpenedRoutes` of
one direction (the class `Criterion` is not among the sources). -/
def AudioRouteManager.setRouteCriteria (m : AudioRouteManager) (isOut : Bool)
    (closing opened : Nat) : AudioRouteManager :=
  { m with
    _selectedClosingRoutes := m._selectedClosingRoutes.set isOut closing
    _selectedOpenedRoutes := m._selectedOpenedRoutes.set isOut opened
    trace := m.trace ++ [Event.setClosingRoutes isOut closing, Event.setOpenedRoutes isOut opened] }

/-- Modelled from the spec: the write of the routing stage criterion, by which the manager
enters a stage. -/
def AudioRouteManager.setRoutingStage (m : AudioRouteManager) (s : Stage) :
    AudioRouteManager :=
  { m with _routingStageCriterion := some s, trace := m.trace ++ [Event.stage s] }

/-- Modelled from the spec: "commit criteria, apply rule engine", an opaque external action
of which only the occurrence is recorded. -/
def AudioRouteManager.commitCriteriaAndApply (m : AudioRouteManager) : AudioRouteManager :=
  m.log Event.commitCriteriaAndApply

/-- Modelled from the spec: the routes to mute in one direction, "every route in
`prevEnabled` that will not remain enabled unchanged (i.e., is in `prevEnabled` but not in
the newly computed `enabled`, or is in both but flagged `needReconfigure`)". -/
def routesToMute (k : RouteMasks) : Nat :=
  (k.prevEnabled &&& not32 k.enabled) ||| ((k.prevEnabled &&& k.enabled) &&& k.needReflow)

/-- Modelled from the spec: the routes that stay unmuted in one direction, "routes staying
enabled, unchanged". -/
def unmutedRoutes (k : RouteMasks) : Nat :=
  (k.prevEnabled &&& k.enabled) &&& not32 k.needReflow

/-- Modelled from the spec: `AudioRouteManager::setRouteCriteriaForMute` (declared in
AudioRouteManager.h, defined in the missing AudioRouteManager.cpp), for the input and then
the output direction. -/
def AudioRouteManager.setRouteCriteriaForMute (m : AudioRouteManager) : AudioRouteManager :=
  (m.setRouteCriteria false (routesToMute (m._routes.get false))
      (unmutedRoutes (m._routes.get false))).setRouteCriteria true
    (routesToMute (m._routes.get true)) (unmutedRoutes (m._routes.get true))

/-- Modelled from the spec: `setRouteCriteriaForDisable`: "it appends to the closing route
criterion the route that were opened before the routing reconsideration and that will not
be used anymore after.  It also removes from opened routes criterion these routes." -/
def AudioRouteManager.setRouteCriteriaForDisable (m : AudioRouteManager) :
    AudioRouteManager :=
  let toDisable := fun (isOut : Bool) =>
    (m._routes.get isOut).prevEnabled &&& not32 (m._routes.get isOut).enabled
  (m.setRouteCriteria false (m._selectedClosingRoutes.get false ||| toDisable false)
      (m._selectedOpenedRoutes.get false &&& not32 (toDisable false))).setRouteCriteria true
    (m._selectedClosingRoutes.get true ||| toDisable true)
    (m._selectedOpenedRoutes.get true &&& not32 (toDisable true))

/-- Modelled from the spec: `setRouteCriteriaForConfigure`: "OpenedRoutes is recomputed as
exactly the will-be-enabled set; ClosingRoutes is cleared". -/
def AudioRouteManager.setRouteCriteriaForConfigure (m : AudioRouteManager) :
    AudioRouteManager :=
  (m.setRouteCriteria false 0 (m._routes.get false).enabled).setRouteCriteria true 0
    (m._routes.get true).enabled

/-- Modelled from the spec: whether `doDisableRoutes(isPostDisable)` detaches the stream of
a route: a stream route "opened before reconsidering the routing" that "will be closed
after" or "requests to be rerouted", whose configuration asks for this pass. -/
def AudioRoute.toDisable (r : AudioRoute) (isPostDisable : Bool) : Bool :=
  r.isStreamRoute && ((r.previouslyUsed && !r.isUsed) || r.needReflow) &&
    (r.requirePostDisable == isPostDisable)

/-- Modelled from the spec: whether `doEnableRoutes(isPreEnable)` attaches the new stream of
a route: a stream route "not enabled" before that "will be enabled after the routing
reconsideration" or "requested to be rerouted", whose configuration asks for this pass. -/
def AudioRoute.toEnable (r : AudioRoute) (isPreEnable : Bool) : Bool :=
  r.isStreamRoute && ((!r.previouslyUsed && r.isUsed) || r.needReflow) &&
    (r.requirePreEnable == isPreEnable)

/-- Modelled from the spec: `AudioStreamRoute::detachCurrentStream` (declared in
AudioStreamRoute.h): the route holds no attached stream any more. -/
def AudioStreamRoute.detachCurrentStream (r : AudioRoute) : AudioRoute :=
  { r with _currentStream := NULL }

/-- Modelled from the spec: `AudioStreamRoute::attachNewStream` (declared in
AudioStreamRoute.h): the pending new stream becomes the attached stream. -/
def AudioStreamRoute.attachNewStream (r : AudioRoute) : AudioRoute :=
  { r with _currentStream := r._newStream }

/-- Modelled from the spec: the loop of `doDisableRoutes` over the stream routes: the
routes after the pass and the `unroute` events of the pass. -/
def doDisableRoutesLoop (isPostDisable : Bool) : List AudioRoute → List AudioRoute × List Event
  | [] => ([], [])
  | r :: rest =>
    let q := doDisableRoutesLoop isPostDisable rest
    if r.toDisable isPostDisable then
      (AudioStreamRoute.detachCurrentStream r :: q.1,
        Event.unroute r.isOut r.id isPostDisable :: q.2)
    else (r :: q.1, q.2)

/-- Modelled from the spec: the loop of `doEnableRoutes` over the stream routes: the routes
after the pass and the `route` events of the pass. -/
def doEnableRoutesLoop (isPreEnable : Bool) : List AudioRoute → List AudioRoute × List Event
  | [] => ([], [])
  | r :: rest =>
    let q := doEnableRoutesLoop isPreEnable rest
    if r.toEnable isPreEnable then
      (AudioStreamRoute.attachNewStream r :: q.1,
        Event.route r.isOut r.id isPreEnable :: q.2)
    else (r :: q.1, q.2)

/-- Modelled from the spec: `AudioRouteManager::doDisableRoutes` (declared in
AudioRouteManager.h, defined in the missing AudioRouteManager.cpp). -/
def AudioRouteManager.doDisableRoutes (m : AudioRouteManager) (isPostDisable : Bool) :
    AudioRouteManager :=
  { m with
    _routeMap := (doDisableRoutesLoop isPostDisable m._routeMap).1
    trace := m.trace ++ (doDisableRoutesLoop isPostDisable m._routeMap).2 }

/-- `AudioRouteManager::doPostDisableRoutes`, inline in AudioRouteManager.h. -/
def AudioRouteManager.doPostDisableRoutes (m : AudioRouteManager) : AudioRouteManager :=
  m.doDisableRoutes true

/-- Modelled from the spec: `AudioRouteManager::doEnableRoutes` (declared in
AudioRouteManager.h, defined in the missing AudioRouteManager.cpp). -/
def AudioRouteManager.doEnableRoutes (m : AudioRouteManager) (isPreEnable : Bool) :
    AudioRouteManager :=
  { m with
    _routeMap := (doEnableRoutesLoop isPreEnable m._routeMap).1
    trace := m.trace ++ (doEnableRoutesLoop isPreEnable m._routeMap).2 }

/-- `AudioRouteManager::doPreEnableRoutes`, inline in AudioRouteManager.h. -/
def AudioRouteManager.doPreEnableRoutes (m : AudioRouteManager) : AudioRouteManager :=
  m.doEnableRoutes true

/-- Modelled from the spec: stage 1, Mute: the mute criteria are set and committed. -/
def AudioRouteManager.executeMuteRoutingStage (m : AudioRouteManager) : AudioRouteManager :=
  ((m.setRoutingStage Stage.Mute).setRouteCriteriaForMute).commitCriteriaAndApply

/-- Modelled from the spec: stage 2, Disable: the generic disable pass, the commit of the
disable criteria, then the detach of the routes that require post-disable. -/
def AudioRouteManager.executeDisableRoutingStage (m : AudioRouteManager) :
    AudioRouteManager :=
  ((((m.setRoutingStage Stage.Disable).setRouteCriteriaForDisable).doDisableRoutes
    false).commitCriteriaAndApply).doPostDisableRoutes

/-- Modelled from the spec: stage 3, Configure. -/
def AudioRouteManager.executeConfigureRoutingStage (m : AudioRouteManager) :
    AudioRouteManager :=
  ((m.setRoutingStage Stage.Configure).setRouteCriteriaForConfigure).commitCriteriaAndApply

/-- Modelled from the spec: stage 4, Enable: the attach of the routes that require
pre-enable, the commit, then the generic enable pass. -/
def AudioRouteManager.executeEnableRoutingStage (m : AudioRouteManager) :
    AudioRouteManager :=
  (((m.setRoutingStage Stage.Enable).doPreEnableRoutes).commitCriteriaAndApply).doEnableRoutes
    false

/-- Modelled from the spec: stage 5, Unmute, the terminal stage of the cycle. -/
def AudioRouteManager.executeUnmuteRoutingStage (m : AudioRouteManager) :
    AudioRouteManager :=
  (m.setRoutingStage Stage.Unmute).commitCriteriaAndApply

/-- Modelled from the spec: `AudioRouteManager::executeRouting`, "execute 5-steps routing"
(declared in AudioRouteManager.h, defined in the missing AudioRouteManager.cpp): the stages
Mute, Disable, Configure, Enable, Unmute, "strictly ordered, no skipping, no reordering".
-/
def AudioRouteManager.executeRouting (m : AudioRouteManager) : AudioRouteManager :=
  ((((m.executeMuteRoutingStage).executeDisableRoutingStage).executeConfigureRoutingStage
    ).executeEnableRoutingStage).executeUnmuteRoutingStage

/-- Modelled from the spec: `AudioRouteManager::doReconsiderRouting` (declared in
AudioRouteManager.h, defined in the missing AudioRouteManager.cpp), one reconsideration
cycle: when `checkAndPrepareRouting` returns false "the cycle is a no-op and no criteria
are touched", otherwise the five stages are executed. -/
def AudioRouteManager.doReconsiderRouting (m : AudioRouteManager) : AudioRouteManager :=
  if m.checkAndPrepareRouting.1 then m.checkAndPrepareRouting.2.executeRouting
  else m.checkAndPrepareRouting.2

/-- The stages entered in a log of events, in order. -/
def stagesOf (t : List Event) : List Stage :=
  t.filterMap fun e =>
    match e with
    | Event.stage s => some s
    | _ => none

/-- Whether an event attaches a stream to a route (the Enable action on a route). -/
def Event.isRoute : Event → Bool
  | Event.route _ _ _ => true
  | _ => false

/-! ## Voice volume -/

/-- Modelled from the spec: `AudioRouteManager::setVoiceVolume` (declared in
AudioRouteManager.h, defined in the missing AudioRouteManager.cpp).  The `float` gain is
taken as a rational number (every finite `float` is one, and the comparisons with 0.0 and
1.0 are exact): "any attempt to set a value outside this range will return -ERANGE", "no
state mutated"; a gain in the range is stored. -/
def AudioRouteManager.setVoiceVolume (m : AudioRouteManager) (gain : ℚ) :
    Int × AudioRouteManager :=
  if gain < 0 ∨ gain > 1 then (-ERANGE, m)
  else (OK, { m with voiceVolume := gain })
/-! ### Example data -/

/-- A port that is neither blocked nor used and belongs to no group. -/
def freePort : AudioPort :=
  { name := "", id := 0, mIsBlocked := false, mIsUsed := false, mGroupList := [] }

/-- A heap whose ports are all free. -/
def freeHeap : PortHeap := fun _ => freePort

/-- A group of three ports, the second of them listed twice. -/
def demoGroup : AudioPortGroup := { name := "G", mPortList := [1, 2, 3, 2] }

/-- The groups of the examples: group 1 is the demo group, every other group is empty. -/
def demoGroups : Ptr → AudioPortGroup := fun g =>
  if g = 1 then demoGroup else { name := "", mPortList := [] }

/-- An output stream route with bit index `id`, applicable for the rule engine, without
ports, that matches the streams with flag 1. -/
def demoStreamRoute (id : Nat) : AudioRoute :=
  { name := "R", id := id, isOut := true, isStreamRoute := true, portSrc := NULL,
    portDst := NULL, applicable := true, needReconfigure := false, isUsed := false,
    previouslyUsed := false, applicabilityMask := 1, requirePreEnable := false,
    requirePostDisable := false, _currentStream := NULL, _newStream := NULL }

/-- A stream with flag 1 at address `id`. -/
def demoStream (id : Ptr) (isStarted : Bool) : Stream :=
  { id := id, isStarted := isStarted, applicabilityMask := 1, isRouted := false }

/-- The masks of a direction without any route. -/
def noRoutes : RouteMasks := { needReflow := 0, needRepath := 0, enabled := 0, prevEnabled := 0 }

/-- A route manager with the output stream route 0 and one started output stream, before
its first reconsideration. -/
def demoManager : AudioRouteManager :=
  { _routeMap := [demoStreamRoute 0]
    _streamsList := { input := [], output := [demoStream 10 true] }
    _portMap := freeHeap
    _portGroupMap := demoGroups
    _routes := { input := noRoutes, output := noRoutes }
    _routingStageCriterion := none
    _selectedClosingRoutes := { input := 0, output := 0 }
    _selectedOpenedRoutes := { input := 0, output := 0 }
    voiceVolume := 0
    trace := [] }

/-- A route manager at the Mute stage of a cycle: in the output direction the routes 0, 2
and 3 were enabled, the routes 1, 2 and 3 are enabled now and route 2 needs a reflow. -/
def demoMuteManager : AudioRouteManager :=
  { demoManager with
    _routes :=
      { input := noRoutes,
        output := { needReflow := 4, needRepath := 3, enabled := 14, prevEnabled := 13 } } }

/-- The example route manager with its route flagged `needReconfigure`. -/
def demoReconfigureManager : AudioRouteManager :=
  { demoManager with _routeMap := [{ demoStreamRoute 0 with needReconfigure := true }] }

/-- A heap in which the ports 1 and 2 know that they belong to group 1. -/
def demoExclusiveHeap : PortHeap := fun q =>
  if q = 1 ∨ q = 2 then { freePort with mGroupList := [1] } else freePort

/-- An output route between port 1 and no port, applicable for the rule engine. -/
def demoPortRoute : AudioRoute :=
  { demoStreamRoute 1 with isStreamRoute := false, portSrc := 1 }

/-- A route manager whose ports 1 and 2 are mutually exclusive. -/
def demoExclusiveManager : AudioRouteManager :=
  { demoManager with _portMap := demoExclusiveHeap }

/-! ## Routing element maps (AudioRouteManager.h) -/

/-- Modelled from the spec: a typed map `std::map<std::string, T *>` of routing elements
(ports, port groups, routes, stream routes), its entries kept in the order of their names;
the elements are taken by value. -/
structure ElementMap (T : Type) where
  entries : List (String × T)

/-- The search `elementsMap.find(name)` in a list of entries. -/
def ElementMap.findIn {T : Type} : List (String × T) → String → Option T
  | [], _ => none
  | (k, v) :: rest, name => if k = name then some v else ElementMap.findIn rest name

/-- The search `elementsMap.find(name)`: the element registered under `name`, or `none`
for `elementsMap.end()`. -/
def ElementMap.find {T : Type} (elementsMap : ElementMap T) (name : String) : Option T :=
  ElementMap.findIn elementsMap.entries name

/-- The assignment `elementsMap[name] = element` in a list of entries sorted by name. -/
def ElementMap.assignIn {T : Type} : List (String × T) → String → T → List (String × T)
  | [], name, element => [(name, element)]
  | (k, v) :: rest, name, element =>
    if name < k then (name, element) :: (k, v) :: rest
    else if k = name then (k, element) :: rest
    else (k, v) :: ElementMap.assignIn rest name element

/-- The assignment `elementsMap[name] = element`. -/
def ElementMap.assign {T : Type} (elementsMap : ElementMap T) (name : String) (element : T) :
    ElementMap T :=
  { entries := ElementMap.assignIn elementsMap.entries name element }

/-- Modelled from the spec: `AudioRouteManager::addElement<T>` (declared in
AudioRouteManager.h, defined in the missing AudioRouteManager.cpp): it "registers a named
element in a typed map; fails (assert/fatal) if name already present", a duplicate element
name being a configuration error that is "surfaced as an assertion/abort".  `make name id`
is `new T(name, id)`.  The result is `none` for the fatal failure, otherwise the returned
boolean ("true if added") and the map after the call. -/
def addElement {T : Type} (make : String → Nat → T) (name : String) (id : Nat)
    (elementsMap : ElementMap T) : Option (Bool × ElementMap T) :=
  if (elementsMap.find name).isSome then none
  else some (true, elementsMap.assign name (make name id))

/-- Modelled from the spec: `AudioRouteManager::getElement<T>` (declared in
AudioRouteManager.h, defined in the missing AudioRouteManager.cpp): "valid pointer on
routing element if found, assert if element not found".  The map is passed by reference:
the result is `none` for the failed assertion, otherwise the element and the map after the
call. -/
def getElement {T : Type} (name : String) (elementsMap : ElementMap T) :
    Option (T × ElementMap T) :=
  match elementsMap.find name with
  | some element => some (element, elementsMap)
  | none => none

/-- Modelled from the spec: `AudioRouteManager::findElementByName<T>` (declared in
AudioRouteManager.h, defined in the missing AudioRouteManager.cpp): "valid pointer on
element if found, NULL otherwise".  The map is passed by value.  The outer `Option` is
`none` for a fatal failure, the inner one is `none` for `NULL`. -/
def findElementByName {T : Type} (name : String) (elementsMap : ElementMap T) :
    Option (Option T) :=
  some (elementsMap.find name)

/-! ## Stream interface (AudioRouteManager.h, class StreamInterfaceImpl) -/

/-- `StreamInterfaceImpl::startStream`: `return _routeMgr->reconsiderRouting(true);`.  The
method `AudioRouteManager::reconsiderRouting(bool)` of the route manager `_routeMgr`, whose
body is not among the sources, is the parameter `reconsiderRouting`. -/
def StreamInterfaceImpl.startStream {σ : Type} (reconsiderRouting : Bool → σ → σ)
    (_routeMgr : σ) : σ :=
  reconsiderRouting true _routeMgr

/-- `StreamInterfaceImpl::stopStream`: `return _routeMgr->reconsiderRouting(true);`. -/
def StreamInterfaceImpl.stopStream {σ : Type} (reconsiderRouting : Bool → σ → σ)
    (_routeMgr : σ) : σ :=
  reconsiderRouting true _routeMgr

/-- `StreamInterfaceImpl::reconsiderRouting`: `return _routeMgr->reconsiderRouting(false);`.
-/
def StreamInterfaceImpl.reconsiderRouting {σ : Type} (reconsiderRouting : Bool → σ → σ)
    (_routeMgr : σ) : σ :=
  reconsiderRouting false _routeMgr

/-- A route manager that does nothing but record the requests it receives: the values of
`isSynchronous`, in the order of the calls of `reconsiderRouting`. -/
def recordReconsiderRouting (isSynchronous : Bool) (requests : List Bool) : List Bool :=
  requests ++ [isSynchronous]

/-- An element map with the port `"Bt"` of id 1 and the port `"Hdmi"` of id 2. -/
def demoElementMap : ElementMap (String × Nat) :=
  { entries := [("Bt", ("Bt", 1)), ("Hdmi", ("Hdmi", 2))] }

/-! ## Platform state adapter (AudioPlatformState.hpp) -/

/-- The status `android::BAD_VALUE` (`-EINVAL`). -/
def BAD_VALUE : Int := -22

/-- Modelled from the spec: class `KeyValuePairs` (KeyValuePairs.hpp is not among the
sources), a collection of {key, value} pairs with at most one value per key, as used by
the helpers of AudioPlatformState.hpp: `get`, `add` and `remove`.  The pairs are listed in
`mMap`. -/
structure KeyValuePairs where
  mMap : List (String × String)
deriving DecidableEq

/-- The first value listed under `key`. -/
def KeyValuePairs.lookup : List (String × String) → String → Option String
  | [], _ => none
  | (k, v) :: rest, key => if k = key then some v else KeyValuePairs.lookup rest key

/-- Modelled from the spec: `KeyValuePairs::get(key, value)`: `some value` stands for the
status `android::OK` with the value stored under `key`, `none` for an error status (the
key is absent). -/
def KeyValuePairs.get (pairs : KeyValuePairs) (key : String) : Option String :=
  KeyValuePairs.lookup pairs.mMap key

/-- Modelled from the spec: `KeyValuePairs::remove(key)`: the pairs under `key` are
dropped, every other pair is kept. -/
def KeyValuePairs.remove (pairs : KeyValuePairs) (key : String) : KeyValuePairs :=
  { mMap := pairs.mMap.filter (fun kv => !decide (kv.1 = key)) }

/-- Modelled from the spec: `KeyValuePairs::add(key, value)`: the pair is added when `key`
is absent; a key already present keeps its value. -/
def KeyValuePairs.add (pairs : KeyValuePairs) (key value : String) : KeyValuePairs :=
  if (pairs.get key).isSome then pairs else { mMap := pairs.mMap ++ [(key, value)] }

/-- Modelled from the spec: the interface of class `Parameter` (Parameter.hpp is not among
the sources) that the helpers of AudioPlatformState.hpp call.  A parameter is a value of
`P`; what its methods read and write (criteria, rogue parameters of the parameter
frameworks) is the state `W`.  `setValue` returns its boolean and the state after the call;
`getValue` returns `some literalValue` for `true` and `none` for `false`. -/
structure ParameterOps (P W : Type) where
  getKey : P → String
  setValue : P → String → W → Bool × W
  getValue : P → W → Option String

/-- The members of a `SetFromAndroidParameterHelper`: the collection `*mPairs` and the
counter `*mErrorCount`. -/
structure SetFromAndroidParameterHelper where
  mPairs : KeyValuePairs
  mErrorCount : Int
deriving DecidableEq

/-- `SetFromAndroidParameterHelper::operator()(Parameter *param)`:
`if (mPairs->get(key, value) == android::OK) { if (!param->setValue(value)) { *mErrorCount
+= 1; } }`; the key is not removed. -/
def SetFromAndroidParameterHelper.call {P W : Type} (ops : ParameterOps P W)
    (helper : SetFromAndroidParameterHelper) (param : P) (w : W) :
    SetFromAndroidParameterHelper × W :=
  let key := ops.getKey param
  match helper.mPairs.get key with
  | some value =>
    let r := ops.setValue param value w
    if !r.1 then ({ helper with mErrorCount := helper.mErrorCount + 1 }, r.2)
    else (helper, r.2)
  | none => (helper, w)

/-- The loop `std::for_each(begin, end, SetFromAndroidParameterHelper(&pairs, &errorCount))`
over a vector of parameters. -/
def SetFromAndroidParameterHelper.forEach {P W : Type} (ops : ParameterOps P W) :
    List P → SetFromAndroidParameterHelper → W → SetFromAndroidParameterHelper × W
  | [], helper, w => (helper, w)
  | param :: rest, helper, w =>
    let r := SetFromAndroidParameterHelper.call ops helper param w
    SetFromAndroidParameterHelper.forEach ops rest r.1 r.2

/-- The calls of `setValue` that the claim on `SetFromAndroidParameterHelper` expects: one
for each parameter whose key is in the collection, in the order of the vector, with the
value stored under that key. -/
def expectedSetValueCalls {P W : Type} (ops : ParameterOps P W) (pairs : KeyValuePairs)
    (params : List P) : List (P × String) :=
  params.filterMap (fun param => (pairs.get (ops.getKey param)).map (fun v => (param, v)))

/-- A sequence of calls `param->setValue(value)` made one after the other: the booleans
they return, and the state after the last one. -/
def runSetValueCalls {P W : Type} (ops : ParameterOps P W) :
    List (P × String) → W → List Bool × W
  | [], w => ([], w)
  | c :: rest, w =>
    let r := ops.setValue c.1 c.2 w
    let q := runSetValueCalls ops rest r.2
    (r.1 :: q.1, q.2)

/-- The members of a `GetFromAndroidParameterHelper`: the query `*mPairsIn` and the output
`*mPairsOut`. -/
structure GetFromAndroidParameterHelper where
  mPairsIn : KeyValuePairs
  mPairsOut : KeyValuePairs
deriving DecidableEq

/-- `GetFromAndroidParameterHelper::operator()(Parameter *param)`:
`if (mPairsIn->get(key, value) == android::OK) { if (param->getValue(literalValue)) {
mPairsOut->add(key, literalValue); mPairsIn->remove(key); } }`. -/
def GetFromAndroidParameterHelper.call {P W : Type} (ops : ParameterOps P W) (w : W)
    (helper : GetFromAndroidParameterHelper) (param : P) : GetFromAndroidParameterHelper :=
  let key := ops.getKey param
  match helper.mPairsIn.get key with
  | some _ =>
    match ops.getValue param w with
    | some literalValue =>
      { mPairsIn := helper.mPairsIn.remove key,
        mPairsOut := helper.mPairsOut.add key literalValue }
    | none => helper
  | none => helper

/-- The loop `std::for_each(begin, end, GetFromAndroidParameterHelper(&pairsIn, &pairsOut))`
over a vector of parameters. -/
def GetFromAndroidParameterHelper.forEach {P W : Type} (ops : ParameterOps P W) (w : W) :
    List P → GetFromAndroidParameterHelper → GetFromAndroidParameterHelper
  | [], helper => helper
  | param :: rest, helper =>
    GetFromAndroidParameterHelper.forEach ops w rest
      (GetFromAndroidParameterHelper.call ops w helper param)

/-- `ClearKeyAndroidParameterHelper::operator()(Parameter *param)` on the collection
`*mPairs`: `if (mPairs->get(key, value) == android::OK) { mPairs->remove(key); }`. -/
def ClearKeyAndroidParameterHelper.call {P W : Type} (ops : ParameterOps P W)
    (mPairs : KeyValuePairs) (param : P) : KeyValuePairs :=
  let key := ops.getKey param
  match mPairs.get key with
  | some _ => mPairs.remove key
  | none => mPairs

/-- The loop `std::for_each(begin, end, ClearKeyAndroidParameterHelper(pairs))` over a
vector of parameters. -/
def ClearKeyAndroidParameterHelper.forEach {P W : Type} (ops : ParameterOps P W) :
    List P → KeyValuePairs → KeyValuePairs
  | [], mPairs => mPairs
  | param :: rest, mPairs =>
    ClearKeyAndroidParameterHelper.forEach ops rest
      (ClearKeyAndroidParameterHelper.call ops mPairs param)

/-- Modelled from the spec: `AudioPlatformState::clearKeys(pairs)` (declared in
AudioPlatformState.hpp, its body is not among the sources): "clear all the keys found into
AudioParameter and in the configuration file", by the clear helper applied to every
parameter of `mParameterVector`; the keys that remain are only logged. -/
def AudioPlatformState.clearKeys {P W : Type} (ops : ParameterOps P W)
    (mParameterVector : List P) (pairs : KeyValuePairs) : KeyValuePairs :=
  ClearKeyAndroidParameterHelper.forEach ops mParameterVector pairs

/-- Modelled from the spec: `AudioPlatformState::setParameters` (declared in
AudioPlatformState.hpp, its body is not among the sources): the pairs of the string
`keyValuePairs`, here already parsed, are offered to every parameter of `mParameterVector`
by the set helper, with an error counter that starts at zero; the result is `OK` "if these
parameters were applied correctly, error code otherwise".  `isSynchronous` only affects
when the routing is reconsidered and is left out. -/
def AudioPlatformState.setParameters {P W : Type} (ops : ParameterOps P W)
    (mParameterVector : List P) (keyValuePairs : KeyValuePairs) (w : W) : Int × W :=
  let r := SetFromAndroidParameterHelper.forEach ops mParameterVector
    { mPairs := keyValuePairs, mErrorCount := 0 } w
  (if r.1.mErrorCount = 0 then OK else BAD_VALUE, r.2)

/-- Modelled from the spec: `AudioPlatformState::getParameters` (declared in
AudioPlatformState.hpp, its body is not among the sources): the keys of the string `keys`,
here already parsed, are looked up in every parameter of `mParameterVector` by the get
helper, which starts from an empty output; the output is what is returned. -/
def AudioPlatformState.getParameters {P W : Type} (ops : ParameterOps P W)
    (mParameterVector : List P) (keys : KeyValuePairs) (w : W) : KeyValuePairs :=
  (GetFromAndroidParameterHelper.forEach ops w mParameterVector
    { mPairsIn := keys, mPairsOut := { mMap := [] } }).mPairsOut

/-! ## Tiny ALSA audio device (TinyAlsaAudioDevice.cpp) -/

/-- The status `android::NO_ERROR`. -/
def NO_ERROR : Int := 0

/-- The status `android::NO_MEMORY` (`-ENOMEM`). -/
def NO_MEMORY : Int := -12

/-- The status `android::DEAD_OBJECT` (`-EPIPE`). -/
def DEAD_OBJECT : Int := -32

/-- The calls a device makes to tinyalsa and to the power library. -/
inductive DeviceCall where
  | acquire_wake_lock
  | release_wake_lock
  | pcm_open (deviceId : Nat) (isOut : Bool)
  | pcm_is_ready (handle : Ptr)
  | pcm_prepare (handle : Ptr)
  | pcm_close (handle : Ptr)
deriving DecidableEq

/-- A `TinyAlsaAudioDevice`: its handle `_pcmDevice` (`NULL` when the device is closed),
and the calls it has made to tinyalsa and to the power library so far, the oldest first. -/
structure TinyAlsaAudioDevice where
  _pcmDevice : Ptr
  calls : List DeviceCall
deriving DecidableEq

/-- What tinyalsa answers during one `open`: the handle returned by `pcm_open`, and the
values returned by `pcm_is_ready` and `pcm_prepare` on that handle. -/
structure TinyAlsaAnswers where
  pcm_open : Ptr
  pcm_is_ready : Int
  pcm_prepare : Int
deriving DecidableEq

/-- `TinyAlsaAudioDevice::acquirePowerLock`:
`acquire_wake_lock(PARTIAL_WAKE_LOCK, POWER_LOCK_TAG);`. -/
def TinyAlsaAudioDevice.acquirePowerLock (dev : TinyAlsaAudioDevice) : TinyAlsaAudioDevice :=
  { dev with calls := dev.calls ++ [DeviceCall.acquire_wake_lock] }

/-- `TinyAlsaAudioDevice::releasePowerLock`: `release_wake_lock(POWER_LOCK_TAG);`. -/
def TinyAlsaAudioDevice.releasePowerLock (dev : TinyAlsaAudioDevice) : TinyAlsaAudioDevice :=
  { dev with calls := dev.calls ++ [DeviceCall.release_wake_lock] }

/-- `TinyAlsaAudioDevice::close`: `DEAD_OBJECT` when the handle is `NULL`; otherwise
`pcm_close(_pcmDevice); _pcmDevice = NULL; releasePowerLock(); return android::OK;`. -/
def TinyAlsaAudioDevice.close (dev : TinyAlsaAudioDevice) : Int × TinyAlsaAudioDevice :=
  if dev._pcmDevice = NULL then (DEAD_OBJECT, dev)
  else
    let closed : TinyAlsaAudioDevice :=
      { _pcmDevice := NULL, calls := dev.calls ++ [DeviceCall.pcm_close dev._pcmDevice] }
    (OK, closed.releasePowerLock)

/-- `TinyAlsaAudioDevice::open(cardName, deviceId, routeConfig, isOut)`.  The result is
`none` when one of the two assertions fails (device already opened, null card name, the
latter being `cardName = none`).  The route configuration is only copied into the
`pcm_config` handed to `pcm_open`, whose answer is taken from `tinyalsa`.  `pcm_is_ready`
is asked only on a non-null handle; the label `close_device` is `close(); return
android::NO_MEMORY;`. -/
def TinyAlsaAudioDevice.open (dev : TinyAlsaAudioDevice) (tinyalsa : TinyAlsaAnswers)
    (cardName : Option String) (deviceId : Nat) (isOut : Bool) :
    Option (Int × TinyAlsaAudioDevice) :=
  if dev._pcmDevice ≠ NULL then none
  else if cardName.isNone then none
  else
    let locked := dev.acquirePowerLock
    let opened : TinyAlsaAudioDevice :=
      { _pcmDevice := tinyalsa.pcm_open,
        calls := locked.calls ++ [DeviceCall.pcm_open deviceId isOut] }
    if opened._pcmDevice ≠ NULL then
      let asked : TinyAlsaAudioDevice :=
        { opened with calls := opened.calls ++ [DeviceCall.pcm_is_ready opened._pcmDevice] }
      if tinyalsa.pcm_is_ready = 0 then some (NO_MEMORY, asked.close.2)
      else
        let prepared : TinyAlsaAudioDevice :=
          { asked with calls := asked.calls ++ [DeviceCall.pcm_prepare asked._pcmDevice] }
        if tinyalsa.pcm_prepare ≠ 0 then some (NO_MEMORY, prepared.close.2)
        else some (NO_ERROR, prepared)
    else
      let prepared : TinyAlsaAudioDevice :=
        { opened with calls := opened.calls ++ [DeviceCall.pcm_prepare opened._pcmDevice] }
      if tinyalsa.pcm_prepare ≠ 0 then some (NO_MEMORY, prepared.close.2)
      else some (NO_ERROR, prepared)

/-- A closed device that has made no call yet. -/
def closedDevice : TinyAlsaAudioDevice := { _pcmDevice := NULL, calls := [] }

/-! ## Detach and attach passes of the Disable and Enable stages -/

/-- A closing stream route, in the words of the spec: a stream route that was "opened
before reconsidering the routing" and "will be closed after" or "requests to be rerouted".
-/
def AudioRoute.isClosing (r : AudioRoute) : Bool :=
  r.isStreamRoute && ((r.previouslyUsed && !r.isUsed) || r.needReflow)

/-- A stream route being enabled, in the words of the spec: a stream route that was "not
enabled" before and "will be enabled after the routing reconsideration", or that
"requested to be rerouted". -/
def AudioRoute.isBeingEnabled (r : AudioRoute) : Bool :=
  r.isStreamRoute && ((!r.previouslyUsed && r.isUsed) || r.needReflow)

/-- The events that a stage or a pass has added to the log: those of `after` that follow
the log of `before`. -/
def stageEvents (before after : AudioRouteManager) : List Event :=
  after.trace.drop before.trace.length

/-- The output stream route 0, which requires post-disable, was used by stream 10 and is
closing. -/
def demoClosingRoute : AudioRoute :=
  { demoStreamRoute 0 with
    previouslyUsed := true
    requirePostDisable := true
    _currentStream := 10 }

/-- The output stream route 1, which requires pre-enable, is being enabled for stream 11.
-/
def demoOpeningRoute : AudioRoute :=
  { demoStreamRoute 1 with
    isUsed := true
    requirePreEnable := true
    _newStream := 11 }

/-- A route manager in a cycle that swaps two output stream routes: route 0, which requires
post-disable, was used by stream 10 and is closing; route 1, which requires pre-enable, is
being enabled for stream 11. -/
def demoSwapManager : AudioRouteManager :=
  { demoManager with
    _routeMap := [demoClosingRoute, demoOpeningRoute]
    _routes :=
      { input := noRoutes,
        output := { needReflow := 0, needRepath := 3, enabled := 2, prevEnabled := 1 } } }


/-! ## Shared keys in the get helper, and the membership of port groups -/

/-- The literal value of the first parameter of a vector that has the key `key` and whose
`getValue` succeeds, if there is one. -/
def firstLiteralValue {P W : Type} (ops : ParameterOps P W) (w : W) (key : String)
    (params : List P) : Option String :=
  (params.filterMap
    (fun param => if ops.getKey param = key then ops.getValue param w else none)).head?

/-- A rogue parameter of the examples: its key and the literal value it holds, if it can be
read. -/
def demoRogueOps : ParameterOps (String × Option String) Unit :=
  { getKey := fun param => param.1,
    setValue := fun _ _ w => (true, w),
    getValue := fun param _ => param.2 }

/-- Modelled from the spec: `AudioPort::addGroupToPort` (AudioPort.cpp is not among the
sources): the group joins the port's "back-references to owning groups". -/
def AudioPort.addGroupToPort (p : AudioPort) (portGroup : Ptr) : AudioPort :=
  { p with mGroupList := p.mGroupList ++ [portGroup] }

/-- `AudioPortGroup::addPortToGroup`, for the group stored at address `thisGroup`.  `none`
is the failed `AUDIOCOMMS_ASSERT(port != NULL, ...)`; otherwise the group and the port heap
after `mPortList.push_back(port); port->addGroupToPort(this);`. -/
def AudioPortGroup.addPortToGroup (g : AudioPortGroup) (thisGroup : Ptr) (port : Ptr)
    (mem : PortHeap) : Option (AudioPortGroup × PortHeap) :=
  if port = NULL then none
  else
    some ({ g with mPortList := g.mPortList ++ [port] },
      mem.store port ((mem port).addGroupToPort thisGroup))

/-! ## Sample specification (SampleSpec.cpp) -/

/-- What stops a member function of `SampleSpec` before it returns: a failed
`AUDIOCOMMS_ASSERT`, with its message, or an integer division by zero. -/
inductive Fault where
  | assertion (message : String)
  | divisionByZero
deriving DecidableEq

/-- The enumeration `SampleSpec::ChannelsPolicy` of SampleSpec.h, which is not among the
sources; SampleSpec.cpp names its value `Copy`. -/
inductive ChannelsPolicy where
  | Copy
  | Average
  | Ignore
deriving DecidableEq

/-- The enumeration `SampleSpecItem` of SampleSpec.h, which is not among the sources:
the three items that SampleSpec.cpp names, and their number `NbSampleSpecItems`, which is
an enumerator too and no valid item. -/
inductive SampleSpecItem where
  | ChannelCountSampleSpecItem
  | FormatSampleSpecItem
  | RateSampleSpecItem
  | NbSampleSpecItems
deriving DecidableEq

/-- State of a `SampleSpec`: the array `_sampleSpec` of `uint32_t`, with one entry per valid
item (channel count, format, rate), `_channelMask` and the vector `_channelsPolicy`. -/
structure SampleSpec where
  channelCount : Nat
  format : Nat
  sampleRate : Nat
  _channelMask : Nat
  _channelsPolicy : List ChannelsPolicy
deriving DecidableEq

/-- The constant `USEC_PER_SEC` of SampleSpec.h, which is not among the sources: the
number of microseconds in a second. -/
def USEC_PER_SEC : Nat := 1000000

/-- The macro `SAMPLE_SPEC_ITEM_IS_VALID`:
`sampleSpecItem >= 0 && sampleSpecItem < NbSampleSpecItems`. -/
def SampleSpecItem.isValid (sampleSpecItem : SampleSpecItem) : Bool :=
  sampleSpecItem != SampleSpecItem.NbSampleSpecItems

/-- The assignment `_sampleSpec[sampleSpecItem] = value` for a valid item. -/
def SampleSpec.writeItem (s : SampleSpec) (sampleSpecItem : SampleSpecItem) (value : Nat) :
    SampleSpec :=
  match sampleSpecItem with
  | SampleSpecItem.ChannelCountSampleSpecItem => { s with channelCount := value }
  | SampleSpecItem.FormatSampleSpecItem => { s with format := value }
  | SampleSpecItem.RateSampleSpecItem => { s with sampleRate := value }
  | SampleSpecItem.NbSampleSpecItems => s

/-- The loop `for (uint32_t i = 0; i < value; i++) { _channelsPolicy.push_back(Copy); }`,
by the number of iterations that remain. -/
def resetChannelsPolicyLoop : Nat → List ChannelsPolicy → List ChannelsPolicy
  | 0, channelsPolicy => channelsPolicy
  | n + 1, channelsPolicy =>
    resetChannelsPolicyLoop n (channelsPolicy ++ [ChannelsPolicy.Copy])

/-- `SampleSpec::setSampleSpecItem(sampleSpecItem, value)`.  `MAX_CHANNELS` is the constant
of SampleSpec.h, which is not among the sources. -/
def SampleSpec.setSampleSpecItem (MAX_CHANNELS : Nat) (s : SampleSpec)
    (sampleSpecItem : SampleSpecItem) (value : Nat) : Except Fault SampleSpec :=
  if !sampleSpecItem.isValid then
    Except.error (Fault.assertion "Invalid Sample Specifications")
  else if sampleSpecItem = SampleSpecItem.ChannelCountSampleSpecItem then
    if value < MAX_CHANNELS then
      Except.ok
        ({ s with _channelsPolicy := resetChannelsPolicyLoop value [] }.writeItem
          sampleSpecItem value)
    else Except.error (Fault.assertion "Max channel number reached")
  else Except.ok (s.writeItem sampleSpecItem value)

/-- `SampleSpec::setChannelsPolicy(channelsPolicy)`. -/
def SampleSpec.setChannelsPolicy (s : SampleSpec) (channelsPolicy : List ChannelsPolicy) :
    Except Fault SampleSpec :=
  if channelsPolicy.length ≤ s.channelCount then
    Except.ok { s with _channelsPolicy := channelsPolicy }
  else
    Except.error (Fault.assertion "Channel policy vector has more channel than sample spec")

/-- `SampleSpec::init(channel, format, rate)`. -/
def SampleSpec.init (MAX_CHANNELS : Nat) (s : SampleSpec) (channel format rate : Nat) :
    Except Fault SampleSpec :=
  match ({ s with _channelMask := 0 }).setSampleSpecItem MAX_CHANNELS
      SampleSpecItem.ChannelCountSampleSpecItem channel with
  | Except.error e => Except.error e
  | Except.ok s1 =>
    match s1.setSampleSpecItem MAX_CHANNELS SampleSpecItem.FormatSampleSpecItem format with
    | Except.error e => Except.error e
    | Except.ok s2 =>
      s2.setSampleSpecItem MAX_CHANNELS SampleSpecItem.RateSampleSpecItem rate

/-- A `SampleSpec` object before the body of its constructor runs: the vector is empty; the
integer members are not initialised, and `init` writes each of them before anything reads
it. -/
def SampleSpec.fresh : SampleSpec :=
  { channelCount := 0, format := 0, sampleRate := 0, _channelMask := 0, _channelsPolicy := [] }

/-- The constructor `SampleSpec::SampleSpec(channel, format, rate)`. -/
def SampleSpec.construct (MAX_CHANNELS : Nat) (channel format rate : Nat) :
    Except Fault SampleSpec :=
  SampleSpec.fresh.init MAX_CHANNELS channel format rate

/-- The constructor `SampleSpec::SampleSpec(channel, format, rate, channelsPolicy)`. -/
def SampleSpec.constructWithPolicy (MAX_CHANNELS : Nat) (channel format rate : Nat)
    (channelsPolicy : List ChannelsPolicy) : Except Fault SampleSpec :=
  match SampleSpec.fresh.init MAX_CHANNELS channel format rate with
  | Except.error e => Except.error e
  | Except.ok s => s.setChannelsPolicy channelsPolicy

/-- A call of one of the two setters of `SampleSpec`. -/
inductive SampleSpecCall where
  | setSampleSpecItem (sampleSpecItem : SampleSpecItem) (value : Nat)
  | setChannelsPolicy (channelsPolicy : List ChannelsPolicy)
deriving DecidableEq

/-- One call of a setter. -/
def SampleSpec.call (MAX_CHANNELS : Nat) (s : SampleSpec) :
    SampleSpecCall → Except Fault SampleSpec
  | SampleSpecCall.setSampleSpecItem sampleSpecItem value =>
    s.setSampleSpecItem MAX_CHANNELS sampleSpecItem value
  | SampleSpecCall.setChannelsPolicy channelsPolicy => s.setChannelsPolicy channelsPolicy

/-- A sequence of calls of the setters, which stops at the first one that fails. -/
def SampleSpec.calls (MAX_CHANNELS : Nat) : List SampleSpecCall → SampleSpec →
    Except Fault SampleSpec
  | [], s => Except.ok s
  | c :: rest, s =>
    match s.call MAX_CHANNELS c with
    | Except.error e => Except.error e
    | Except.ok s1 => SampleSpec.calls MAX_CHANNELS rest s1

/-- `SampleSpec::getFrameSize`: `audio_bytes_per_sample(getFormat()) * getChannelCount()`,
a product of `size_t`.  `sizeBits` is the width of `size_t` (32 or 64) and
`audio_bytes_per_sample` the function of the Android audio headers, which are not among the
sources. -/
def SampleSpec.getFrameSize (sizeBits : Nat) (audio_bytes_per_sample : Nat → Nat)
    (s : SampleSpec) : Nat :=
  (audio_bytes_per_sample s.format * s.channelCount) % 2 ^ sizeBits

/-- `SampleSpec::convertBytesToFrames(bytes)`. -/
def SampleSpec.convertBytesToFrames (sizeBits : Nat) (audio_bytes_per_sample : Nat → Nat)
    (s : SampleSpec) (bytes : Nat) : Except Fault Nat :=
  if s.getFrameSize sizeBits audio_bytes_per_sample = 0 then
    Except.error (Fault.assertion "Null frame size")
  else Except.ok (bytes / s.getFrameSize sizeBits audio_bytes_per_sample)

/-- `SampleSpec::convertFramesToBytes(frames)`; `numeric_limits<size_t>::max()` is
`2 ^ sizeBits - 1` and the product is one of `size_t`. -/
def SampleSpec.convertFramesToBytes (sizeBits : Nat) (audio_bytes_per_sample : Nat → Nat)
    (s : SampleSpec) (frames : Nat) : Except Fault Nat :=
  if s.getFrameSize sizeBits audio_bytes_per_sample = 0 then
    Except.error (Fault.assertion "Null frame size")
  else if frames ≤ (2 ^ sizeBits - 1) / s.getFrameSize sizeBits audio_bytes_per_sample then
    Except.ok ((frames * s.getFrameSize sizeBits audio_bytes_per_sample) % 2 ^ sizeBits)
  else Except.error (Fault.assertion "conversion exceeds limit")

/-- `SampleSpec::convertFramesToUsec(frames)`, `frames` being a `uint32_t`.  The second
assertion divides `frames` by the sample rate, which is a division by zero when the rate is
zero; the product `USEC_PER_SEC * static_cast<uint64_t>(frames)` is one of `uint64_t`, its
quotient by the sample rate is converted to the `size_t` that is returned. -/
def SampleSpec.convertFramesToUsec (sizeBits : Nat) (audio_bytes_per_sample : Nat → Nat)
    (s : SampleSpec) (frames : Nat) : Except Fault Nat :=
  if s.getFrameSize sizeBits audio_bytes_per_sample = 0 then
    Except.error (Fault.assertion "Null frame size")
  else if s.sampleRate = 0 then Except.error Fault.divisionByZero
  else if frames / s.sampleRate ≤ (2 ^ sizeBits - 1) / USEC_PER_SEC then
    Except.ok (((USEC_PER_SEC * frames) % 2 ^ 64 / s.sampleRate) % 2 ^ sizeBits)
  else Except.error (Fault.assertion "conversion exceeds limit")

/-- `SampleSpec::convertUsecToframes(intervalUsec)`, `intervalUsec` being a `uint32_t`:
`static_cast<uint64_t>(intervalUsec) * getSampleRate() / USEC_PER_SEC`, a quotient of
`uint64_t` converted to the `size_t` that is returned. -/
def SampleSpec.convertUsecToframes (sizeBits : Nat) (s : SampleSpec) (intervalUsec : Nat) :
    Nat :=
  ((intervalUsec * s.sampleRate) % 2 ^ 64 / USEC_PER_SEC) % 2 ^ sizeBits

/-- The width in bytes of the samples of the examples: format 1 has samples of two bytes
(16 bits), format 2 of one byte, every other format of none. -/
def demoBytesPerSample (format : Nat) : Nat :=
  if format = 1 then 2 else if format = 2 then 1 else 0

/-- A stereo 16-bit sample specification at 48 kHz. -/
def demoSampleSpec : SampleSpec :=
  { channelCount := 2, format := 1, sampleRate := 48000, _channelMask := 0,
    _channelsPolicy := [ChannelsPolicy.Copy, ChannelsPolicy.Copy] }

/-- A stereo 16-bit sample specification whose sample rate is zero. -/
def demoNullRateSpec : SampleSpec :=
  { channelCount := 2, format := 1, sampleRate := 0, _channelMask := 0,
    _channelsPolicy := [ChannelsPolicy.Copy, ChannelsPolicy.Copy] }

/-! ## Wake lock of the tiny ALSA device -/

/-- The effect of one call on the wake lock of the device's tag: `acquire_wake_lock` takes
it, `release_wake_lock` gives it back, the other calls leave it. -/
def wakeLockStep (held : Bool) : DeviceCall → Bool
  | DeviceCall.acquire_wake_lock => true
  | DeviceCall.release_wake_lock => false
  | _ => held

/-- Whether the wake lock, not held at first, is held after a sequence of calls. -/
def wakeLockHeld (calls : List DeviceCall) : Bool :=
  calls.foldl wakeLockStep false

/-- A request to a device: `open`, with what tinyalsa answers during it, or `close`. -/
inductive DeviceRequest where
  | openDevice (tinyalsa : TinyAlsaAnswers) (cardName : Option String) (deviceId : Nat)
      (isOut : Bool)
  | closeDevice
deriving DecidableEq

/-- Whether tinyalsa keeps its guarantee in a request: `pcm_open` returns a pcm structure,
never `NULL`. -/
def DeviceRequest.pcmOpenReturnsStructure : DeviceRequest → Bool
  | DeviceRequest.openDevice tinyalsa _ _ _ => tinyalsa.pcm_open != NULL
  | DeviceRequest.closeDevice => true

/-- One request: the status returned and the device after it, or `none` when an assertion
of `open` fails. -/
def TinyAlsaAudioDevice.request (dev : TinyAlsaAudioDevice) :
    DeviceRequest → Option (Int × TinyAlsaAudioDevice)
  | DeviceRequest.openDevice tinyalsa cardName deviceId isOut =>
    dev.open tinyalsa cardName deviceId isOut
  | DeviceRequest.closeDevice => some dev.close

/-- A sequence of requests: the statuses returned and the device after the last one, or
`none` when an assertion fails on the way. -/
def TinyAlsaAudioDevice.requests :
    List DeviceRequest → TinyAlsaAudioDevice → Option (List Int × TinyAlsaAudioDevice)
  | [], dev => some ([], dev)
  | r :: rest, dev =>
    match dev.request r with
    | none => none
    | some (status, after) =>
      match TinyAlsaAudioDevice.requests rest after with
      | none => none
      | some (statuses, last) => some (status :: statuses, last)


/-! ### Lemmas on the blocking loop -/

theorem PortHeap.store_same (mem : PortHeap) (a : Ptr) (p : AudioPort) :
    mem.store a p a = p := by
  simp [PortHeap.store]

theorem PortHeap.store_other (mem : PortHeap) (a q : Ptr) (p : AudioPort) (h : q ≠ a) :
    mem.store a p q = mem q := by
  simp [PortHeap.store, h]

/-- The loop leaves the port it is called for untouched. -/
theorem blockLoop_self (port : Ptr) (l : List Ptr) (mem : PortHeap) :
    blockMutualExclusivePortLoop port l mem port = mem port := by
  induction l generalizing mem with
  | nil => rfl
  | cons a rest ih =>
    unfold blockMutualExclusivePortLoop
    by_cases h : port ≠ a
    · rw [if_pos h, ih, PortHeap.store_other _ _ _ _ h]
    · rw [if_neg h, ih]

/-- The loop leaves every port outside the list untouched. -/
theorem blockLoop_not_mem (port : Ptr) (l : List Ptr) (mem : PortHeap) (q : Ptr)
    (hq : q ∉ l) : blockMutualExclusivePortLoop port l mem q = mem q := by
  induction l generalizing mem with
  | nil => rfl
  | cons a rest ih =>
    have hqa : q ≠ a := fun h => hq (h ▸ List.mem_cons_self _ _)
    have hqr : q ∉ rest := fun h => hq (List.mem_cons_of_mem _ h)
    unfold blockMutualExclusivePortLoop
    by_cases h : port ≠ a
    · rw [if_pos h, ih _ hqr, PortHeap.store_other _ _ _ _ hqa]
    · rw [if_neg h, ih _ hqr]

/-- The loop changes at most the `blocked` flag of any port. -/
theorem blockLoop_frame (port : Ptr) (l : List Ptr) (mem : PortHeap) (q : Ptr) :
    ∃ b, blockMutualExclusivePortLoop port l mem q = (mem q).setBlocked b := by
  induction l generalizing mem with
  | nil => exact ⟨(mem q).mIsBlocked, rfl⟩
  | cons a rest ih =>
    unfold blockMutualExclusivePortLoop
    by_cases h : port ≠ a
    · rw [if_pos h]
      obtain ⟨b, hb⟩ := ih (mem.store a ((mem a).setBlocked true))
      by_cases hqa : q = a
      · subst hqa
        refine ⟨b, ?_⟩
        rw [hb, PortHeap.store_same]
        rfl
      · exact ⟨b, by rw [hb, PortHeap.store_other _ _ _ _ hqa]⟩
    · rw [if_neg h]
      exact ih mem

/-- A port that is blocked stays blocked through the loop. -/
theorem blockLoop_mono (port : Ptr) (l : List Ptr) (mem : PortHeap) (q : Ptr)
    (hq : (mem q).mIsBlocked = true) :
    (blockMutualExclusivePortLoop port l mem q).mIsBlocked = true := by
  induction l generalizing mem with
  | nil => exact hq
  | cons a rest ih =>
    unfold blockMutualExclusivePortLoop
    by_cases h : port ≠ a
    · rw [if_pos h]
      apply ih
      by_cases hqa : q = a
      · subst hqa
        rw [PortHeap.store_same]
        rfl
      · rw [PortHeap.store_other _ _ _ _ hqa]
        exact hq
    · rw [if_neg h]
      exact ih mem hq

/-- Every member of the list other than `port` is blocked after the loop. -/
theorem blockLoop_blocks (port : Ptr) (l : List Ptr) (mem : PortHeap) (q : Ptr)
    (hq : q ∈ l) (hne : q ≠ port) :
    (blockMutualExclusivePortLoop port l mem q).mIsBlocked = true := by
  induction l generalizing mem with
  | nil => cases hq
  | cons a rest ih =>
    unfold blockMutualExclusivePortLoop
    by_cases h : port ≠ a
    · rw [if_pos h]
      rcases List.mem_cons.mp hq with hqa | hqr
      · subst hqa
        apply blockLoop_mono
        rw [PortHeap.store_same]
        rfl
      · exact ih _ hqr
    · rw [if_neg h]
      have hpa : port = a := not_not.mp h
      rcases List.mem_cons.mp hq with hqa | hqr
      · exact absurd (hqa.trans hpa.symm) hne
      · exact ih _ hqr


/-! ### Lemmas on masks -/

theorem PerDirection.get_set {α : Type} (p : PerDirection α) (a b : Bool) (v : α) :
    (p.set a v).get b = if a = b then v else p.get b := by
  cases a <;> cases b <;> rfl

theorem PerDirection.get_mk {α : Type} (x y : α) (b : Bool) :
    (PerDirection.mk x y).get b = if b then y else x := by
  cases b <;> rfl

theorem setBit_false (index mask : Nat) : setBit false index mask = mask := rfl

/-- A set bit of a `uint32_t` value has an index below 32. -/
theorem testBit_lt_of_lt_two_pow {x i : Nat} (hx : x < 2 ^ 32) (hi : x.testBit i = true) :
    i < 32 := by
  by_contra hge
  have hle : 2 ^ 32 ≤ 2 ^ i := Nat.pow_le_pow_right (by decide) (Nat.le_of_not_lt hge)
  have := Nat.testBit_lt_two_pow (Nat.lt_of_lt_of_le hx hle)
  rw [this] at hi
  cases hi

/-- Bits of the 32-bit complement. -/
theorem testBit_not32 (x i : Nat) :
    (not32 x).testBit i = (decide (i < 32) && !x.testBit i) := by
  unfold not32
  rw [Nat.testBit_xor, Nat.testBit_two_pow_sub_one, Nat.testBit_mod_two_pow]
  by_cases h : i < 32 <;> simp [h]

/-- Bits of the routes to mute. -/
theorem testBit_routesToMute (k : RouteMasks) (i : Nat) :
    (routesToMute k).testBit i =
      ((k.prevEnabled.testBit i && (decide (i < 32) && !k.enabled.testBit i)) ||
        ((k.prevEnabled.testBit i && k.enabled.testBit i) && k.needReflow.testBit i)) := by
  unfold routesToMute
  simp only [Nat.testBit_or, Nat.testBit_and, testBit_not32]

/-- Bits of the routes that stay unmuted. -/
theorem testBit_unmutedRoutes (k : RouteMasks) (i : Nat) :
    (unmutedRoutes k).testBit i =
      ((k.prevEnabled.testBit i && k.enabled.testBit i) &&
        (decide (i < 32) && !k.needReflow.testBit i)) := by
  unfold unmutedRoutes
  simp only [Nat.testBit_and, testBit_not32]

/-! ### Lemmas on the log of the stages -/

theorem stagesOf_append (a b : List Event) : stagesOf (a ++ b) = stagesOf a ++ stagesOf b := by
  simp [stagesOf, List.filterMap_append]

theorem doDisableRoutesLoop_stages (b : Bool) (l : List AudioRoute) :
    stagesOf (doDisableRoutesLoop b l).2 = [] ∧
      ∀ e ∈ (doDisableRoutesLoop b l).2, e.isRoute = false := by
  induction l with
  | nil => simp [doDisableRoutesLoop, stagesOf]
  | cons r rest ih =>
    unfold doDisableRoutesLoop
    by_cases h : r.toDisable b = true
    · simp only [h, if_true]
      refine ⟨?_, ?_⟩
      · have := ih.1
        simp only [stagesOf, List.filterMap_cons] at this ⊢
        exact this
      · intro e he
        rcases List.mem_cons.mp he with rfl | he
        · rfl
        · exact ih.2 e he
    · simp only [h]
      exact ih

theorem doEnableRoutesLoop_stages (b : Bool) (l : List AudioRoute) :
    stagesOf (doEnableRoutesLoop b l).2 = [] := by
  induction l with
  | nil => simp [doEnableRoutesLoop, stagesOf]
  | cons r rest ih =>
    unfold doEnableRoutesLoop
    by_cases h : r.toEnable b = true
    · simp only [h, if_true]
      simp only [stagesOf, List.filterMap_cons] at ih ⊢
      exact ih
    · simp only [h]
      exact ih

/-- A route that a disable pass handles gets its `unroute` event in that pass. -/
theorem doDisableRoutesLoop_event (b : Bool) (l : List AudioRoute) (r : AudioRoute)
    (hr : r ∈ l) (h : r.toDisable b = true) :
    Event.unroute r.isOut r.id b ∈ (doDisableRoutesLoop b l).2 := by
  induction l with
  | nil => cases hr
  | cons a rest ih =>
    unfold doDisableRoutesLoop
    rcases List.mem_cons.mp hr with rfl | hr
    · simp [h]
    · by_cases ha : a.toDisable b = true
      · simp only [ha, if_true]
        exact List.mem_cons_of_mem _ (ih hr)
      · simp only [ha]
        exact ih hr

/-- A route that a disable pass does not handle is still in the route list after it. -/
theorem doDisableRoutesLoop_keep (b : Bool) (l : List AudioRoute) (r : AudioRoute)
    (hr : r ∈ l) (h : r.toDisable b = false) : r ∈ (doDisableRoutesLoop b l).1 := by
  induction l with
  | nil => cases hr
  | cons a rest ih =>
    unfold doDisableRoutesLoop
    rcases List.mem_cons.mp hr with rfl | hr
    · simp [h]
    · by_cases ha : a.toDisable b = true
      · simp only [ha, if_true]
        exact List.mem_cons_of_mem _ (ih hr)
      · simp only [ha]
        exact List.mem_cons_of_mem _ (ih hr)

/-- The log after the Mute stage. -/
theorem executeMuteRoutingStage_trace (m : AudioRouteManager) :
    m.executeMuteRoutingStage.trace = m.trace ++
      [Event.stage Stage.Mute,
        Event.setClosingRoutes false (routesToMute (m._routes.get false)),
        Event.setOpenedRoutes false (unmutedRoutes (m._routes.get false)),
        Event.setClosingRoutes true (routesToMute (m._routes.get true)),
        Event.setOpenedRoutes true (unmutedRoutes (m._routes.get true)),
        Event.commitCriteriaAndApply] := by
  simp [AudioRouteManager.executeMuteRoutingStage, AudioRouteManager.setRoutingStage,
    AudioRouteManager.setRouteCriteriaForMute, AudioRouteManager.setRouteCriteria,
    AudioRouteManager.commitCriteriaAndApply, AudioRouteManager.log]

/-- The log after the Disable stage. -/
theorem executeDisableRoutingStage_trace (m : AudioRouteManager) :
    m.executeDisableRoutingStage.trace = m.trace ++
      ([Event.stage Stage.Disable,
          Event.setClosingRoutes false (m._selectedClosingRoutes.get false |||
            ((m._routes.get false).prevEnabled &&& not32 (m._routes.get false).enabled)),
          Event.setOpenedRoutes false (m._selectedOpenedRoutes.get false &&&
            not32 ((m._routes.get false).prevEnabled &&& not32 (m._routes.get false).enabled)),
          Event.setClosingRoutes true (m._selectedClosingRoutes.get true |||
            ((m._routes.get true).prevEnabled &&& not32 (m._routes.get true).enabled)),
          Event.setOpenedRoutes true (m._selectedOpenedRoutes.get true &&&
            not32 ((m._routes.get true).prevEnabled &&& not32 (m._routes.get true).enabled))] ++
        (doDisableRoutesLoop false m._routeMap).2 ++ [Event.commitCriteriaAndApply] ++
        (doDisableRoutesLoop true (doDisableRoutesLoop false m._routeMap).1).2) := by
  simp [AudioRouteManager.executeDisableRoutingStage, AudioRouteManager.setRoutingStage,
    AudioRouteManager.setRouteCriteriaForDisable, AudioRouteManager.setRouteCriteria,
    AudioRouteManager.commitCriteriaAndApply, AudioRouteManager.log,
    AudioRouteManager.doDisableRoutes, AudioRouteManager.doPostDisableRoutes]

/-- The log after the Configure stage. -/
theorem executeConfigureRoutingStage_trace (m : AudioRouteManager) :
    m.executeConfigureRoutingStage.trace = m.trace ++
      [Event.stage Stage.Configure, Event.setClosingRoutes false 0,
        Event.setOpenedRoutes false (m._routes.get false).enabled,
        Event.setClosingRoutes true 0,
        Event.setOpenedRoutes true (m._routes.get true).enabled,
        Event.commitCriteriaAndApply] := by
  simp [AudioRouteManager.executeConfigureRoutingStage, AudioRouteManager.setRoutingStage,
    AudioRouteManager.setRouteCriteriaForConfigure, AudioRouteManager.setRouteCriteria,
    AudioRouteManager.commitCriteriaAndApply, AudioRouteManager.log]

/-- The log after the Enable stage. -/
theorem executeEnableRoutingStage_trace (m : AudioRouteManager) :
    m.executeEnableRoutingStage.trace = m.trace ++
      ([Event.stage Stage.Enable] ++ (doEnableRoutesLoop true m._routeMap).2 ++
        [Event.commitCriteriaAndApply] ++
        (doEnableRoutesLoop false (doEnableRoutesLoop true m._routeMap).1).2) := by
  simp [AudioRouteManager.executeEnableRoutingStage, AudioRouteManager.setRoutingStage,
    AudioRouteManager.commitCriteriaAndApply, AudioRouteManager.log,
    AudioRouteManager.doEnableRoutes, AudioRouteManager.doPreEnableRoutes]

/-- The log after the Unmute stage. -/
theorem executeUnmuteRoutingStage_trace (m : AudioRouteManager) :
    m.executeUnmuteRoutingStage.trace = m.trace ++
      [Event.stage Stage.Unmute, Event.commitCriteriaAndApply] := by
  simp [AudioRouteManager.executeUnmuteRoutingStage, AudioRouteManager.setRoutingStage,
    AudioRouteManager.commitCriteriaAndApply, AudioRouteManager.log]

/-- The stages leave the masks alone. -/
theorem executeMuteRoutingStage_routes (m : AudioRouteManager) :
    m.executeMuteRoutingStage._routes = m._routes ∧
      m.executeMuteRoutingStage._routeMap = m._routeMap := ⟨rfl, rfl⟩

theorem executeDisableRoutingStage_routes (m : AudioRouteManager) :
    m.executeDisableRoutingStage._routes = m._routes := rfl

theorem executeConfigureRoutingStage_routes (m : AudioRouteManager) :
    m.executeConfigureRoutingStage._routes = m._routes ∧
      m.executeConfigureRoutingStage._routeMap = m._routeMap := ⟨rfl, rfl⟩

theorem executeEnableRoutingStage_routes (m : AudioRouteManager) :
    m.executeEnableRoutingStage._routes = m._routes := rfl

theorem executeUnmuteRoutingStage_routes (m : AudioRouteManager) :
    m.executeUnmuteRoutingStage._routes = m._routes ∧
      m.executeUnmuteRoutingStage._routeMap = m._routeMap := ⟨rfl, rfl⟩

theorem executeRouting_routes (m : AudioRouteManager) :
    m.executeRouting._routes = m._routes := by
  unfold AudioRouteManager.executeRouting
  rw [(executeUnmuteRoutingStage_routes _).1, executeEnableRoutingStage_routes,
    (executeConfigureRoutingStage_routes _).1, executeDisableRoutingStage_routes,
    (executeMuteRoutingStage_routes _).1]


/-- The stages leave the ports alone. -/
theorem executeRouting_portMap (m : AudioRouteManager) :
    m.executeRouting._portMap = m._portMap := by
  have h1 : ∀ k : AudioRouteManager, k.executeMuteRoutingStage._portMap = k._portMap :=
    fun _ => rfl
  have h2 : ∀ k : AudioRouteManager, k.executeDisableRoutingStage._portMap = k._portMap :=
    fun _ => rfl
  have h3 : ∀ k : AudioRouteManager, k.executeConfigureRoutingStage._portMap = k._portMap :=
    fun _ => rfl
  have h4 : ∀ k : AudioRouteManager, k.executeEnableRoutingStage._portMap = k._portMap :=
    fun _ => rfl
  have h5 : ∀ k : AudioRouteManager, k.executeUnmuteRoutingStage._portMap = k._portMap :=
    fun _ => rfl
  unfold AudioRouteManager.executeRouting
  rw [h5, h4, h3, h2, h1]

/-! ### Lemmas on the preparation loop: what it leaves alone -/

/-- The manager returned by `setStreamForRoute` differs from the given one in the stream
lists only. -/
theorem setStreamForRoute_frame (m : AudioRouteManager) (r : AudioRoute) :
    (m.setStreamForRoute r).2.2.trace = m.trace ∧
    (m.setStreamForRoute r).2.2._portGroupMap = m._portGroupMap ∧
    (m.setStreamForRoute r).2.2._portMap = m._portMap ∧
    (m.setStreamForRoute r).2.2._routes = m._routes ∧
    (m.setStreamForRoute r).2.2._routingStageCriterion = m._routingStageCriterion ∧
    (m.setStreamForRoute r).2.2._selectedClosingRoutes = m._selectedClosingRoutes ∧
    (m.setStreamForRoute r).2.2._selectedOpenedRoutes = m._selectedOpenedRoutes ∧
    (m.setStreamForRoute r).2.2.voiceVolume = m.voiceVolume := by
  unfold AudioRouteManager.setStreamForRoute
  cases setStreamForRouteLoop r (m._streamsList.get r.isOut) <;> simp

theorem evaluateApplicability_frame (m : AudioRouteManager) (r : AudioRoute) :
    (m.evaluateApplicability r).2.2.trace = m.trace ∧
    (m.evaluateApplicability r).2.2._portGroupMap = m._portGroupMap ∧
    (m.evaluateApplicability r).2.2._portMap = m._portMap ∧
    (m.evaluateApplicability r).2.2._routes = m._routes ∧
    (m.evaluateApplicability r).2.2._routingStageCriterion = m._routingStageCriterion ∧
    (m.evaluateApplicability r).2.2._selectedClosingRoutes = m._selectedClosingRoutes ∧
    (m.evaluateApplicability r).2.2._selectedOpenedRoutes = m._selectedOpenedRoutes ∧
    (m.evaluateApplicability r).2.2.voiceVolume = m.voiceVolume := by
  unfold AudioRouteManager.evaluateApplicability
  split_ifs
  · exact setStreamForRoute_frame m r
  · simp
  · simp

/-- One step of the preparation leaves the log and the criteria alone. -/
theorem prepareRoute_frame (m : AudioRouteManager) (r : AudioRoute) :
    (m.prepareRoute r).2.trace = m.trace ∧
    (m.prepareRoute r).2._portGroupMap = m._portGroupMap ∧
    (m.prepareRoute r).2._routingStageCriterion = m._routingStageCriterion ∧
    (m.prepareRoute r).2._selectedClosingRoutes = m._selectedClosingRoutes ∧
    (m.prepareRoute r).2._selectedOpenedRoutes = m._selectedOpenedRoutes ∧
    (m.prepareRoute r).2.voiceVolume = m.voiceVolume := by
  have h := evaluateApplicability_frame m r
  unfold AudioRouteManager.prepareRoute
  exact ⟨h.1, h.2.1, h.2.2.2.2.1, h.2.2.2.2.2.1, h.2.2.2.2.2.2.1, h.2.2.2.2.2.2.2⟩

/-- The preparation loop leaves the log and the criteria alone. -/
theorem prepareRoutes_frame (l : List AudioRoute) (m : AudioRouteManager) :
    (prepareRoutes l m).2.trace = m.trace ∧
    (prepareRoutes l m).2._portGroupMap = m._portGroupMap ∧
    (prepareRoutes l m).2._routingStageCriterion = m._routingStageCriterion ∧
    (prepareRoutes l m).2._selectedClosingRoutes = m._selectedClosingRoutes ∧
    (prepareRoutes l m).2._selectedOpenedRoutes = m._selectedOpenedRoutes ∧
    (prepareRoutes l m).2.voiceVolume = m.voiceVolume := by
  induction l generalizing m with
  | nil => simp [prepareRoutes]
  | cons r rest ih =>
    have h := prepareRoute_frame m r
    have h2 := ih ((m.prepareRoute r).2.setNeedBits (m.prepareRoute r).1)
    simp only [prepareRoutes]
    refine ⟨h2.1.trans h.1, h2.2.1.trans h.2.1, h2.2.2.1.trans h.2.2.1,
      h2.2.2.2.1.trans h.2.2.2.1, h2.2.2.2.2.1.trans h.2.2.2.2.1,
      h2.2.2.2.2.2.trans h.2.2.2.2.2⟩

/-- The preparation of a cycle leaves the log and the criteria alone. -/
theorem checkAndPrepareRouting_frame (m : AudioRouteManager) :
    m.checkAndPrepareRouting.2.trace = m.trace ∧
    m.checkAndPrepareRouting.2._portGroupMap = m._portGroupMap ∧
    m.checkAndPrepareRouting.2._routingStageCriterion = m._routingStageCriterion ∧
    m.checkAndPrepareRouting.2._selectedClosingRoutes = m._selectedClosingRoutes ∧
    m.checkAndPrepareRouting.2._selectedOpenedRoutes = m._selectedOpenedRoutes ∧
    m.checkAndPrepareRouting.2.voiceVolume = m.voiceVolume :=
  prepareRoutes_frame m.resetRouting._routeMap m.resetRouting

/-- One step of the preparation leaves `prevEnabled` alone. -/
theorem prepareRoute_prevEnabled (m : AudioRouteManager) (r : AudioRoute) (isOut : Bool) :
    (m.prepareRoute r).2.prevEnabledRoutes isOut = m.prevEnabledRoutes isOut := by
  have h := (evaluateApplicability_frame m r).2.2.2.1
  unfold AudioRouteManager.prepareRoute AudioRouteManager.prevEnabledRoutes
  simp only [PerDirection.get_set, h]
  split_ifs with hd
  · subst hd; rfl
  · rfl

theorem setNeedBits_prevEnabled (m : AudioRouteManager) (r : AudioRoute) (isOut : Bool) :
    (m.setNeedBits r).prevEnabledRoutes isOut = m.prevEnabledRoutes isOut := by
  unfold AudioRouteManager.setNeedBits AudioRouteManager.prevEnabledRoutes
  simp only [PerDirection.get_set]
  split_ifs with hd
  · subst hd; rfl
  · rfl

/-- The preparation loop leaves `prevEnabled` alone. -/
theorem prepareRoutes_prevEnabled (l : List AudioRoute) (m : AudioRouteManager)
    (isOut : Bool) :
    (prepareRoutes l m).2.prevEnabledRoutes isOut = m.prevEnabledRoutes isOut := by
  induction l generalizing m with
  | nil => rfl
  | cons r rest ih =>
    simp only [prepareRoutes]
    rw [ih, setNeedBits_prevEnabled, prepareRoute_prevEnabled]

/-! ### Lemmas on the stream search -/

/-- The search fails exactly when no stream of the list is eligible. -/
theorem setStreamForRouteLoop_none (route : AudioRoute) (l : List Stream) :
    setStreamForRouteLoop route l = none ↔ ∀ x ∈ l, x.isEligible route = false := by
  induction l with
  | nil => simp [setStreamForRouteLoop]
  | cons st rest ih =>
    unfold setStreamForRouteLoop
    by_cases h : st.isEligible route = true
    · rw [if_pos h]
      simp [h]
    · rw [if_neg h]
      have hf : st.isEligible route = false := Bool.eq_false_iff.mpr h
      cases hrest : setStreamForRouteLoop route rest with
      | none =>
        simp only [List.mem_cons, forall_eq_or_imp, true_iff]
        exact ⟨hf, ih.mp hrest⟩
      | some r =>
        simp only [List.mem_cons, forall_eq_or_imp, false_iff, reduceCtorEq, not_and]
        intro _ hall
        rw [ih.mpr hall] at hrest
        cases hrest

/-- A successful search claims the first eligible stream and leaves the others alone. -/
theorem setStreamForRouteLoop_some (route : AudioRoute) (l : List Stream) (p : Ptr)
    (l' : List Stream) (h : setStreamForRouteLoop route l = some (p, l')) :
    ∃ pre st post, l = pre ++ st :: post ∧ (∀ x ∈ pre, x.isEligible route = false) ∧
      st.isEligible route = true ∧ p = st.id ∧
      l' = pre ++ { st with isRouted := true } :: post := by
  induction l generalizing l' with
  | nil => simp [setStreamForRouteLoop] at h
  | cons a rest ih =>
    unfold setStreamForRouteLoop at h
    by_cases ha : a.isEligible route = true
    · rw [if_pos ha] at h
      simp only [Option.some.injEq, Prod.mk.injEq] at h
      exact ⟨[], a, rest, rfl, by simp, ha, h.1.symm, h.2.symm⟩
    · rw [if_neg ha] at h
      cases hrest : setStreamForRouteLoop route rest with
      | none => simp [hrest] at h
      | some r =>
        simp only [hrest, Option.some.injEq, Prod.mk.injEq] at h
        obtain ⟨pre, st, post, hl, hpre, hst, hp, hl'⟩ := ih r.2 (by rw [hrest, ← h.1])
        refine ⟨a :: pre, st, post, by simp [hl], ?_, hst, hp, ?_⟩
        · intro x hx
          rcases List.mem_cons.mp hx with rfl | hx
          · exact Bool.eq_false_iff.mpr ha
          · exact hpre x hx
        · rw [← h.2, hl']
          rfl

/-! ### Lemmas on port exclusivity -/

theorem blockLoop_groupList (port : Ptr) (l : List Ptr) (mem : PortHeap) (q : Ptr) :
    (blockMutualExclusivePortLoop port l mem q).mGroupList = (mem q).mGroupList := by
  obtain ⟨b, hb⟩ := blockLoop_frame port l mem q
  rw [hb]
  rfl

theorem blockSiblings_mono (groups : Ptr → AudioPortGroup) (port : Ptr) (gl : List Ptr)
    (mem : PortHeap) (q : Ptr) (hq : (mem q).mIsBlocked = true) :
    (blockSiblings groups port gl mem q).mIsBlocked = true := by
  induction gl generalizing mem with
  | nil => exact hq
  | cons g rest ih =>
    unfold blockSiblings AudioPortGroup.blockMutualExclusivePort
    by_cases hp : port = NULL
    · rw [if_pos hp]
      exact ih mem hq
    · rw [if_neg hp]
      exact ih _ (blockLoop_mono port _ mem q hq)

theorem blockSiblings_groupList (groups : Ptr → AudioPortGroup) (port : Ptr)
    (gl : List Ptr) (mem : PortHeap) (q : Ptr) :
    (blockSiblings groups port gl mem q).mGroupList = (mem q).mGroupList := by
  induction gl generalizing mem with
  | nil => rfl
  | cons g rest ih =>
    unfold blockSiblings AudioPortGroup.blockMutualExclusivePort
    by_cases hp : port = NULL
    · rw [if_pos hp]
      exact ih mem
    · rw [if_neg hp]
      exact (ih _).trans (blockLoop_groupList port _ mem q)

/-- Every other port of every group asked is blocked afterwards. -/
theorem blockSiblings_blocks (groups : Ptr → AudioPortGroup) (port : Ptr) (gl : List Ptr)
    (mem : PortHeap) (g q : Ptr) (hp : port ≠ NULL) (hg : g ∈ gl)
    (hq : q ∈ (groups g).mPortList) (hne : q ≠ port) :
    (blockSiblings groups port gl mem q).mIsBlocked = true := by
  induction gl generalizing mem with
  | nil => cases hg
  | cons a rest ih =>
    unfold blockSiblings AudioPortGroup.blockMutualExclusivePort
    rw [if_neg hp]
    rcases List.mem_cons.mp hg with rfl | hg
    · exact blockSiblings_mono _ _ _ _ _ (blockLoop_blocks port _ mem q hq hne)
    · exact ih _ hg

theorem setPortUsed_mono (groups : Ptr → AudioPortGroup) (port : Ptr) (mem : PortHeap)
    (q : Ptr) (hq : (mem q).mIsBlocked = true) :
    (setPortUsed groups port mem q).mIsBlocked = true := by
  unfold setPortUsed
  split_ifs with hp
  · exact hq
  · apply blockSiblings_mono
    by_cases hqp : q = port
    · subst hqp
      rw [PortHeap.store_same]
      exact hq
    · rw [PortHeap.store_other _ _ _ _ hqp]
      exact hq

theorem setPortUsed_groupList (groups : Ptr → AudioPortGroup) (port : Ptr) (mem : PortHeap)
    (q : Ptr) : (setPortUsed groups port mem q).mGroupList = (mem q).mGroupList := by
  unfold setPortUsed
  split_ifs with hp
  · rfl
  · rw [blockSiblings_groupList]
    by_cases hqp : q = port
    · subst hqp
      rw [PortHeap.store_same]
    · rw [PortHeap.store_other _ _ _ _ hqp]

/-- Claiming a port blocks its siblings in each of its groups. -/
theorem setPortUsed_blocks (groups : Ptr → AudioPortGroup) (port : Ptr) (mem : PortHeap)
    (g q : Ptr) (hp : port ≠ NULL) (hg : g ∈ (mem port).mGroupList)
    (hq : q ∈ (groups g).mPortList) (hne : q ≠ port) :
    (setPortUsed groups port mem q).mIsBlocked = true := by
  unfold setPortUsed
  simp only [hp, if_false]
  exact blockSiblings_blocks groups port _ _ g q hp hg hq hne

/-- A route with a blocked port is not applicable, whatever the rule engine says. -/
theorem isApplicable_of_blocked (r : AudioRoute) (mem : PortHeap) (p : Ptr)
    (hp : p ≠ NULL) (hr : r.portSrc = p ∨ r.portDst = p)
    (hb : (mem p).mIsBlocked = true) :
    r.isApplicable mem = false ∧ ∀ mask, AudioStreamRoute.isApplicable r mask mem = false := by
  have hblocked : r.isBlocked mem = true := by
    unfold AudioRoute.isBlocked
    rcases hr with h | h
    · simp [h, hp, hb]
    · simp [h, hp, hb]
  have h1 : r.isApplicable mem = false := by
    simp [AudioRoute.isApplicable, hblocked]
  exact ⟨h1, fun mask => by simp [AudioStreamRoute.isApplicable, h1]⟩

/-- What one step of the preparation does to the ports. -/
theorem prepareRoute_portMap (m : AudioRouteManager) (r : AudioRoute) :
    (m.prepareRoute r).2._portMap =
      if (m.prepareRoute r).1.isUsed then
        setPortUsed m._portGroupMap r.portDst (setPortUsed m._portGroupMap r.portSrc m._portMap)
      else m._portMap := by
  have hf := evaluateApplicability_frame m r
  have hports : (m.evaluateApplicability r).2.1.portSrc = r.portSrc ∧
      (m.evaluateApplicability r).2.1.portDst = r.portDst := by
    unfold AudioRouteManager.evaluateApplicability AudioRouteManager.setStreamForRoute
    split_ifs
    · cases setStreamForRouteLoop r (m._streamsList.get r.isOut) <;> simp
    · simp
    · simp
  unfold AudioRouteManager.prepareRoute AudioRoute.setUsed
  simp only [hf.2.1, hf.2.2.1, hports.1, hports.2]
  cases (m.evaluateApplicability r).1 <;> simp

theorem prepareRoute_mono (m : AudioRouteManager) (r : AudioRoute) (q : Ptr) :
    ((m.prepareRoute r).2._portMap q).mGroupList = (m._portMap q).mGroupList ∧
    ((m._portMap q).mIsBlocked = true → ((m.prepareRoute r).2._portMap q).mIsBlocked = true) := by
  rw [prepareRoute_portMap]
  split_ifs
  · refine ⟨by rw [setPortUsed_groupList, setPortUsed_groupList], fun h => ?_⟩
    exact setPortUsed_mono _ _ _ _ (setPortUsed_mono _ _ _ _ h)
  · exact ⟨rfl, fun h => h⟩

theorem setNeedBits_portMap (m : AudioRouteManager) (r : AudioRoute) :
    (m.setNeedBits r)._portMap = m._portMap ∧
      (m.setNeedBits r)._portGroupMap = m._portGroupMap := ⟨rfl, rfl⟩

/-- A port that is blocked stays blocked through the rest of the preparation loop. -/
theorem prepareRoutes_mono (l : List AudioRoute) (m : AudioRouteManager) (q : Ptr)
    (h : (m._portMap q).mIsBlocked = true) :
    ((prepareRoutes l m).2._portMap q).mIsBlocked = true := by
  induction l generalizing m with
  | nil => exact h
  | cons r rest ih =>
    simp only [prepareRoutes]
    apply ih
    rw [(setNeedBits_portMap _ _).1]
    exact (prepareRoute_mono m r q).2 h

/-- A route that is not applicable is left unused by `prepareRoute`, and no bit is set in
the `enabled` masks. -/
theorem prepareRoute_not_applicable (m : AudioRouteManager) (r : AudioRoute)
    (h : r.isApplicable m._portMap = false) :
    (m.prepareRoute r).1.isUsed = false ∧
      ∀ isOut, (m.prepareRoute r).2.enabledRoutes isOut = m.enabledRoutes isOut := by
  have hfound : m.evaluateApplicability r = (false, r, m) := by
    unfold AudioRouteManager.evaluateApplicability
    simp [h]
  unfold AudioRouteManager.prepareRoute AudioRouteManager.enabledRoutes
  simp only [hfound, AudioRoute.setUsed, setBit_false, PerDirection.get_set]
  refine ⟨by simp, fun isOut => ?_⟩
  split_ifs with hd
  · subst hd; rfl
  · rfl

/-! ### Lemmas on the preparation loop: what it computes from -/

/-- The result of the applicability test in terms of the stream search. -/
theorem evaluateApplicability_eq (m : AudioRouteManager) (r : AudioRoute) :
    m.evaluateApplicability r =
      if r.isStreamRoute = true ∧ r.isApplicable m._portMap = true then
        match setStreamForRouteLoop r (m._streamsList.get r.isOut) with
        | some s =>
          (true, { r with _newStream := s.1 },
            { m with _streamsList := m._streamsList.set r.isOut s.2 })
        | none => (false, r, m)
      else (!r.isStreamRoute && r.isApplicable m._portMap, r, m) := by
  unfold AudioRouteManager.evaluateApplicability AudioRouteManager.setStreamForRoute
  by_cases hs : r.isStreamRoute = true
  · by_cases ha : r.isApplicable m._portMap = true
    · simp [hs, ha]
    · simp [hs, ha]
  · simp [hs]

/-- The stream search does not look at `previouslyUsed` and `_currentStream`. -/
theorem setStreamForRouteLoop_sim (r : AudioRoute) (a : Bool) (b : Ptr) (l : List Stream) :
    setStreamForRouteLoop { r with previouslyUsed := a, _currentStream := b } l =
      setStreamForRouteLoop r l := by
  induction l with
  | nil => rfl
  | cons st rest ih =>
    unfold setStreamForRouteLoop
    rw [ih]
    rfl

/-- The applicability test does not look at `previouslyUsed` and `_currentStream`, nor at
anything of the manager but the stream lists and the ports. -/
theorem evaluateApplicability_sim (m m' : AudioRouteManager) (r : AudioRoute) (a : Bool)
    (b : Ptr) (hs : m'._streamsList = m._streamsList) (hp : m'._portMap = m._portMap) :
    (m'.evaluateApplicability { r with previouslyUsed := a, _currentStream := b }).1 =
      (m.evaluateApplicability r).1 ∧
    (m'.evaluateApplicability { r with previouslyUsed := a, _currentStream := b }).2.1 =
      { (m.evaluateApplicability r).2.1 with previouslyUsed := a, _currentStream := b } ∧
    (m'.evaluateApplicability
      { r with previouslyUsed := a, _currentStream := b }).2.2._streamsList =
      (m.evaluateApplicability r).2.2._streamsList := by
  rw [evaluateApplicability_eq, evaluateApplicability_eq, hs, hp, setStreamForRouteLoop_sim]
  have happ : AudioRoute.isApplicable { r with previouslyUsed := a, _currentStream := b }
      m._portMap = r.isApplicable m._portMap := rfl
  simp only [happ]
  split_ifs with h
  · cases setStreamForRouteLoop r (m._streamsList.get r.isOut) with
    | none => exact ⟨rfl, rfl, hs⟩
    | some s => exact ⟨rfl, rfl, rfl⟩
  · exact ⟨rfl, rfl, hs⟩

/-- The route and the stream lists after the applicability test: only `_newStream` of the
route may have changed. -/
theorem evaluateApplicability_route (m : AudioRouteManager) (r : AudioRoute) :
    ∃ n, (m.evaluateApplicability r).2.1 = { r with _newStream := n } := by
  rw [evaluateApplicability_eq]
  split_ifs with h
  · cases setStreamForRouteLoop r (m._streamsList.get r.isOut) with
    | none => exact ⟨r._newStream, rfl⟩
    | some s => exact ⟨s.1, rfl⟩
  · exact ⟨r._newStream, rfl⟩

/-- The route after one step of the preparation: only `isUsed` and `_newStream` may have
changed. -/
theorem prepareRoute_route (m : AudioRouteManager) (r : AudioRoute) :
    ∃ u n, (m.prepareRoute r).1 = { r with isUsed := u, _newStream := n } := by
  obtain ⟨n, hn⟩ := evaluateApplicability_route m r
  unfold AudioRouteManager.prepareRoute AudioRoute.setUsed
  simp only [hn]
  cases (m.evaluateApplicability r).1
  · exact ⟨false, n, rfl⟩
  · exact ⟨true, n, rfl⟩

/-- One step of the preparation does not look at `previouslyUsed` and `_currentStream`, nor
at anything of the manager but the stream lists, the ports and the groups. -/
theorem prepareRoute_sim (m m' : AudioRouteManager) (r : AudioRoute) (a : Bool) (b : Ptr)
    (hs : m'._streamsList = m._streamsList) (hp : m'._portMap = m._portMap)
    (hg : m'._portGroupMap = m._portGroupMap) :
    (m'.prepareRoute { r with previouslyUsed := a, _currentStream := b }).1 =
      { (m.prepareRoute r).1 with previouslyUsed := a, _currentStream := b } ∧
    (m'.prepareRoute { r with previouslyUsed := a, _currentStream := b }).2._streamsList =
      (m.prepareRoute r).2._streamsList ∧
    (m'.prepareRoute { r with previouslyUsed := a, _currentStream := b }).2._portMap =
      (m.prepareRoute r).2._portMap ∧
    (m'.prepareRoute { r with previouslyUsed := a, _currentStream := b }).2._portGroupMap =
      (m.prepareRoute r).2._portGroupMap := by
  obtain ⟨h1, h2, h3⟩ := evaluateApplicability_sim m m' r a b hs hp
  have hf := evaluateApplicability_frame m r
  have hf' := evaluateApplicability_frame m'
    { r with previouslyUsed := a, _currentStream := b }
  unfold AudioRouteManager.prepareRoute AudioRoute.setUsed
  simp only [h1, h2, h3, hf.2.1, hf.2.2.1, hf'.2.1, hf'.2.2.1, hg, hp]
  cases (m.evaluateApplicability r).1 <;> simp

/-- The masks after one step of the preparation. -/
theorem prepareRoute_masks (m : AudioRouteManager) (r : AudioRoute) (isOut : Bool) :
    (m.prepareRoute r).2.enabledRoutes isOut =
      (if r.isOut = isOut then setBit (m.prepareRoute r).1.isUsed r.id (m.enabledRoutes isOut)
        else m.enabledRoutes isOut) ∧
    (m.prepareRoute r).2.needReflowRoutes isOut = m.needReflowRoutes isOut ∧
    (m.prepareRoute r).2.needRepathRoutes isOut = m.needRepathRoutes isOut := by
  have h := (evaluateApplicability_frame m r).2.2.2.1
  have hu : (m.prepareRoute r).1.isUsed = (m.evaluateApplicability r).1 := by
    unfold AudioRouteManager.prepareRoute AudioRoute.setUsed
    dsimp only
    cases (m.evaluateApplicability r).1 <;> simp
  rw [hu]
  unfold AudioRouteManager.prepareRoute AudioRouteManager.enabledRoutes
    AudioRouteManager.needReflowRoutes AudioRouteManager.needRepathRoutes
  simp only [PerDirection.get_set, h]
  split_ifs with hd
  · subst hd
    exact ⟨rfl, rfl, rfl⟩
  · exact ⟨rfl, rfl, rfl⟩

/-- The masks after the two `setBit` calls on the need masks. -/
theorem setNeedBits_masks (m : AudioRouteManager) (r : AudioRoute) (isOut : Bool) :
    (m.setNeedBits r).enabledRoutes isOut = m.enabledRoutes isOut ∧
    (m.setNeedBits r).needReflowRoutes isOut =
      (if r.isOut = isOut then setBit r.needReflow r.id (m.needReflowRoutes isOut)
        else m.needReflowRoutes isOut) ∧
    (m.setNeedBits r).needRepathRoutes isOut =
      (if r.isOut = isOut then setBit r.needRepath r.id (m.needRepathRoutes isOut)
        else m.needRepathRoutes isOut) := by
  unfold AudioRouteManager.setNeedBits AudioRouteManager.enabledRoutes
    AudioRouteManager.needReflowRoutes AudioRouteManager.needRepathRoutes
  simp only [PerDirection.get_set]
  split_ifs with hd
  · subst hd
    exact ⟨rfl, rfl, rfl⟩
  · exact ⟨rfl, rfl, rfl⟩

/-! ### Lemmas on a cycle that repeats the preceding one -/

theorem setNeedBits_frame (m : AudioRouteManager) (r : AudioRoute) :
    (m.setNeedBits r)._streamsList = m._streamsList ∧
    (m.setNeedBits r)._portMap = m._portMap ∧
    (m.setNeedBits r)._portGroupMap = m._portGroupMap := ⟨rfl, rfl, rfl⟩

/-- The preparation loop on two managers that hold the same streams, ports, groups and
`enabled` masks, for two route lists that differ in `previouslyUsed` and `_currentStream`
only.  When the second list records, route by route, the outcome of the loop on the first
one (`previouslyUsed` is the computed `used`, the attached stream is the chosen one) and
no route is flagged `needReconfigure`, then both loops compute the same streams, ports
and `enabled` masks, and the second one sets no bit in the need masks. -/
theorem prepareRoutes_settled (l l' : List AudioRoute)
    (hsim : List.Forall₂
      (fun r r' => ∃ a b, r' = { r with previouslyUsed := a, _currentStream := b }) l l') :
    ∀ (m m' : AudioRouteManager),
    List.Forall₂
      (fun o r' => r'.previouslyUsed = o.isUsed ∧
        (o.isStreamRoute = true → o.isUsed = true → r'._currentStream = o._newStream))
      (prepareRoutes l m).1 l' →
    (∀ r' ∈ l', r'.needReconfigure = false) →
    m'._streamsList = m._streamsList → m'._portMap = m._portMap →
    m'._portGroupMap = m._portGroupMap →
    (∀ d, m'.enabledRoutes d = m.enabledRoutes d) →
    (prepareRoutes l' m').2._streamsList = (prepareRoutes l m).2._streamsList ∧
    (prepareRoutes l' m').2._portMap = (prepareRoutes l m).2._portMap ∧
    (prepareRoutes l' m').2._portGroupMap = (prepareRoutes l m).2._portGroupMap ∧
    (∀ d, (prepareRoutes l' m').2.enabledRoutes d = (prepareRoutes l m).2.enabledRoutes d) ∧
    (∀ d, (prepareRoutes l' m').2.needReflowRoutes d = m'.needReflowRoutes d ∧
      (prepareRoutes l' m').2.needRepathRoutes d = m'.needRepathRoutes d) := by
  induction hsim with
  | nil =>
    intro m m' _ _ hs hp hg he
    exact ⟨hs, hp, hg, he, fun d => ⟨rfl, rfl⟩⟩
  | @cons r r' rest rest' hhead _ ih =>
    intro m m' hq hcfg hs hp hg he
    obtain ⟨a, b, rfl⟩ := hhead
    simp only [prepareRoutes] at hq ⊢
    rw [List.forall₂_cons] at hq
    obtain ⟨⟨hqa, hqb⟩, hqrest⟩ := hq
    obtain ⟨h1, h2, h3, h4⟩ := prepareRoute_sim m m' r a b hs hp hg
    have hrc : r.needReconfigure = false :=
      hcfg { r with previouslyUsed := a, _currentStream := b } (List.mem_cons_self _ _)
    obtain ⟨u, n, hun⟩ := prepareRoute_route m r
    have hqa' : a = (m.prepareRoute r).1.isUsed := hqa
    -- the prepared route of the second loop needs neither reflow nor repath
    have hrepath : (m'.prepareRoute
        { r with previouslyUsed := a, _currentStream := b }).1.needRepath = false := by
      rw [h1]
      unfold AudioRoute.needRepath
      simp [hqa']
    have hreflow : (m'.prepareRoute
        { r with previouslyUsed := a, _currentStream := b }).1.needReflow = false := by
      rw [h1]
      unfold AudioRoute.needReflow
      have hnr : (m.prepareRoute r).1.needReconfigure = false := by
        rw [hun]
        exact hrc
      by_cases hu : (m.prepareRoute r).1.isUsed = true
      · by_cases hst : (m.prepareRoute r).1.isStreamRoute = true
        · have := hqb hst hu
          simp only [] at this
          simp [hnr, this]
        · simp [hnr, hst]
      · simp [hu]
    have hmasks := prepareRoute_masks m r
    have hmasks' := prepareRoute_masks m' { r with previouslyUsed := a, _currentStream := b }
    have hused : (m'.prepareRoute
        { r with previouslyUsed := a, _currentStream := b }).1.isUsed =
        (m.prepareRoute r).1.isUsed := by
      rw [h1]
    have hid : (m'.prepareRoute
        { r with previouslyUsed := a, _currentStream := b }).1.id = r.id ∧
        (m'.prepareRoute
        { r with previouslyUsed := a, _currentStream := b }).1.isOut = r.isOut := by
      rw [h1, hun]
      exact ⟨rfl, rfl⟩
    have hres := ih ((m.prepareRoute r).2.setNeedBits (m.prepareRoute r).1)
      ((m'.prepareRoute { r with previouslyUsed := a, _currentStream := b }).2.setNeedBits
        (m'.prepareRoute { r with previouslyUsed := a, _currentStream := b }).1)
      hqrest (fun x hx => hcfg x (List.mem_cons_of_mem _ hx))
      (by rw [(setNeedBits_frame _ _).1, (setNeedBits_frame _ _).1, h2])
      (by rw [(setNeedBits_frame _ _).2.1, (setNeedBits_frame _ _).2.1, h3])
      (by rw [(setNeedBits_frame _ _).2.2, (setNeedBits_frame _ _).2.2, h4])
      (by
        intro d
        rw [(setNeedBits_masks _ _ d).1, (setNeedBits_masks _ _ d).1, (hmasks d).1,
          (hmasks' d).1, hused, he d])
    refine ⟨hres.1, hres.2.1, hres.2.2.1, hres.2.2.2.1, fun d => ?_⟩
    have hd := hres.2.2.2.2 d
    rw [(setNeedBits_masks _ _ d).2.1, (setNeedBits_masks _ _ d).2.2, hreflow, hrepath,
      setBit_false, setBit_false, (hmasks' d).2.1, (hmasks' d).2.2] at hd
    simpa using hd

/-- The routes after the preparation loop: only `isUsed` and `_newStream` may have
changed. -/
theorem prepareRoutes_routes (l : List AudioRoute) (m : AudioRouteManager) :
    List.Forall₂ (fun r o => ∃ u n, o = { r with isUsed := u, _newStream := n })
      l (prepareRoutes l m).1 := by
  induction l generalizing m with
  | nil => exact List.Forall₂.nil
  | cons r rest ih =>
    simp only [prepareRoutes]
    exact List.Forall₂.cons (prepareRoute_route m r) (ih _)

/-- Claiming the first eligible stream is undone by `resetAvailability`. -/
theorem setStreamForRouteLoop_reset (route : AudioRoute) (l : List Stream) (p : Ptr)
    (l' : List Stream) (h : setStreamForRouteLoop route l = some (p, l')) :
    l'.map Stream.resetAvailability = l.map Stream.resetAvailability := by
  obtain ⟨pre, st, post, hl, _, _, _, hl'⟩ := setStreamForRouteLoop_some route l p l' h
  rw [hl, hl']
  simp [Stream.resetAvailability]

/-- One step of the preparation changes the stream lists in `isRouted` only. -/
theorem prepareRoute_streams (m : AudioRouteManager) (r : AudioRoute) (d : Bool) :
    ((m.prepareRoute r).2._streamsList.get d).map Stream.resetAvailability =
      (m._streamsList.get d).map Stream.resetAvailability := by
  have h : (m.prepareRoute r).2._streamsList = (m.evaluateApplicability r).2.2._streamsList :=
    rfl
  rw [h, evaluateApplicability_eq]
  split_ifs with hc
  · cases hl : setStreamForRouteLoop r (m._streamsList.get r.isOut) with
    | none => rfl
    | some s =>
      simp only [PerDirection.get_set]
      split_ifs with hd
      · subst hd
        exact setStreamForRouteLoop_reset r _ s.1 s.2 hl
      · rfl
  · rfl

/-- The preparation loop changes the stream lists in `isRouted` only. -/
theorem prepareRoutes_streams (l : List AudioRoute) (m : AudioRouteManager) (d : Bool) :
    ((prepareRoutes l m).2._streamsList.get d).map Stream.resetAvailability =
      (m._streamsList.get d).map Stream.resetAvailability := by
  induction l generalizing m with
  | nil => rfl
  | cons r rest ih =>
    simp only [prepareRoutes]
    rw [ih, (setNeedBits_frame _ _).1, prepareRoute_streams]

theorem setPortUsed_reset (groups : Ptr → AudioPortGroup) (port : Ptr) (mem : PortHeap)
    (q : Ptr) :
    (setPortUsed groups port mem q).resetAvailability = (mem q).resetAvailability := by
  have hblock : ∀ (gl : List Ptr) (mem' : PortHeap),
      (blockSiblings groups port gl mem' q).resetAvailability = (mem' q).resetAvailability := by
    intro gl
    induction gl with
    | nil => intro mem'; rfl
    | cons g rest ih =>
      intro mem'
      unfold blockSiblings AudioPortGroup.blockMutualExclusivePort
      by_cases hp : port = NULL
      · rw [if_pos hp]
        exact ih mem'
      · rw [if_neg hp]
        refine (ih _).trans ?_
        obtain ⟨b, hb⟩ := blockLoop_frame port (groups g).mPortList mem' q
        show (blockMutualExclusivePortLoop port (groups g).mPortList mem' q).resetAvailability
          = (mem' q).resetAvailability
        rw [hb]
        rfl
  unfold setPortUsed
  split_ifs with hp
  · rfl
  · rw [hblock]
    by_cases hqp : q = port
    · subst hqp
      rw [PortHeap.store_same]
      rfl
    · rw [PortHeap.store_other _ _ _ _ hqp]

/-- One step of the preparation changes the ports in `blocked` and `used` only. -/
theorem prepareRoute_ports (m : AudioRouteManager) (r : AudioRoute) (q : Ptr) :
    ((m.prepareRoute r).2._portMap q).resetAvailability = (m._portMap q).resetAvailability := by
  rw [prepareRoute_portMap]
  split_ifs
  · rw [setPortUsed_reset, setPortUsed_reset]
  · rfl

/-- The preparation loop changes the ports in `blocked` and `used` only. -/
theorem prepareRoutes_ports (l : List AudioRoute) (m : AudioRouteManager) (q : Ptr) :
    ((prepareRoutes l m).2._portMap q).resetAvailability = (m._portMap q).resetAvailability := by
  induction l generalizing m with
  | nil => rfl
  | cons r rest ih =>
    simp only [prepareRoutes]
    rw [ih, (setNeedBits_frame _ _).2.1, prepareRoute_ports]

/-- Bits of a mask after `setBit`. -/
theorem testBit_setBit (isSet : Bool) (index mask i : Nat) (hi : i < 32)
    (h : mask.testBit i = true ∨ (isSet = true ∧ index = i)) :
    (setBit isSet index mask).testBit i = true := by
  unfold setBit
  cases isSet with
  | false =>
    rcases h with h | h
    · simpa using h
    · exact absurd h.1 (by decide)
  | true =>
    simp only [if_true, Nat.testBit_mod_two_pow, Nat.testBit_or, Nat.one_shiftLeft,
      Nat.testBit_two_pow, hi, decide_True, Bool.true_and, Bool.or_eq_true, decide_eq_true_eq]
    rcases h with h | h
    · exact Or.inl h
    · exact Or.inr h.2

/-- The preparation loop never clears a bit of the need masks. -/
theorem prepareRoutes_need_mono (l : List AudioRoute) (m : AudioRouteManager) (d : Bool)
    (i : Nat) (hi : i < 32) :
    ((m.needReflowRoutes d).testBit i = true →
      ((prepareRoutes l m).2.needReflowRoutes d).testBit i = true) ∧
    ((m.needRepathRoutes d).testBit i = true →
      ((prepareRoutes l m).2.needRepathRoutes d).testBit i = true) := by
  induction l generalizing m with
  | nil => exact ⟨fun h => h, fun h => h⟩
  | cons r rest ih =>
    simp only [prepareRoutes]
    have hm := prepareRoute_masks m r d
    have hn := setNeedBits_masks (m.prepareRoute r).2 (m.prepareRoute r).1 d
    have hrec := ih ((m.prepareRoute r).2.setNeedBits (m.prepareRoute r).1)
    refine ⟨fun h => hrec.1 ?_, fun h => hrec.2 ?_⟩
    · rw [hn.2.1, hm.2.1]
      split_ifs
      · exact testBit_setBit _ _ _ _ hi (Or.inl h)
      · exact h
    · rw [hn.2.2, hm.2.2]
      split_ifs
      · exact testBit_setBit _ _ _ _ hi (Or.inl h)
      · exact h

/-- When the need masks are zero after the preparation loop, no prepared route needs a
reflow or a repath (the route ids being bit indexes below 32). -/
theorem prepareRoutes_need_zero (l : List AudioRoute) (m : AudioRouteManager)
    (hid : ∀ r ∈ l, r.id < 32)
    (hz : ∀ d, (prepareRoutes l m).2.needReflowRoutes d = 0 ∧
      (prepareRoutes l m).2.needRepathRoutes d = 0) :
    ∀ o ∈ (prepareRoutes l m).1, o.needReflow = false ∧ o.needRepath = false := by
  induction l generalizing m with
  | nil =>
    intro o ho
    cases ho
  | cons r rest ih =>
    simp only [prepareRoutes] at hz ⊢
    intro o ho
    rcases List.mem_cons.mp ho with rfl | ho
    · obtain ⟨u, n, hun⟩ := prepareRoute_route m r
      have hid' : (m.prepareRoute r).1.id < 32 := by
        rw [hun]
        exact hid r (List.mem_cons_self _ _)
      have hmono := prepareRoutes_need_mono rest
        ((m.prepareRoute r).2.setNeedBits (m.prepareRoute r).1) (m.prepareRoute r).1.isOut
        (m.prepareRoute r).1.id hid'
      have hn := setNeedBits_masks (m.prepareRoute r).2 (m.prepareRoute r).1
        (m.prepareRoute r).1.isOut
      have hz' := hz (m.prepareRoute r).1.isOut
      refine ⟨?_, ?_⟩
      · by_contra hne
        have hbit := hmono.1 (by
          rw [hn.2.1, if_pos rfl]
          exact testBit_setBit _ _ _ _ hid' (Or.inr ⟨by simpa using hne, rfl⟩))
        rw [hz'.1, Nat.zero_testBit] at hbit
        cases hbit
      · by_contra hne
        have hbit := hmono.2 (by
          rw [hn.2.2, if_pos rfl]
          exact testBit_setBit _ _ _ _ hid' (Or.inr ⟨by simpa using hne, rfl⟩))
        rw [hz'.2, Nat.zero_testBit] at hbit
        cases hbit
    · exact ih _ (fun x hx => hid x (List.mem_cons_of_mem _ hx)) hz o ho

/-! ### Lemmas on the routes through the stages -/

/-- What a disable pass does to one route. -/
theorem doDisableRoutesLoop_map (b : Bool) (l : List AudioRoute) :
    (doDisableRoutesLoop b l).1 =
      l.map (fun r => if r.toDisable b then AudioStreamRoute.detachCurrentStream r else r) := by
  induction l with
  | nil => rfl
  | cons r rest ih =>
    unfold doDisableRoutesLoop
    by_cases h : r.toDisable b = true
    · simp [h, ih]
    · simp [h, ih]

/-- What an enable pass does to one route. -/
theorem doEnableRoutesLoop_map (b : Bool) (l : List AudioRoute) :
    (doEnableRoutesLoop b l).1 =
      l.map (fun r => if r.toEnable b then AudioStreamRoute.attachNewStream r else r) := by
  induction l with
  | nil => rfl
  | cons r rest ih =>
    unfold doEnableRoutesLoop
    by_cases h : r.toEnable b = true
    · simp [h, ih]
    · simp [h, ih]

/-- The routes after the five stages. -/
theorem executeRouting_routeMap (m : AudioRouteManager) :
    m.executeRouting._routeMap =
      (doEnableRoutesLoop false (doEnableRoutesLoop true
        (doDisableRoutesLoop true (doDisableRoutesLoop false m._routeMap).1).1).1).1 := by
  have hd : ∀ k : AudioRouteManager, k.executeDisableRoutingStage._routeMap =
      (doDisableRoutesLoop true (doDisableRoutesLoop false k._routeMap).1).1 := fun _ => rfl
  have he : ∀ k : AudioRouteManager, k.executeEnableRoutingStage._routeMap =
      (doEnableRoutesLoop false (doEnableRoutesLoop true k._routeMap).1).1 := fun _ => rfl
  unfold AudioRouteManager.executeRouting
  rw [(executeUnmuteRoutingStage_routes _).2, he, (executeConfigureRoutingStage_routes _).2, hd,
    (executeMuteRoutingStage_routes _).2]

/-- One route through the two disable passes and the two enable passes: only its attached
stream may change, and a stream route that is used ends attached to its new stream. -/
theorem stages_attach (o : AudioRoute) :
    (∃ c,
      (fun r => if AudioRoute.toEnable r false then AudioStreamRoute.attachNewStream r else r)
        ((fun r => if AudioRoute.toEnable r true then AudioStreamRoute.attachNewStream r else r)
          ((fun r =>
              if AudioRoute.toDisable r true then AudioStreamRoute.detachCurrentStream r else r)
            ((fun r =>
              if AudioRoute.toDisable r false then AudioStreamRoute.detachCurrentStream r else r)
              o))) = { o with _currentStream := c }) ∧
    (o.isStreamRoute = true → o.isUsed = true →
      ((fun r => if AudioRoute.toEnable r false then AudioStreamRoute.attachNewStream r else r)
        ((fun r => if AudioRoute.toEnable r true then AudioStreamRoute.attachNewStream r else r)
          ((fun r =>
              if AudioRoute.toDisable r true then AudioStreamRoute.detachCurrentStream r else r)
            ((fun r =>
              if AudioRoute.toDisable r false then AudioStreamRoute.detachCurrentStream r else r)
              o))))._currentStream = o._newStream) := by
  obtain ⟨name, id, isOut, isStream, src, dst, app, cfg, used, prev, mask, pre, post, cur, new⟩ := o
  simp only [AudioRoute.toEnable, AudioRoute.toDisable, AudioRoute.needReflow,
    AudioStreamRoute.attachNewStream, AudioStreamRoute.detachCurrentStream]
  by_cases hcn : cur = new <;> by_cases hnn : NULL = new <;>
    cases isStream <;> cases used <;> cases prev <;> cases cfg <;> cases pre <;> cases post <;>
      simp [hcn, hnn]

/-! ### A cycle right after a cycle -/

theorem forall₂_trans_of {α β γ : Type} {R : α → β → Prop} {S : β → γ → Prop}
    {T : α → γ → Prop} (h : ∀ a b c, R a b → S b c → T a c) :
    ∀ {l1 : List α} {l2 : List β} {l3 : List γ},
      List.Forall₂ R l1 l2 → List.Forall₂ S l2 l3 → List.Forall₂ T l1 l3 := by
  intro l1 l2 l3 h12
  induction h12 generalizing l3 with
  | nil =>
    intro h23
    cases h23
    exact List.Forall₂.nil
  | cons hab _ ih =>
    intro h23
    cases h23 with
    | cons hbc hrest => exact List.Forall₂.cons (h _ _ _ hab hbc) (ih hrest)

theorem forall₂_mem_right {α β : Type} {R : α → β → Prop} {l1 : List α} {l2 : List β}
    (h : List.Forall₂ R l1 l2) : ∀ y ∈ l2, ∃ x ∈ l1, R x y := by
  induction h with
  | nil =>
    intro y hy
    cases hy
  | cons hab _ ih =>
    intro y hy
    rcases List.mem_cons.mp hy with rfl | hy
    · exact ⟨_, List.mem_cons_self _ _, hab⟩
    · obtain ⟨x, hx, hr⟩ := ih y hy
      exact ⟨x, List.mem_cons_of_mem _ hx, hr⟩

theorem PerDirection.ext_get {α : Type} (p q : PerDirection α)
    (h : ∀ d, p.get d = q.get d) : p = q := by
  cases p
  cases q
  have h0 := h false
  have h1 := h true
  simp only [PerDirection.get] at h0 h1
  rw [h0, h1]

/-- The masks right after `resetRouting`. -/
theorem resetRouting_masks (m : AudioRouteManager) (d : Bool) :
    m.resetRouting.prevEnabledRoutes d = m.enabledRoutes d ∧
    m.resetRouting.enabledRoutes d = 0 ∧
    m.resetRouting.needReflowRoutes d = 0 ∧ m.resetRouting.needRepathRoutes d = 0 := by
  cases d <;> exact ⟨rfl, rfl, rfl, rfl⟩

/-- After the preparation `prevEnabled` is the `enabled` mask of the state before. -/
theorem checkAndPrepareRouting_prevEnabled (m : AudioRouteManager) (d : Bool) :
    m.checkAndPrepareRouting.2.prevEnabledRoutes d = m.enabledRoutes d := by
  have h := prepareRoutes_prevEnabled m.resetRouting._routeMap m.resetRouting d
  rw [(resetRouting_masks m d).1] at h
  exact h

/-- The state after a cycle, in terms of the preparation loop of this cycle: the streams,
ports, groups and masks are those the loop computed, the routes are those the loop
computed up to their attached stream, and a used stream route is attached to the stream
chosen for it. -/
theorem doReconsiderRouting_state (m : AudioRouteManager)
    (hid : ∀ r ∈ m._routeMap, r.id < 32) :
    m.doReconsiderRouting._streamsList =
      (prepareRoutes m.resetRouting._routeMap m.resetRouting).2._streamsList ∧
    m.doReconsiderRouting._portMap =
      (prepareRoutes m.resetRouting._routeMap m.resetRouting).2._portMap ∧
    m.doReconsiderRouting._portGroupMap = m._portGroupMap ∧
    m.doReconsiderRouting._routes =
      (prepareRoutes m.resetRouting._routeMap m.resetRouting).2._routes ∧
    List.Forall₂
      (fun o o1 => (∃ c, o1 = { o with _currentStream := c }) ∧
        (o.isStreamRoute = true → o.isUsed = true → o1._currentStream = o._newStream))
      (prepareRoutes m.resetRouting._routeMap m.resetRouting).1
      m.doReconsiderRouting._routeMap := by
  have hg := (checkAndPrepareRouting_frame m).2.1
  unfold AudioRouteManager.doReconsiderRouting
  split_ifs with hc
  · refine ⟨rfl, rfl, hg, ?_, ?_⟩
    · rw [executeRouting_routes]
      rfl
    · have hrm : m.checkAndPrepareRouting.2._routeMap =
          (prepareRoutes m.resetRouting._routeMap m.resetRouting).1 := rfl
      rw [executeRouting_routeMap, hrm, doEnableRoutesLoop_map, doEnableRoutesLoop_map,
        doDisableRoutesLoop_map, doDisableRoutesLoop_map, List.map_map, List.map_map,
        List.map_map, List.forall₂_map_right_iff, List.forall₂_same]
      intro o _
      exact stages_attach o
  · refine ⟨rfl, rfl, hg, rfl, ?_⟩
    -- nothing was executed: the need masks are zero, no route is to be attached
    have hfalse : m.checkAndPrepareRouting.1 = false := Bool.eq_false_iff.mpr hc
    have hz : ∀ d, (prepareRoutes m.resetRouting._routeMap m.resetRouting).2.needReflowRoutes d
        = 0 ∧ (prepareRoutes m.resetRouting._routeMap m.resetRouting).2.needRepathRoutes d
        = 0 := by
      intro d
      unfold AudioRouteManager.checkAndPrepareRouting at hfalse
      simp only [Bool.or_eq_false_iff] at hfalse
      have hd : AudioRouteManager.routingHasChanged
          { (prepareRoutes m.resetRouting._routeMap m.resetRouting).2 with
            _routeMap := (prepareRoutes m.resetRouting._routeMap m.resetRouting).1 } d
          = false := by
        cases d
        · exact hfalse.2
        · exact hfalse.1
      unfold AudioRouteManager.routingHasChanged at hd
      simp only [Bool.or_eq_false_iff, bne_eq_false_iff_eq] at hd
      exact ⟨hd.1.2, hd.2⟩
    have hidr : ∀ r ∈ m.resetRouting._routeMap, r.id < 32 := by
      intro r hr
      obtain ⟨r0, hr0, rfl⟩ := List.mem_map.mp hr
      exact hid r0 hr0
    have hneed := prepareRoutes_need_zero m.resetRouting._routeMap m.resetRouting hidr hz
    show List.Forall₂ _ (prepareRoutes m.resetRouting._routeMap m.resetRouting).1
      (prepareRoutes m.resetRouting._routeMap m.resetRouting).1
    rw [List.forall₂_same]
    intro o ho
    refine ⟨⟨o._currentStream, rfl⟩, fun hs hu => ?_⟩
    obtain ⟨hrf, hrp⟩ := hneed o ho
    unfold AudioRoute.needRepath at hrp
    unfold AudioRoute.needReflow at hrf
    rw [hu] at hrp hrf
    have hprev : o.previouslyUsed = true := by
      cases hp : o.previouslyUsed
      · rw [hp] at hrp
        cases hrp
      · rfl
    rw [hprev, hs] at hrf
    simp only [Bool.and_self, Bool.true_and, Bool.or_eq_false_iff, bne_eq_false_iff_eq] at hrf
    exact hrf.2

theorem Stream.resetAvailability_idem (l : List Stream) :
    (l.map Stream.resetAvailability).map Stream.resetAvailability =
      l.map Stream.resetAvailability := by
  rw [List.map_map]
  rfl

theorem resetRouting_streams (m : AudioRouteManager) (d : Bool) :
    m.resetRouting._streamsList.get d = (m._streamsList.get d).map Stream.resetAvailability := by
  cases d <;> rfl

/-- The preparation of a cycle that directly follows a cycle, without any change of the
streams or of the rule-engine state in between: the same `enabled` masks are computed again
and the need masks stay zero. -/
theorem checkAndPrepareRouting_settled (m : AudioRouteManager)
    (hid : ∀ r ∈ m._routeMap, r.id < 32) (d : Bool) :
    m.doReconsiderRouting.checkAndPrepareRouting.2.enabledRoutes d =
      m.doReconsiderRouting.enabledRoutes d ∧
    m.doReconsiderRouting.checkAndPrepareRouting.2.needReflowRoutes d = 0 ∧
    m.doReconsiderRouting.checkAndPrepareRouting.2.needRepathRoutes d = 0 := by
  obtain ⟨hst, hpo, hgr, hro, hrel⟩ := doReconsiderRouting_state m hid
  have hroutes0 := prepareRoutes_routes m.resetRouting._routeMap m.resetRouting
  -- the routes the second cycle starts from, against those the first one started from
  have hsim : List.Forall₂
      (fun r r' => ∃ a b, r' = { r with previouslyUsed := a, _currentStream := b })
      m.resetRouting._routeMap m.doReconsiderRouting.resetRouting._routeMap := by
    have h1 : List.Forall₂
        (fun r00 o1 => ∃ u n c,
          o1 = { AudioRoute.resetRouting r00 with
            isUsed := u, _newStream := n, _currentStream := c })
        m._routeMap m.doReconsiderRouting._routeMap := by
      have h0 : List.Forall₂ (fun r00 o => ∃ u n,
          o = { AudioRoute.resetRouting r00 with isUsed := u, _newStream := n })
          m._routeMap (prepareRoutes m.resetRouting._routeMap m.resetRouting).1 := by
        have := hroutes0
        change List.Forall₂ _ (m._routeMap.map AudioRoute.resetRouting) _ at this
        rw [List.forall₂_map_left_iff] at this
        exact this
      refine forall₂_trans_of ?_ h0 hrel
      rintro r00 o o1 ⟨u, n, rfl⟩ ⟨⟨c, rfl⟩, _⟩
      exact ⟨u, n, c, rfl⟩
    change List.Forall₂ _ (m._routeMap.map AudioRoute.resetRouting)
      (m.doReconsiderRouting._routeMap.map AudioRoute.resetRouting)
    rw [List.forall₂_map_left_iff, List.forall₂_map_right_iff]
    refine h1.imp ?_
    rintro r00 o1 ⟨u, n, c, rfl⟩
    exact ⟨u, c, rfl⟩
  have hq : List.Forall₂
      (fun o r' => r'.previouslyUsed = o.isUsed ∧
        (o.isStreamRoute = true → o.isUsed = true → r'._currentStream = o._newStream))
      (prepareRoutes m.resetRouting._routeMap m.resetRouting).1
      m.doReconsiderRouting.resetRouting._routeMap := by
    change List.Forall₂ _ _ (m.doReconsiderRouting._routeMap.map AudioRoute.resetRouting)
    rw [List.forall₂_map_right_iff]
    refine hrel.imp ?_
    rintro o o1 ⟨⟨c, rfl⟩, h2⟩
    exact ⟨rfl, h2⟩
  have hcfg' : ∀ r' ∈ m.doReconsiderRouting.resetRouting._routeMap,
      r'.needReconfigure = false := by
    intro r' hr'
    obtain ⟨r0, _, rfl⟩ := List.mem_map.mp hr'
    rfl
  -- both cycles start from the same streams, ports and groups
  have hs : m.doReconsiderRouting.resetRouting._streamsList = m.resetRouting._streamsList := by
    apply PerDirection.ext_get
    intro d'
    rw [resetRouting_streams, resetRouting_streams, hst, prepareRoutes_streams,
      resetRouting_streams, Stream.resetAvailability_idem]
  have hp : m.doReconsiderRouting.resetRouting._portMap = m.resetRouting._portMap := by
    funext q
    show (m.doReconsiderRouting._portMap q).resetAvailability =
      (m._portMap q).resetAvailability
    rw [hpo, prepareRoutes_ports]
    rfl
  have hg : m.doReconsiderRouting.resetRouting._portGroupMap = m.resetRouting._portGroupMap :=
    hgr
  have he : ∀ d', m.doReconsiderRouting.resetRouting.enabledRoutes d' =
      m.resetRouting.enabledRoutes d' := by
    intro d'
    rw [(resetRouting_masks _ d').2.1, (resetRouting_masks _ d').2.1]
  have hres := prepareRoutes_settled _ _ hsim m.resetRouting m.doReconsiderRouting.resetRouting
    hq hcfg' hs hp hg he
  have hen1 : m.doReconsiderRouting.enabledRoutes d =
      (prepareRoutes m.resetRouting._routeMap m.resetRouting).2.enabledRoutes d := by
    unfold AudioRouteManager.enabledRoutes
    rw [hro]
  refine ⟨?_, ?_, ?_⟩
  · rw [hen1]
    exact hres.2.2.2.1 d
  · exact ((hres.2.2.2.2 d).1).trans (resetRouting_masks _ d).2.2.1
  · exact ((hres.2.2.2.2 d).2).trans (resetRouting_masks _ d).2.2.2

/-- The identity of the routes is the same after a cycle. -/
theorem doReconsiderRouting_static (m : AudioRouteManager)
    (hid : ∀ r ∈ m._routeMap, r.id < 32) :
    ∀ r ∈ m.doReconsiderRouting._routeMap, r.id < 32 := by
  obtain ⟨_, _, _, _, hrel⟩ := doReconsiderRouting_state m hid
  have hroutes0 := prepareRoutes_routes m.resetRouting._routeMap m.resetRouting
  have hall : ∀ o1 ∈ m.doReconsiderRouting._routeMap,
      ∃ r0 ∈ m._routeMap, o1.id = r0.id := by
    intro o1 ho1
    obtain ⟨o, ho, ⟨c, rfl⟩, _⟩ := forall₂_mem_right hrel o1 ho1
    obtain ⟨r, hr, u, n, rfl⟩ := forall₂_mem_right hroutes0 o ho
    obtain ⟨r0, hr0, rfl⟩ := List.mem_map.mp hr
    exact ⟨r0, hr0, rfl⟩
  intro r hr
  obtain ⟨r0, hr0, h1⟩ := hall r hr
  rw [h1]
  exact hid r0 hr0

/-- A cycle whose preparation returns false stops after the preparation. -/
theorem doReconsiderRouting_of_false (k : AudioRouteManager)
    (h : k.checkAndPrepareRouting.1 = false) :
    k.doReconsiderRouting = k.checkAndPrepareRouting.2 := by
  unfold AudioRouteManager.doReconsiderRouting
  rw [h]
  rfl

/-- A cycle that directly follows a cycle is a no-op: nothing is executed, and the masks
after it are `enabled` unchanged, `prevEnabled = enabled` and zero need masks. -/
theorem doReconsiderRouting_settled (m : AudioRouteManager)
    (hid : ∀ r ∈ m._routeMap, r.id < 32) :
    m.doReconsiderRouting.checkAndPrepareRouting.1 = false ∧
    m.doReconsiderRouting.doReconsiderRouting =
      m.doReconsiderRouting.checkAndPrepareRouting.2 ∧
    ∀ d, m.doReconsiderRouting.doReconsiderRouting.enabledRoutes d =
        m.doReconsiderRouting.enabledRoutes d ∧
      m.doReconsiderRouting.doReconsiderRouting.prevEnabledRoutes d =
        m.doReconsiderRouting.enabledRoutes d ∧
      m.doReconsiderRouting.doReconsiderRouting.needReflowRoutes d = 0 ∧
      m.doReconsiderRouting.doReconsiderRouting.needRepathRoutes d = 0 := by
  have hmask := checkAndPrepareRouting_settled m hid
  have hprev := checkAndPrepareRouting_prevEnabled m.doReconsiderRouting
  have hchanged : ∀ d,
      m.doReconsiderRouting.checkAndPrepareRouting.2.routingHasChanged d = false := by
    intro d
    unfold AudioRouteManager.routingHasChanged
    rw [hprev d, (hmask d).1, (hmask d).2.1, (hmask d).2.2]
    simp
  have hfalse : m.doReconsiderRouting.checkAndPrepareRouting.1 = false := by
    have h1 := hchanged true
    have h2 := hchanged false
    show (AudioRouteManager.routingHasChanged _ true ||
      AudioRouteManager.routingHasChanged _ false) = false
    change AudioRouteManager.routingHasChanged
      m.doReconsiderRouting.checkAndPrepareRouting.2 true = false at h1
    change AudioRouteManager.routingHasChanged
      m.doReconsiderRouting.checkAndPrepareRouting.2 false = false at h2
    exact Bool.or_eq_false_iff.mpr ⟨h1, h2⟩
  have hsame : m.doReconsiderRouting.doReconsiderRouting =
      m.doReconsiderRouting.checkAndPrepareRouting.2 :=
    doReconsiderRouting_of_false _ hfalse
  refine ⟨hfalse, hsame, fun d => ?_⟩
  rw [hsame]
  exact ⟨(hmask d).1, hprev d, (hmask d).2.1, (hmask d).2.2⟩

/-- Two managers whose four masks agree in both directions hold the same `_routes`. -/
theorem routes_ext (a b : AudioRouteManager)
    (h : ∀ d, a.enabledRoutes d = b.enabledRoutes d ∧
      a.prevEnabledRoutes d = b.prevEnabledRoutes d ∧
      a.needReflowRoutes d = b.needReflowRoutes d ∧
      a.needRepathRoutes d = b.needRepathRoutes d) : a._routes = b._routes := by
  apply PerDirection.ext_get
  intro d
  obtain ⟨h1, h2, h3, h4⟩ := h d
  unfold AudioRouteManager.enabledRoutes at h1
  unfold AudioRouteManager.prevEnabledRoutes at h2
  unfold AudioRouteManager.needReflowRoutes at h3
  unfold AudioRouteManager.needRepathRoutes at h4
  cases hx : a._routes.get d
  cases hy : b._routes.get d
  rw [hx, hy] at h1 h2 h3 h4
  simp only at h1 h2 h3 h4
  rw [h1, h2, h3, h4]

/-! ### Exclusivity over a whole preparation loop -/

/-- Once `prepareRoute` has enabled a route on the port `p1`, a port `p2` listed by a group
of `p1` is blocked, and stays so through the preparation of any further routes. -/
theorem prepareRoute_blocks_sibling (m : AudioRouteManager) (r1 : AudioRoute) (g p1 p2 : Ptr)
    (hp1 : p1 ≠ NULL) (hne : p2 ≠ p1) (hmem : p2 ∈ (m._portGroupMap g).mPortList)
    (hr1 : r1.portSrc = p1 ∨ r1.portDst = p1) (hg : g ∈ (m._portMap p1).mGroupList)
    (hen : (m.prepareRoute r1).1.isUsed = true) (rest : List AudioRoute) :
    ((prepareRoutes rest
      ((m.prepareRoute r1).2.setNeedBits (m.prepareRoute r1).1)).2._portMap p2).mIsBlocked
        = true := by
  have hblocked1 : ((m.prepareRoute r1).2._portMap p2).mIsBlocked = true := by
    rw [prepareRoute_portMap, hen, if_pos rfl]
    rcases hr1 with h | h
    · apply setPortUsed_mono
      rw [h]
      exact setPortUsed_blocks _ p1 _ g p2 hp1 hg hmem hne
    · rw [h]
      refine setPortUsed_blocks _ p1 _ g p2 hp1 ?_ hmem hne
      rw [setPortUsed_groupList]
      exact hg
  exact prepareRoutes_mono rest _ p2 hblocked1

/-- The preparation loop over a concatenation. -/
theorem prepareRoutes_append (l1 l2 : List AudioRoute) (m : AudioRouteManager) :
    prepareRoutes (l1 ++ l2) m =
      ((prepareRoutes l1 m).1 ++ (prepareRoutes l2 (prepareRoutes l1 m).2).1,
        (prepareRoutes l2 (prepareRoutes l1 m).2).2) := by
  induction l1 generalizing m with
  | nil => rfl
  | cons r rest ih =>
    show prepareRoutes (r :: (rest ++ l2)) m = _
    simp only [prepareRoutes]
    rw [ih]
    rfl

theorem prepareRoutes_length (l : List AudioRoute) (m : AudioRouteManager) :
    (prepareRoutes l m).1.length = l.length := by
  induction l generalizing m with
  | nil => rfl
  | cons r rest ih =>
    simp only [prepareRoutes, List.length_cons]
    rw [ih]

/-- The preparation loop leaves the group lists of the ports alone. -/
theorem prepareRoutes_groupList (l : List AudioRoute) (m : AudioRouteManager) (q : Ptr) :
    ((prepareRoutes l m).2._portMap q).mGroupList = (m._portMap q).mGroupList := by
  induction l generalizing m with
  | nil => rfl
  | cons r rest ih =>
    simp only [prepareRoutes]
    rw [ih, (setNeedBits_portMap _ _).1]
    exact (prepareRoute_mono m r q).1

/-- In one preparation loop, of two routes of the list of which the first is on a port `p1`
and the second on a port `p2` listed by a group of `p1`, at most one ends used. -/
theorem prepareRoutes_exclusive (m : AudioRouteManager) (g p1 p2 : Ptr)
    (hp1 : p1 ≠ NULL) (hp2 : p2 ≠ NULL) (hne : p2 ≠ p1)
    (hmem : p2 ∈ (m._portGroupMap g).mPortList) (hg : g ∈ (m._portMap p1).mGroupList)
    (before mid after : List AudioRoute) (a b : AudioRoute)
    (ha : a.portSrc = p1 ∨ a.portDst = p1) (hb : b.portSrc = p2 ∨ b.portDst = p2) :
    ∃ before' a' mid' b' after',
      (prepareRoutes (before ++ a :: (mid ++ b :: after)) m).1 =
        before' ++ a' :: (mid' ++ b' :: after') ∧
      before'.length = before.length ∧ mid'.length = mid.length ∧
      (∃ u n, a' = { a with isUsed := u, _newStream := n }) ∧
      (∃ u n, b' = { b with isUsed := u, _newStream := n }) ∧
      ¬ (a'.isUsed = true ∧ b'.isUsed = true) := by
  have hmem' : p2 ∈ ((prepareRoutes before m).2._portGroupMap g).mPortList := by
    rw [(prepareRoutes_frame before m).2.1]
    exact hmem
  have hg' : g ∈ ((prepareRoutes before m).2._portMap p1).mGroupList := by
    rw [prepareRoutes_groupList]
    exact hg
  have hlen1 := prepareRoutes_length before m
  have happend1 := prepareRoutes_append before (a :: (mid ++ b :: after)) m
  generalize prepareRoutes before m = pb at hmem' hg' happend1 hlen1
  have hstepa : prepareRoutes (a :: (mid ++ b :: after)) pb.2 =
      ((pb.2.prepareRoute a).1 ::
        (prepareRoutes (mid ++ b :: after)
          ((pb.2.prepareRoute a).2.setNeedBits (pb.2.prepareRoute a).1)).1,
        (prepareRoutes (mid ++ b :: after)
          ((pb.2.prepareRoute a).2.setNeedBits (pb.2.prepareRoute a).1)).2) := rfl
  have happend2 := prepareRoutes_append mid (b :: after)
    ((pb.2.prepareRoute a).2.setNeedBits (pb.2.prepareRoute a).1)
  have hlen2 := prepareRoutes_length mid
    ((pb.2.prepareRoute a).2.setNeedBits (pb.2.prepareRoute a).1)
  have hblocked : (pb.2.prepareRoute a).1.isUsed = true →
      ((prepareRoutes mid
        ((pb.2.prepareRoute a).2.setNeedBits (pb.2.prepareRoute a).1)).2._portMap p2).mIsBlocked
          = true :=
    fun hua => prepareRoute_blocks_sibling pb.2 a g p1 p2 hp1 hne hmem' ha hg' hua mid
  generalize prepareRoutes mid
    ((pb.2.prepareRoute a).2.setNeedBits (pb.2.prepareRoute a).1) = pm
    at happend2 hlen2 hblocked
  have hstepb : prepareRoutes (b :: after) pm.2 =
      ((pm.2.prepareRoute b).1 ::
        (prepareRoutes after ((pm.2.prepareRoute b).2.setNeedBits (pm.2.prepareRoute b).1)).1,
        (prepareRoutes after
          ((pm.2.prepareRoute b).2.setNeedBits (pm.2.prepareRoute b).1)).2) := rfl
  refine ⟨pb.1, (pb.2.prepareRoute a).1, pm.1, (pm.2.prepareRoute b).1,
    (prepareRoutes after ((pm.2.prepareRoute b).2.setNeedBits (pm.2.prepareRoute b).1)).1,
    ?_, hlen1, hlen2, prepareRoute_route _ _, prepareRoute_route _ _, ?_⟩
  · rw [happend1, hstepa, happend2, hstepb]
  · rintro ⟨hua, hub⟩
    have happ := (isApplicable_of_blocked b _ p2 hp2 hb (hblocked hua)).1
    rw [(prepareRoute_not_applicable _ b happ).1] at hub
    cases hub
/-! ## Theorems: AudioPortGroup -/

/-- C1: for every port group and every non-null port `p`, `blockMutualExclusivePort(p)`
returns normally and afterwards every port of the group's list other than `p` has
`blocked = true`, whatever the heap held before and whether or not `p` is a member. -/
theorem blockMutualExclusivePort_blocks_others (g : AudioPortGroup) (port : Ptr)
    (mem : PortHeap) (hp : port ≠ NULL) :
    ∃ g' mem', g.blockMutualExclusivePort port mem = some (g', mem') ∧
      ∀ q ∈ g'.mPortList, q ≠ port → (mem' q).mIsBlocked = true := by
  refine ⟨g, blockMutualExclusivePortLoop port g.mPortList mem, ?_, ?_⟩
  · simp [AudioPortGroup.blockMutualExclusivePort, hp]
  · intro q hq hne
    exact blockLoop_blocks port g.mPortList mem q hq hne

/-- Witness of C1 on the demo group, called for port 2 and for the non-member port 7. -/
theorem blockMutualExclusivePort_blocks_others_witness :
    ((2 : Ptr) ≠ NULL ∧
      ∃ g' mem', demoGroup.blockMutualExclusivePort 2 freeHeap = some (g', mem') ∧
        ∀ q ∈ g'.mPortList, q ≠ 2 → (mem' q).mIsBlocked = true) ∧
    ((7 : Ptr) ≠ NULL ∧
      ∃ g' mem', demoGroup.blockMutualExclusivePort 7 freeHeap = some (g', mem') ∧
        ∀ q ∈ g'.mPortList, q ≠ 7 → (mem' q).mIsBlocked = true) :=
  ⟨⟨by decide, blockMutualExclusivePort_blocks_others demoGroup 2 freeHeap (by decide)⟩,
   ⟨by decide, blockMutualExclusivePort_blocks_others demoGroup 7 freeHeap (by decide)⟩⟩

/-- C2: `blockMutualExclusivePort(p)` with a non-null `p` returns the group with the same
port list, leaves the port `p` itself and every port outside the list exactly as it was,
and changes at most the `blocked` flag of any port. -/
theorem blockMutualExclusivePort_frame (g : AudioPortGroup) (port : Ptr)
    (mem : PortHeap) (hp : port ≠ NULL) :
    ∃ mem', g.blockMutualExclusivePort port mem = some (g, mem') ∧
      mem' port = mem port ∧
      (∀ q, q ∉ g.mPortList → mem' q = mem q) ∧
      (∀ q, ∃ b, mem' q = (mem q).setBlocked b) := by
  refine ⟨blockMutualExclusivePortLoop port g.mPortList mem, ?_, ?_, ?_, ?_⟩
  · simp [AudioPortGroup.blockMutualExclusivePort, hp]
  · exact blockLoop_self port g.mPortList mem
  · intro q hq
    exact blockLoop_not_mem port g.mPortList mem q hq
  · intro q
    exact blockLoop_frame port g.mPortList mem q

/-- Witness of C2 on the demo group, called for its member port 2. -/
theorem blockMutualExclusivePort_frame_witness :
    (2 : Ptr) ≠ NULL ∧
      ∃ mem', demoGroup.blockMutualExclusivePort 2 freeHeap = some (demoGroup, mem') ∧
        mem' 2 = freeHeap 2 ∧
        (∀ q, q ∉ demoGroup.mPortList → mem' q = freeHeap q) ∧
        (∀ q, ∃ b, mem' q = (freeHeap q).setBlocked b) :=
  ⟨by decide, blockMutualExclusivePort_frame demoGroup 2 freeHeap (by decide)⟩

/-! ## Theorems: the transition protocol -/

/-- C3: every execution of the routing runs the five stages exactly once each, in the
order Mute, Disable, Configure, Enable, Unmute (and a reconsideration cycle runs them
exactly when `checkAndPrepareRouting` returns true, none otherwise).  The log of the
execution splits into the events of Mute and Disable, followed by those of Configure,
Enable and Unmute; the first part attaches no stream to any route, it holds a write of
the ClosingRoutes criterion with the bit of every route that was enabled and is not enabled
any more, and it holds the detach of every stream route that was used and is not used any
more: these routes are muted and disabled before any route is enabled. -/
theorem executeRouting_stage_order (m : AudioRouteManager) :
    stagesOf m.executeRouting.trace = stagesOf m.trace ++
        [Stage.Mute, Stage.Disable, Stage.Configure, Stage.Enable, Stage.Unmute] ∧
    stagesOf m.doReconsiderRouting.trace = stagesOf m.trace ++
        (if m.checkAndPrepareRouting.1 then
          [Stage.Mute, Stage.Disable, Stage.Configure, Stage.Enable, Stage.Unmute]
        else []) ∧
    ∃ muteDisable rest,
      m.executeRouting.trace = m.trace ++ muteDisable ++ rest ∧
      stagesOf muteDisable = [Stage.Mute, Stage.Disable] ∧
      stagesOf rest = [Stage.Configure, Stage.Enable, Stage.Unmute] ∧
      (∀ e ∈ muteDisable, e.isRoute = false) ∧
      (∀ (isOut : Bool) (i : Nat), i < 32 →
        (m.prevEnabledRoutes isOut).testBit i = true →
        (m.enabledRoutes isOut).testBit i = false →
        ∃ mask, Event.setClosingRoutes isOut mask ∈ muteDisable ∧ mask.testBit i = true) ∧
      (∀ r ∈ m._routeMap, r.isStreamRoute = true → r.previouslyUsed = true →
        r.isUsed = false → ∃ b, Event.unroute r.isOut r.id b ∈ muteDisable) := by
  -- the five stages of an execution
  have hstages : ∀ k : AudioRouteManager, stagesOf k.executeRouting.trace = stagesOf k.trace ++
      [Stage.Mute, Stage.Disable, Stage.Configure, Stage.Enable, Stage.Unmute] := by
    intro k
    unfold AudioRouteManager.executeRouting
    rw [executeUnmuteRoutingStage_trace, executeEnableRoutingStage_trace,
      executeConfigureRoutingStage_trace, executeDisableRoutingStage_trace,
      executeMuteRoutingStage_trace]
    simp only [stagesOf_append, (doDisableRoutesLoop_stages _ _).1, doEnableRoutesLoop_stages]
    simp [stagesOf]
  -- the events of the Mute stage
  obtain ⟨A, hA, hAst, hAnr, hAcl⟩ : ∃ A : List Event,
      m.executeMuteRoutingStage.trace = m.trace ++ A ∧ stagesOf A = [Stage.Mute] ∧
      (∀ e ∈ A, e.isRoute = false) ∧
      (∀ isOut, Event.setClosingRoutes isOut (routesToMute (m._routes.get isOut)) ∈ A) := by
    refine ⟨_, executeMuteRoutingStage_trace m, ?_, ?_, ?_⟩
    · simp [stagesOf]
    · intro e he
      simp only [List.mem_cons, List.mem_singleton, List.not_mem_nil, or_false] at he
      rcases he with rfl | rfl | rfl | rfl | rfl | rfl <;> rfl
    · intro isOut
      cases isOut <;> simp
  -- the events of the Disable stage
  obtain ⟨B, hB, hBst, hBnr, hBun⟩ : ∃ B : List Event,
      m.executeMuteRoutingStage.executeDisableRoutingStage.trace =
        m.executeMuteRoutingStage.trace ++ B ∧ stagesOf B = [Stage.Disable] ∧
      (∀ e ∈ B, e.isRoute = false) ∧
      (∀ e, (e ∈ (doDisableRoutesLoop false m._routeMap).2 ∨
        e ∈ (doDisableRoutesLoop true (doDisableRoutesLoop false m._routeMap).1).2) →
          e ∈ B) := by
    have hmap : m.executeMuteRoutingStage._routeMap = m._routeMap := rfl
    have hdis := executeDisableRoutingStage_trace m.executeMuteRoutingStage
    rw [hmap] at hdis
    refine ⟨_, hdis, ?_, ?_, ?_⟩
    · simp only [stagesOf_append, (doDisableRoutesLoop_stages _ _).1]
      simp [stagesOf]
    · intro e he
      simp only [List.mem_append, List.mem_cons, List.mem_singleton, List.not_mem_nil,
        or_false] at he
      rcases he with ((he | he) | he) | he
      · rcases he with rfl | rfl | rfl | rfl | rfl <;> rfl
      · exact (doDisableRoutesLoop_stages _ _).2 e he
      · subst he; rfl
      · exact (doDisableRoutesLoop_stages _ _).2 e he
    · intro e he
      simp only [List.mem_append]
      rcases he with he | he
      · exact Or.inl (Or.inl (Or.inr he))
      · exact Or.inr he
  -- the events of the Configure, Enable and Unmute stages
  obtain ⟨X, hX, hXst⟩ : ∃ X : List Event,
      m.executeMuteRoutingStage.executeDisableRoutingStage.executeConfigureRoutingStage.trace =
        m.executeMuteRoutingStage.executeDisableRoutingStage.trace ++ X ∧
      stagesOf X = [Stage.Configure] :=
    ⟨_, executeConfigureRoutingStage_trace _, by simp [stagesOf]⟩
  obtain ⟨Y, hY, hYst⟩ : ∃ Y : List Event,
      m.executeMuteRoutingStage.executeDisableRoutingStage.executeConfigureRoutingStage.executeEnableRoutingStage.trace =
        m.executeMuteRoutingStage.executeDisableRoutingStage.executeConfigureRoutingStage.trace
          ++ Y ∧
      stagesOf Y = [Stage.Enable] :=
    ⟨_, executeEnableRoutingStage_trace _, by
      simp only [stagesOf_append, doEnableRoutesLoop_stages]
      simp [stagesOf]⟩
  obtain ⟨Z, hZ, hZst⟩ : ∃ Z : List Event,
      m.executeRouting.trace =
        m.executeMuteRoutingStage.executeDisableRoutingStage.executeConfigureRoutingStage.executeEnableRoutingStage.trace
          ++ Z ∧
      stagesOf Z = [Stage.Unmute] :=
    ⟨_, executeUnmuteRoutingStage_trace _, by simp [stagesOf]⟩
  have hC : m.executeRouting.trace =
      m.executeMuteRoutingStage.executeDisableRoutingStage.trace ++ (X ++ (Y ++ Z)) := by
    rw [hZ, hY, hX]
    simp only [List.append_assoc]
  have hCst : stagesOf (X ++ (Y ++ Z)) = [Stage.Configure, Stage.Enable, Stage.Unmute] := by
    rw [stagesOf_append, stagesOf_append, hXst, hYst, hZst]
    rfl
  refine ⟨hstages m, ?_, A ++ B, X ++ (Y ++ Z), ?_, ?_, hCst, ?_, ?_, ?_⟩
  · unfold AudioRouteManager.doReconsiderRouting
    split_ifs with hc
    · rw [hstages, (checkAndPrepareRouting_frame m).1]
    · rw [(checkAndPrepareRouting_frame m).1, List.append_nil]
  · rw [hC, hB, hA]
    simp only [List.append_assoc]
  · rw [stagesOf_append, hAst, hBst]
    rfl
  · intro e he
    rcases List.mem_append.mp he with he | he
    · exact hAnr e he
    · exact hBnr e he
  · intro isOut i hi hp he
    refine ⟨routesToMute (m._routes.get isOut), List.mem_append_left _ (hAcl isOut), ?_⟩
    rw [testBit_routesToMute]
    unfold AudioRouteManager.prevEnabledRoutes at hp
    unfold AudioRouteManager.enabledRoutes at he
    simp [hp, he, hi]
  · intro r hr hs hp hu
    by_cases hpost : r.requirePostDisable = true
    · refine ⟨true, List.mem_append_right _ (hBun _ (Or.inr ?_))⟩
      have hno : r.toDisable false = false := by
        simp [AudioRoute.toDisable, hpost]
      have hyes : r.toDisable true = true := by
        simp [AudioRoute.toDisable, hs, hp, hu, hpost]
      exact doDisableRoutesLoop_event true _ r
        (doDisableRoutesLoop_keep false m._routeMap r hr hno) hyes
    · refine ⟨false, List.mem_append_right _ (hBun _ (Or.inl ?_))⟩
      have hyes : r.toDisable false = true := by
        simp [AudioRoute.toDisable, hs, hp, hu, hpost]
      exact doDisableRoutesLoop_event false m._routeMap r hr hyes

/-- C4: for each direction `routingHasChanged` returns true iff `enabled` differs from
`prevEnabled`, or the `needReflow` mask is non-zero (some route is flagged as needing
reconfiguration), or the `needRepath` mask is non-zero; it returns false exactly when the
two enabled masks are equal and both need masks are zero. -/
theorem routingHasChanged_iff (m : AudioRouteManager) (isOut : Bool) :
    (m.routingHasChanged isOut = true ↔
      (m.enabledRoutes isOut ≠ m.prevEnabledRoutes isOut ∨
        (∃ i, (m.needReflowRoutes isOut).testBit i = true) ∨
        m.needRepathRoutes isOut ≠ 0)) ∧
    ((∃ i, (m.needReflowRoutes isOut).testBit i = true) ↔ m.needReflowRoutes isOut ≠ 0) ∧
    (m.routingHasChanged isOut = false ↔
      (m.enabledRoutes isOut = m.prevEnabledRoutes isOut ∧
        m.needReflowRoutes isOut = 0 ∧ m.needRepathRoutes isOut = 0)) := by
  have hbit : (∃ i, (m.needReflowRoutes isOut).testBit i = true) ↔
      m.needReflowRoutes isOut ≠ 0 := by
    constructor
    · rintro ⟨i, hi⟩ h0
      rw [h0, Nat.zero_testBit] at hi
      cases hi
    · exact Nat.ne_zero_implies_bit_true
  refine ⟨?_, hbit, ?_⟩
  · rw [hbit]
    unfold AudioRouteManager.routingHasChanged
    simp only [Bool.or_eq_true, bne_iff_ne, ne_eq]
    constructor
    · rintro ((h | h) | h)
      · exact Or.inl (fun e => h e.symm)
      · exact Or.inr (Or.inl h)
      · exact Or.inr (Or.inr h)
    · rintro (h | h | h)
      · exact Or.inl (Or.inl (fun e => h e.symm))
      · exact Or.inl (Or.inr h)
      · exact Or.inr h
  · unfold AudioRouteManager.routingHasChanged
    simp only [Bool.or_eq_false_iff, bne_eq_false_iff_eq]
    constructor
    · rintro ⟨⟨h1, h2⟩, h3⟩
      exact ⟨h1.symm, h2, h3⟩
    · rintro ⟨h1, h2, h3⟩
      exact ⟨⟨h1.symm, h2⟩, h3⟩

/-- C5: snapshot invariant.  For every direction, after `resetRouting` the `prevEnabled`
mask is the `enabled` mask of the state the cycle starts from (the end of the preceding
cycle); neither the preparation loop nor any of the five stages writes it again, so that it
still has this value at the end of the cycle; hence in every sequence of cycles
`prevEnabled` after a cycle is the `enabled` mask at the end of the cycle before. -/
theorem prevEnabled_snapshot (m : AudioRouteManager) (isOut : Bool) :
    m.resetRouting.prevEnabledRoutes isOut = m.enabledRoutes isOut ∧
    (∀ (k : AudioRouteManager) (l : List AudioRoute),
      (prepareRoutes l k).2.prevEnabledRoutes isOut = k.prevEnabledRoutes isOut) ∧
    m.checkAndPrepareRouting.2.prevEnabledRoutes isOut = m.enabledRoutes isOut ∧
    (∀ k : AudioRouteManager,
      k.executeMuteRoutingStage.prevEnabledRoutes isOut = k.prevEnabledRoutes isOut ∧
      k.executeDisableRoutingStage.prevEnabledRoutes isOut = k.prevEnabledRoutes isOut ∧
      k.executeConfigureRoutingStage.prevEnabledRoutes isOut = k.prevEnabledRoutes isOut ∧
      k.executeEnableRoutingStage.prevEnabledRoutes isOut = k.prevEnabledRoutes isOut ∧
      k.executeUnmuteRoutingStage.prevEnabledRoutes isOut = k.prevEnabledRoutes isOut) ∧
    m.doReconsiderRouting.prevEnabledRoutes isOut = m.enabledRoutes isOut ∧
    (∀ n : Nat,
      ((AudioRouteManager.doReconsiderRouting^[n + 1]) m).prevEnabledRoutes isOut =
        ((AudioRouteManager.doReconsiderRouting^[n]) m).enabledRoutes isOut) := by
  have hreset : ∀ k : AudioRouteManager,
      k.resetRouting.prevEnabledRoutes isOut = k.enabledRoutes isOut := by
    intro k
    cases isOut <;> rfl
  have hprep : ∀ k : AudioRouteManager,
      k.checkAndPrepareRouting.2.prevEnabledRoutes isOut = k.enabledRoutes isOut := by
    intro k
    have h := prepareRoutes_prevEnabled k.resetRouting._routeMap k.resetRouting isOut
    rw [hreset] at h
    exact h
  have hcycle : ∀ k : AudioRouteManager,
      k.doReconsiderRouting.prevEnabledRoutes isOut = k.enabledRoutes isOut := by
    intro k
    unfold AudioRouteManager.doReconsiderRouting
    split_ifs
    · rw [← hprep k]
      unfold AudioRouteManager.prevEnabledRoutes
      rw [executeRouting_routes]
    · exact hprep k
  refine ⟨hreset m, fun k l => prepareRoutes_prevEnabled l k isOut, hprep m, ?_, hcycle m, ?_⟩
  · intro k
    exact ⟨rfl, rfl, rfl, rfl, rfl⟩
  · intro n
    rw [Function.iterate_succ_apply']
    exact hcycle _


/-! ### Idempotence of the reconsideration -/

/-- C6, as stated, fails: on the example manager, right after the cycle that enabled
route 0 and with nothing changed since, `checkAndPrepareRouting` returns false and no
stage is executed, but the masks of the output direction do not keep their values:
`prevEnabled` goes from 0 to 1 (the snapshot of `resetRouting`) and `needRepath` from 1 to
0. -/
theorem reconsider_masks_counterexample :
    demoManager.doReconsiderRouting.checkAndPrepareRouting.1 = false ∧
    demoManager.doReconsiderRouting.doReconsiderRouting.trace =
      demoManager.doReconsiderRouting.trace ∧
    demoManager.doReconsiderRouting._routes.output =
      { needReflow := 0, needRepath := 1, enabled := 1, prevEnabled := 0 } ∧
    demoManager.doReconsiderRouting.doReconsiderRouting._routes.output =
      { needReflow := 0, needRepath := 0, enabled := 1, prevEnabled := 1 } ∧
    ¬ (∀ d, demoManager.doReconsiderRouting.doReconsiderRouting.prevEnabledRoutes d =
          demoManager.doReconsiderRouting.prevEnabledRoutes d ∧
        demoManager.doReconsiderRouting.doReconsiderRouting.needRepathRoutes d =
          demoManager.doReconsiderRouting.needRepathRoutes d) := by
  refine ⟨by decide, by decide, by decide, by decide, ?_⟩
  intro h
  exact absurd (h true).1 (by decide)

/-- C6, amended: let a reconsideration be invoked on the state a cycle has left, nothing
having changed in between, the route ids being bit indexes below 32.  Then `checkAndPrepareRouting` returns false, none of the five stages is executed (the log
is unchanged), no criterion is touched, and in both directions the `enabled` mask keeps its
value while `prevEnabled` becomes equal to `enabled` and `needReflow` and `needRepath`
become zero; from then on a further such reconsideration leaves all four masks of both
directions unchanged. -/
theorem reconsider_idempotent (m : AudioRouteManager)
    (hid : ∀ r ∈ m._routeMap, r.id < 32) :
    m.doReconsiderRouting.checkAndPrepareRouting.1 = false ∧
    m.doReconsiderRouting.doReconsiderRouting.trace = m.doReconsiderRouting.trace ∧
    m.doReconsiderRouting.doReconsiderRouting._routingStageCriterion =
      m.doReconsiderRouting._routingStageCriterion ∧
    m.doReconsiderRouting.doReconsiderRouting._selectedClosingRoutes =
      m.doReconsiderRouting._selectedClosingRoutes ∧
    m.doReconsiderRouting.doReconsiderRouting._selectedOpenedRoutes =
      m.doReconsiderRouting._selectedOpenedRoutes ∧
    m.doReconsiderRouting.doReconsiderRouting.voiceVolume =
      m.doReconsiderRouting.voiceVolume ∧
    (∀ d, m.doReconsiderRouting.doReconsiderRouting.enabledRoutes d =
        m.doReconsiderRouting.enabledRoutes d ∧
      m.doReconsiderRouting.doReconsiderRouting.prevEnabledRoutes d =
        m.doReconsiderRouting.enabledRoutes d ∧
      m.doReconsiderRouting.doReconsiderRouting.needReflowRoutes d = 0 ∧
      m.doReconsiderRouting.doReconsiderRouting.needRepathRoutes d = 0) ∧
    m.doReconsiderRouting.doReconsiderRouting.doReconsiderRouting._routes =
      m.doReconsiderRouting.doReconsiderRouting._routes := by
  obtain ⟨hfalse, hsame, hmasks⟩ := doReconsiderRouting_settled m hid
  have hframe := checkAndPrepareRouting_frame m.doReconsiderRouting
  have hid1 := doReconsiderRouting_static m hid
  obtain ⟨_, _, hmasks2⟩ := doReconsiderRouting_settled m.doReconsiderRouting hid1
  refine ⟨hfalse, ?_, ?_, ?_, ?_, ?_, hmasks, ?_⟩
  · rw [hsame]; exact hframe.1
  · rw [hsame]; exact hframe.2.2.1
  · rw [hsame]; exact hframe.2.2.2.1
  · rw [hsame]; exact hframe.2.2.2.2.1
  · rw [hsame]; exact hframe.2.2.2.2.2
  · apply routes_ext
    intro d
    obtain ⟨h1, h2, h3, h4⟩ := hmasks d
    obtain ⟨k1, k2, k3, k4⟩ := hmasks2 d
    exact ⟨k1, by rw [k2, h2, h1], by rw [k3, h3], by rw [k4, h4]⟩

/-- Instance of C6 (amended) on a manager whose route is flagged `needReconfigure`: the
cycle that follows a cycle executes no stage, and the one after it leaves all masks
unchanged. -/
theorem reconsider_idempotent_witness :
    (∀ r ∈ demoReconfigureManager._routeMap, r.id < 32) ∧
    demoReconfigureManager.doReconsiderRouting.checkAndPrepareRouting.1 = false ∧
    demoReconfigureManager.doReconsiderRouting.doReconsiderRouting.trace =
      demoReconfigureManager.doReconsiderRouting.trace ∧
    demoReconfigureManager.doReconsiderRouting.doReconsiderRouting.doReconsiderRouting._routes =
      demoReconfigureManager.doReconsiderRouting.doReconsiderRouting._routes :=
  ⟨by decide,
    (reconsider_idempotent demoReconfigureManager (by decide)).1,
    (reconsider_idempotent demoReconfigureManager (by decide)).2.1,
    (reconsider_idempotent demoReconfigureManager (by decide)).2.2.2.2.2.2.2⟩

/-- C7: at the Mute stage, for each direction whose `prevEnabled` mask is a `uint32_t`
value, the ClosingRoutes criterion receives the routes of `prevEnabled` that are absent
from `enabled` or flagged in `needReflow`, the OpenedRoutes criterion the routes of
`prevEnabled` that stay enabled and are not flagged; the two values are disjoint and their
union is `prevEnabled`. -/
theorem setRouteCriteriaForMute_partition (m : AudioRouteManager) (isOut : Bool)
    (hprev : m.prevEnabledRoutes isOut < 2 ^ 32) :
    (∀ i, (m.setRouteCriteriaForMute._selectedClosingRoutes.get isOut).testBit i =
      ((m.prevEnabledRoutes isOut).testBit i &&
        (!(m.enabledRoutes isOut).testBit i || (m.needReflowRoutes isOut).testBit i))) ∧
    (∀ i, (m.setRouteCriteriaForMute._selectedOpenedRoutes.get isOut).testBit i =
      ((m.prevEnabledRoutes isOut).testBit i &&
        ((m.enabledRoutes isOut).testBit i && !(m.needReflowRoutes isOut).testBit i))) ∧
    m.setRouteCriteriaForMute._selectedClosingRoutes.get isOut &&&
      m.setRouteCriteriaForMute._selectedOpenedRoutes.get isOut = 0 ∧
    m.setRouteCriteriaForMute._selectedClosingRoutes.get isOut |||
      m.setRouteCriteriaForMute._selectedOpenedRoutes.get isOut = m.prevEnabledRoutes isOut ∧
    Event.setClosingRoutes isOut (m.setRouteCriteriaForMute._selectedClosingRoutes.get isOut)
      ∈ m.executeMuteRoutingStage.trace ∧
    Event.setOpenedRoutes isOut (m.setRouteCriteriaForMute._selectedOpenedRoutes.get isOut)
      ∈ m.executeMuteRoutingStage.trace := by
  have hc : m.setRouteCriteriaForMute._selectedClosingRoutes.get isOut =
      routesToMute (m._routes.get isOut) := by
    cases isOut <;> rfl
  have ho : m.setRouteCriteriaForMute._selectedOpenedRoutes.get isOut =
      unmutedRoutes (m._routes.get isOut) := by
    cases isOut <;> rfl
  have h32 : ∀ i, (m._routes.get isOut).prevEnabled.testBit i = true → i < 32 :=
    fun i hi => testBit_lt_of_lt_two_pow hprev hi
  have hcb : ∀ i, (routesToMute (m._routes.get isOut)).testBit i =
      ((m._routes.get isOut).prevEnabled.testBit i &&
        (!(m._routes.get isOut).enabled.testBit i ||
          (m._routes.get isOut).needReflow.testBit i)) := by
    intro i
    rw [testBit_routesToMute]
    by_cases hp : (m._routes.get isOut).prevEnabled.testBit i = true
    · have := h32 i hp
      cases he : (m._routes.get isOut).enabled.testBit i <;>
        cases hn : (m._routes.get isOut).needReflow.testBit i <;> simp [hp, this]
    · simp [hp]
  have hob : ∀ i, (unmutedRoutes (m._routes.get isOut)).testBit i =
      ((m._routes.get isOut).prevEnabled.testBit i &&
        ((m._routes.get isOut).enabled.testBit i &&
          !(m._routes.get isOut).needReflow.testBit i)) := by
    intro i
    rw [testBit_unmutedRoutes]
    by_cases hp : (m._routes.get isOut).prevEnabled.testBit i = true
    · have := h32 i hp
      simp [hp, this]
    · simp [hp]
  rw [hc, ho]
  unfold AudioRouteManager.prevEnabledRoutes AudioRouteManager.enabledRoutes
    AudioRouteManager.needReflowRoutes
  refine ⟨hcb, hob, ?_, ?_, ?_, ?_⟩
  · apply Nat.eq_of_testBit_eq
    intro i
    rw [Nat.testBit_and, hcb, hob, Nat.zero_testBit]
    cases (m._routes.get isOut).prevEnabled.testBit i <;>
      cases (m._routes.get isOut).enabled.testBit i <;>
        cases (m._routes.get isOut).needReflow.testBit i <;> rfl
  · apply Nat.eq_of_testBit_eq
    intro i
    rw [Nat.testBit_or, hcb, hob]
    cases (m._routes.get isOut).prevEnabled.testBit i <;>
      cases (m._routes.get isOut).enabled.testBit i <;>
        cases (m._routes.get isOut).needReflow.testBit i <;> rfl
  · rw [executeMuteRoutingStage_trace]
    cases isOut <;> simp
  · rw [executeMuteRoutingStage_trace]
    cases isOut <;> simp

/-! ## Theorems: stream assignment, port exclusivity, voice volume -/

/-- C8: greedy stream assignment.  For every stream route and every content of the stream
registry, either the list of the direction of the route splits around its first eligible
stream (started, not yet routed, applicability mask with a non-zero bitwise AND with the
mask of the route): then `setStreamForRoute` returns true, attaches this stream to the
route and marks no other stream; or no stream of the list is eligible: then it returns
false and changes neither the route nor the manager. -/
theorem setStreamForRoute_greedy (m : AudioRouteManager) (route : AudioRoute) :
    (∀ st : Stream, st.isEligible route = true ↔
      (st.isStarted = true ∧ st.isRouted = false ∧
        (st.applicabilityMask &&& route.applicabilityMask) % 2 ^ 32 ≠ 0)) ∧
    ((∃ pre st post,
        m._streamsList.get route.isOut = pre ++ st :: post ∧
        (∀ x ∈ pre, x.isEligible route = false) ∧ st.isEligible route = true ∧
        m.setStreamForRoute route =
          (true, { route with _newStream := st.id },
            { m with _streamsList := (m._streamsList.set route.isOut
                (pre ++ { st with isRouted := true } :: post)) })) ∨
      ((∀ x ∈ m._streamsList.get route.isOut, x.isEligible route = false) ∧
        m.setStreamForRoute route = (false, route, m))) := by
  refine ⟨?_, ?_⟩
  · intro st
    unfold Stream.isEligible
    simp only [Bool.and_eq_true, Bool.not_eq_true', bne_iff_ne, ne_eq, and_assoc]
  · cases h : setStreamForRouteLoop route (m._streamsList.get route.isOut) with
    | none =>
      right
      refine ⟨(setStreamForRouteLoop_none route _).mp h, ?_⟩
      unfold AudioRouteManager.setStreamForRoute
      rw [h]
    | some r =>
      left
      obtain ⟨pre, st, post, hl, hpre, hst, hp, hl'⟩ :=
        setStreamForRouteLoop_some route _ r.1 r.2 h
      refine ⟨pre, st, post, hl, hpre, hst, ?_⟩
      unfold AudioRouteManager.setStreamForRoute
      rw [h]
      simp only [hp, hl']

/-- C9: mutual exclusivity.  Let `g` be a group that the non-null port `p1` belongs to and
that lists another non-null port `p2`.  (1) After `blockMutualExclusivePort(p1)` on a group
that lists `p2`, every route with `p2` as source or destination is inapplicable for every
value of the rule-engine flag and every stream mask.  (2) When `prepareRoute` enables a
route on `p1`, then after this step and after the preparation of any further routes of the
cycle, every route with `p2` as source or destination evaluates as inapplicable, whatever
the rule engine says and whatever stream asks for it, and `prepareRoute` leaves it unused
and sets no bit in the `enabled` masks.  (3) Hence in the preparation of a cycle, of a
route on `p1` and a route on `p2` that comes later in the route list, at most one ends
used.  (4) The five stages do not touch the ports: the block lasts until the
`resetRouting` of the next cycle. -/
theorem mutual_exclusivity (m : AudioRouteManager) (r1 : AudioRoute) (g p1 p2 : Ptr)
    (hp1 : p1 ≠ NULL) (hp2 : p2 ≠ NULL) (hne : p2 ≠ p1)
    (hmem : p2 ∈ (m._portGroupMap g).mPortList) :
    (∀ mem : PortHeap, ∃ g' mem',
      (m._portGroupMap g).blockMutualExclusivePort p1 mem = some (g', mem') ∧
      ∀ r2 : AudioRoute, (r2.portSrc = p2 ∨ r2.portDst = p2) →
        r2.isApplicable mem' = false ∧
        ∀ mask, AudioStreamRoute.isApplicable r2 mask mem' = false) ∧
    ((r1.portSrc = p1 ∨ r1.portDst = p1) → g ∈ (m._portMap p1).mGroupList →
      (m.prepareRoute r1).1.isUsed = true →
      ∀ (rest : List AudioRoute) (r2 : AudioRoute), (r2.portSrc = p2 ∨ r2.portDst = p2) →
        r2.isApplicable
          (prepareRoutes rest
            ((m.prepareRoute r1).2.setNeedBits (m.prepareRoute r1).1)).2._portMap = false ∧
        (∀ mask, AudioStreamRoute.isApplicable r2 mask
          (prepareRoutes rest
            ((m.prepareRoute r1).2.setNeedBits (m.prepareRoute r1).1)).2._portMap = false) ∧
        ((prepareRoutes rest
            ((m.prepareRoute r1).2.setNeedBits (m.prepareRoute r1).1)).2.prepareRoute
              r2).1.isUsed = false ∧
        ∀ isOut, ((prepareRoutes rest
            ((m.prepareRoute r1).2.setNeedBits (m.prepareRoute r1).1)).2.prepareRoute
              r2).2.enabledRoutes isOut =
          (prepareRoutes rest
            ((m.prepareRoute r1).2.setNeedBits (m.prepareRoute r1).1)).2.enabledRoutes
              isOut) ∧
    (g ∈ (m._portMap p1).mGroupList →
      ∀ (before mid after : List AudioRoute) (a b : AudioRoute),
        (a.portSrc = p1 ∨ a.portDst = p1) → (b.portSrc = p2 ∨ b.portDst = p2) →
        ∃ before' a' mid' b' after',
          (prepareRoutes (before ++ a :: (mid ++ b :: after)) m).1 =
            before' ++ a' :: (mid' ++ b' :: after') ∧
          before'.length = before.length ∧ mid'.length = mid.length ∧
          (∃ u n, a' = { a with isUsed := u, _newStream := n }) ∧
          (∃ u n, b' = { b with isUsed := u, _newStream := n }) ∧
          ¬ (a'.isUsed = true ∧ b'.isUsed = true)) ∧
    (∀ k : AudioRouteManager, k.executeRouting._portMap = k._portMap) := by
  refine ⟨?_, ?_, ?_, executeRouting_portMap⟩
  · intro mem
    refine ⟨m._portGroupMap g, blockMutualExclusivePortLoop p1 (m._portGroupMap g).mPortList mem,
      by simp [AudioPortGroup.blockMutualExclusivePort, hp1], ?_⟩
    intro r2 hr2
    exact isApplicable_of_blocked r2 _ p2 hp2 hr2 (blockLoop_blocks p1 _ mem p2 hmem hne)
  · intro hr1 hg hen rest r2 hr2
    have hblocked := prepareRoute_blocks_sibling m r1 g p1 p2 hp1 hne hmem hr1 hg hen rest
    have happ := isApplicable_of_blocked r2 _ p2 hp2 hr2 hblocked
    have hunused := prepareRoute_not_applicable _ r2 happ.1
    exact ⟨happ.1, happ.2, hunused.1, hunused.2⟩
  · intro hg before mid after a b ha hb
    exact prepareRoutes_exclusive m g p1 p2 hp1 hp2 hne hmem hg before mid after a b ha hb

/-- C10: for every gain below 0 or above 1 (for instance -0.1 and 1.1) `setVoiceVolume`
returns `-ERANGE` and leaves the manager, the stored voice volume included, unchanged; for
every gain in the closed range [0, 1] it does not return `-ERANGE`. -/
theorem setVoiceVolume_range (m : AudioRouteManager) (gain : ℚ) :
    ((gain < 0 ∨ 1 < gain) → m.setVoiceVolume gain = (-ERANGE, m)) ∧
    ((0 ≤ gain ∧ gain ≤ 1) → (m.setVoiceVolume gain).1 ≠ -ERANGE) ∧
    m.setVoiceVolume (-1 / 10) = (-ERANGE, m) ∧
    m.setVoiceVolume (11 / 10) = (-ERANGE, m) ∧
    (m.setVoiceVolume 0).1 ≠ -ERANGE ∧ (m.setVoiceVolume 1).1 ≠ -ERANGE := by
  have hout : ∀ q : ℚ, (q < 0 ∨ 1 < q) → m.setVoiceVolume q = (-ERANGE, m) := by
    intro q hq
    unfold AudioRouteManager.setVoiceVolume
    rw [if_pos hq]
  have hin : ∀ q : ℚ, (0 ≤ q ∧ q ≤ 1) → (m.setVoiceVolume q).1 ≠ -ERANGE := by
    intro q hq
    unfold AudioRouteManager.setVoiceVolume
    have hn : ¬(q < 0 ∨ q > 1) := by
      rintro (h | h)
      · exact absurd hq.1 (not_le.mpr h)
      · exact absurd hq.2 (not_le.mpr h)
    rw [if_neg hn]
    show OK ≠ -ERANGE
    decide
  refine ⟨hout gain, hin gain, hout _ (Or.inl (by norm_num)), hout _ (Or.inr (by norm_num)),
    hin 0 (by norm_num), hin 1 (by norm_num)⟩

/-! ## Instances on the example data -/

/-- Instance of C7 on the example manager at the Mute stage, output direction: ClosingRoutes
is 5 (routes 0 and 2), OpenedRoutes is 8 (route 3). -/
theorem setRouteCriteriaForMute_partition_witness :
    demoMuteManager.prevEnabledRoutes true < 2 ^ 32 ∧
    (demoMuteManager.setRouteCriteriaForMute._selectedClosingRoutes.get true &&&
      demoMuteManager.setRouteCriteriaForMute._selectedOpenedRoutes.get true = 0 ∧
    demoMuteManager.setRouteCriteriaForMute._selectedClosingRoutes.get true |||
      demoMuteManager.setRouteCriteriaForMute._selectedOpenedRoutes.get true =
        demoMuteManager.prevEnabledRoutes true) ∧
    demoMuteManager.setRouteCriteriaForMute._selectedClosingRoutes.get true = 5 ∧
    demoMuteManager.setRouteCriteriaForMute._selectedOpenedRoutes.get true = 8 :=
  ⟨by decide,
    ⟨(setRouteCriteriaForMute_partition demoMuteManager true (by decide)).2.2.1,
      (setRouteCriteriaForMute_partition demoMuteManager true (by decide)).2.2.2.1⟩,
    by decide, by decide⟩

/-- Instance of C9: the route on port 1 is enabled, every route on port 2 is then left
unused. -/
theorem mutual_exclusivity_witness :
    ((1 : Ptr) ≠ NULL ∧ (2 : Ptr) ≠ NULL ∧ (2 : Ptr) ≠ 1 ∧
      2 ∈ (demoExclusiveManager._portGroupMap 1).mPortList ∧
      (demoPortRoute.portSrc = 1 ∨ demoPortRoute.portDst = 1) ∧
      1 ∈ (demoExclusiveManager._portMap 1).mGroupList ∧
      (demoExclusiveManager.prepareRoute demoPortRoute).1.isUsed = true) ∧
    ∀ r2 : AudioRoute, (r2.portSrc = 2 ∨ r2.portDst = 2) →
      ((prepareRoutes []
        ((demoExclusiveManager.prepareRoute demoPortRoute).2.setNeedBits
          (demoExclusiveManager.prepareRoute demoPortRoute).1)).2.prepareRoute
            r2).1.isUsed = false :=
  ⟨⟨by decide, by decide, by decide, by decide, by decide, by decide, by decide⟩,
    fun r2 h2 =>
      ((mutual_exclusivity demoExclusiveManager demoPortRoute 1 1 2 (by decide) (by decide)
        (by decide) (by decide)).2.1 (Or.inl rfl) (by decide) (by decide) [] r2 h2).2.2.1⟩

/-! ## Element maps and stream interface -/

/-! ### Lemmas on element maps -/

theorem ElementMap.findIn_assignIn_same {T : Type} (l : List (String × T)) (name : String)
    (e : T) : ElementMap.findIn (ElementMap.assignIn l name e) name = some e := by
  induction l with
  | nil => simp [ElementMap.assignIn, ElementMap.findIn]
  | cons kv rest ih =>
    obtain ⟨k, v⟩ := kv
    unfold ElementMap.assignIn
    by_cases h1 : name < k
    · rw [if_pos h1]
      simp [ElementMap.findIn]
    · rw [if_neg h1]
      by_cases h2 : k = name
      · rw [if_pos h2]
        simp [ElementMap.findIn, h2]
      · rw [if_neg h2]
        simp [ElementMap.findIn, h2, ih]

theorem ElementMap.findIn_assignIn_other {T : Type} (l : List (String × T))
    (name other : String) (e : T) (hne : other ≠ name) :
    ElementMap.findIn (ElementMap.assignIn l name e) other = ElementMap.findIn l other := by
  induction l with
  | nil =>
    simp [ElementMap.assignIn, ElementMap.findIn]
    exact fun h => hne h.symm
  | cons kv rest ih =>
    obtain ⟨k, v⟩ := kv
    unfold ElementMap.assignIn
    by_cases h1 : name < k
    · rw [if_pos h1]
      have : ¬ name = other := fun h => hne h.symm
      simp [ElementMap.findIn, this]
    · rw [if_neg h1]
      by_cases h2 : k = name
      · rw [if_pos h2]
        have : ¬ k = other := fun h => hne (h.symm.trans h2)
        simp [ElementMap.findIn, this]
      · rw [if_neg h2]
        simp only [ElementMap.findIn, ih]

/-! ### C11: addElement -/

/-- C11: when the name is absent from the map, `addElement` returns (with `true`) and the
map then holds the new element `make name id` under that name, every other name being
registered as before; when the name is already present, `addElement` fails fatally, so
that no map follows the call and the element already registered stays in place. -/
theorem addElement_spec {T : Type} (make : String → Nat → T) (name : String) (id : Nat)
    (elementsMap : ElementMap T) :
    (elementsMap.find name = none →
      ∃ newMap, addElement make name id elementsMap = some (true, newMap) ∧
        newMap.find name = some (make name id) ∧
        ∀ other, other ≠ name → newMap.find other = elementsMap.find other) ∧
    (∀ element, elementsMap.find name = some element →
      addElement make name id elementsMap = none) ∧
    (addElement make name id elementsMap = none ↔ (elementsMap.find name).isSome = true) := by
  refine ⟨?_, ?_, ?_⟩
  · intro h
    refine ⟨elementsMap.assign name (make name id), ?_, ?_, ?_⟩
    · simp [addElement, h]
    · exact ElementMap.findIn_assignIn_same _ _ _
    · intro other hne
      exact ElementMap.findIn_assignIn_other _ _ _ _ hne
  · intro element h
    simp [addElement, h]
  · cases h : elementsMap.find name <;> simp [addElement, h]

/-- C11, an instance: on the map that holds the ports `"Bt"` and `"Hdmi"`, adding `"Bt"`
again fails fatally, and adding `"Usb"` registers it after the two others. -/
theorem addElement_spec_witness :
    addElement (fun n i => (n, i)) "Bt" 7 demoElementMap = none ∧
      addElement (fun n i => (n, i)) "Usb" 3 demoElementMap
        = some (true,
            { entries := [("Bt", ("Bt", 1)), ("Hdmi", ("Hdmi", 2)), ("Usb", ("Usb", 3))] }) :=
  ⟨(addElement_spec (fun n i => (n, i)) "Bt" 7 demoElementMap).2.1 ("Bt", 1) (by decide),
    by
      simp [addElement, demoElementMap, ElementMap.find, ElementMap.findIn,
        ElementMap.assign, ElementMap.assignIn]
      decide⟩

/-! ### C12: findElementByName and getElement -/

/-- C12: `findElementByName` never fails and returns the element registered under the name,
or `NULL` (the inner `none`) when there is none; `getElement` returns that same element
when the name is registered and fails fatally exactly when `findElementByName` reports
not-found; a call of `getElement` that returns leaves the map as it was
(`findElementByName` takes its map by value). -/
theorem getElement_findElementByName {T : Type} (name : String)
    (elementsMap : ElementMap T) :
    findElementByName name elementsMap = some (elementsMap.find name) ∧
    (∀ element, findElementByName name elementsMap = some (some element) →
      getElement name elementsMap = some (element, elementsMap)) ∧
    (getElement name elementsMap = none ↔ findElementByName name elementsMap = some none) ∧
    (∀ r, getElement name elementsMap = some r → r.2 = elementsMap) := by
  refine ⟨rfl, ?_, ?_, ?_⟩
  · intro element h
    have h1 : elementsMap.find name = some element := by
      simpa [findElementByName] using h
    simp [getElement, h1]
  · cases h : elementsMap.find name <;> simp [getElement, findElementByName, h]
  · intro r hr
    cases h : elementsMap.find name with
    | none => simp [getElement, h] at hr
    | some e =>
      simp [getElement, h] at hr
      rw [← hr]

/-! ### C13: stream start, stop and reconsider requests -/

/-- C13: whatever the route manager's `reconsiderRouting` does, `startStream` and
`stopStream` are exactly one call of it with `isSynchronous = true`, and the stream
interface's `reconsiderRouting()` is exactly one call of it with `isSynchronous = false`;
on a route manager that records its requests each of the three adds one request, with that
value, and nothing else. -/
theorem streamInterface_requests {σ : Type} (reconsiderRouting : Bool → σ → σ)
    (_routeMgr : σ) (requests : List Bool) :
    StreamInterfaceImpl.startStream reconsiderRouting _routeMgr
        = reconsiderRouting true _routeMgr ∧
      StreamInterfaceImpl.stopStream reconsiderRouting _routeMgr
        = reconsiderRouting true _routeMgr ∧
      StreamInterfaceImpl.reconsiderRouting reconsiderRouting _routeMgr
        = reconsiderRouting false _routeMgr ∧
      StreamInterfaceImpl.startStream recordReconsiderRouting requests
        = requests ++ [true] ∧
      StreamInterfaceImpl.stopStream recordReconsiderRouting requests
        = requests ++ [true] ∧
      StreamInterfaceImpl.reconsiderRouting recordReconsiderRouting requests
        = requests ++ [false] :=
  ⟨rfl, rfl, rfl, rfl, rfl, rfl⟩

/-! ## Platform state adapter -/

/-! ### Lemmas on key/value collections -/

theorem KeyValuePairs.lookup_filter_ne (l : List (String × String)) (key other : String)
    (hne : other ≠ key) :
    KeyValuePairs.lookup (l.filter (fun kv => !decide (kv.1 = key))) other
      = KeyValuePairs.lookup l other := by
  induction l with
  | nil => rfl
  | cons kv rest ih =>
    obtain ⟨k, v⟩ := kv
    by_cases hk : k = key
    · have h1 : ¬ k = other := fun h => hne (h.symm.trans hk)
      have h2 : ¬ key = other := fun h => hne h.symm
      simp [List.filter_cons, hk, KeyValuePairs.lookup, ih, h2]
    · by_cases ho : k = other
      · have h3 : ¬ other = key := hne
        simp [List.filter_cons, KeyValuePairs.lookup, ho, h3]
      · simp [List.filter_cons, hk, KeyValuePairs.lookup, ho, ih]

theorem KeyValuePairs.lookup_filter_self (l : List (String × String)) (key : String) :
    KeyValuePairs.lookup (l.filter (fun kv => !decide (kv.1 = key))) key = none := by
  induction l with
  | nil => rfl
  | cons kv rest ih =>
    obtain ⟨k, v⟩ := kv
    by_cases hk : k = key
    · simp [List.filter_cons, hk, ih]
    · simp [List.filter_cons, hk, KeyValuePairs.lookup, ih]

theorem KeyValuePairs.lookup_append (l1 l2 : List (String × String)) (key : String) :
    KeyValuePairs.lookup (l1 ++ l2) key
      = (KeyValuePairs.lookup l1 key).orElse (fun _ => KeyValuePairs.lookup l2 key) := by
  induction l1 with
  | nil => rfl
  | cons kv rest ih =>
    obtain ⟨k, v⟩ := kv
    by_cases hk : k = key
    · simp [KeyValuePairs.lookup, hk]
    · simp [KeyValuePairs.lookup, hk, ih]

theorem KeyValuePairs.lookup_none_iff (l : List (String × String)) (key : String) :
    KeyValuePairs.lookup l key = none ↔ ∀ kv ∈ l, kv.1 ≠ key := by
  induction l with
  | nil => simp [KeyValuePairs.lookup]
  | cons kv rest ih =>
    obtain ⟨k, v⟩ := kv
    by_cases hk : k = key
    · simp [KeyValuePairs.lookup, hk]
    · simp [KeyValuePairs.lookup, hk, ih]

theorem KeyValuePairs.get_remove_self (pairs : KeyValuePairs) (key : String) :
    (pairs.remove key).get key = none :=
  KeyValuePairs.lookup_filter_self _ _

theorem KeyValuePairs.get_remove_other (pairs : KeyValuePairs) (key other : String)
    (hne : other ≠ key) : (pairs.remove key).get other = pairs.get other :=
  KeyValuePairs.lookup_filter_ne _ _ _ hne

theorem KeyValuePairs.get_add_self (pairs : KeyValuePairs) (key value : String)
    (h : pairs.get key = none) : (pairs.add key value).get key = some value := by
  unfold KeyValuePairs.add
  rw [h]
  simp only [Option.isSome_none, Bool.false_eq_true, if_false]
  unfold KeyValuePairs.get at *
  rw [KeyValuePairs.lookup_append, h]
  simp [KeyValuePairs.lookup]

theorem KeyValuePairs.get_add_other (pairs : KeyValuePairs) (key value other : String)
    (hne : other ≠ key) : (pairs.add key value).get other = pairs.get other := by
  unfold KeyValuePairs.add
  by_cases h : (pairs.get key).isSome = true
  · rw [if_pos h]
  · rw [if_neg h]
    unfold KeyValuePairs.get
    rw [KeyValuePairs.lookup_append]
    have : ¬ key = other := fun e => hne e.symm
    cases KeyValuePairs.lookup pairs.mMap other <;> simp [KeyValuePairs.lookup, this]

/-! ### Lemmas on the set helper -/

theorem SetFromAndroidParameterHelper.call_mPairs {P W : Type} (ops : ParameterOps P W)
    (helper : SetFromAndroidParameterHelper) (param : P) (w : W) :
    (SetFromAndroidParameterHelper.call ops helper param w).1.mPairs = helper.mPairs := by
  unfold SetFromAndroidParameterHelper.call
  dsimp only
  cases helper.mPairs.get (ops.getKey param) with
  | none => rfl
  | some v =>
    dsimp only
    cases (ops.setValue param v w).1 <;> rfl

theorem SetFromAndroidParameterHelper.forEach_mPairs {P W : Type} (ops : ParameterOps P W)
    (params : List P) (helper : SetFromAndroidParameterHelper) (w : W) :
    (SetFromAndroidParameterHelper.forEach ops params helper w).1.mPairs = helper.mPairs := by
  induction params generalizing helper w with
  | nil => rfl
  | cons p rest ih =>
    unfold SetFromAndroidParameterHelper.forEach
    dsimp only
    rw [ih, SetFromAndroidParameterHelper.call_mPairs]

theorem SetFromAndroidParameterHelper.forEach_run {P W : Type} (ops : ParameterOps P W)
    (params : List P) (helper : SetFromAndroidParameterHelper) (w : W) :
    (SetFromAndroidParameterHelper.forEach ops params helper w).2
        = (runSetValueCalls ops (expectedSetValueCalls ops helper.mPairs params) w).2 ∧
      (SetFromAndroidParameterHelper.forEach ops params helper w).1.mErrorCount
        = helper.mErrorCount +
          ((runSetValueCalls ops (expectedSetValueCalls ops helper.mPairs params) w).1.count
            false : Nat) := by
  induction params generalizing helper w with
  | nil => simp [SetFromAndroidParameterHelper.forEach, expectedSetValueCalls, runSetValueCalls]
  | cons p rest ih =>
    unfold SetFromAndroidParameterHelper.forEach
    dsimp only
    have hp := SetFromAndroidParameterHelper.call_mPairs ops helper p w
    obtain ⟨ih1, ih2⟩ := ih (SetFromAndroidParameterHelper.call ops helper p w).1
      (SetFromAndroidParameterHelper.call ops helper p w).2
    rw [hp] at ih1 ih2
    rw [ih1, ih2]
    unfold expectedSetValueCalls SetFromAndroidParameterHelper.call
    dsimp only
    cases hg : helper.mPairs.get (ops.getKey p) with
    | none => simp [List.filterMap_cons, hg]
    | some v =>
      simp only [List.filterMap_cons, hg, Option.map_some', runSetValueCalls]
      cases hs : (ops.setValue p v w).1
      · simp only [Bool.not_false, if_true, List.count_cons_self]
        push_cast
        ring_nf
        trivial
      · simp only [Bool.not_true, Bool.false_eq_true, if_false]
        rw [List.count_cons_of_ne (by decide)]
        trivial

theorem expectedSetValueCalls_fst {P W : Type} (ops : ParameterOps P W)
    (pairs : KeyValuePairs) (params : List P) :
    (expectedSetValueCalls ops pairs params).map Prod.fst
      = params.filter (fun param => (pairs.get (ops.getKey param)).isSome) := by
  induction params with
  | nil => rfl
  | cons p rest ih =>
    unfold expectedSetValueCalls at *
    cases hg : pairs.get (ops.getKey p) with
    | none => simp [List.filterMap_cons, List.filter_cons, hg, ih]
    | some v => simp [List.filterMap_cons, List.filter_cons, hg, ih]

theorem expectedSetValueCalls_mem {P W : Type} (ops : ParameterOps P W)
    (pairs : KeyValuePairs) (params : List P) (c : P × String) :
    c ∈ expectedSetValueCalls ops pairs params
      ↔ c.1 ∈ params ∧ pairs.get (ops.getKey c.1) = some c.2 := by
  obtain ⟨p, v⟩ := c
  unfold expectedSetValueCalls
  simp only [List.mem_filterMap, Option.map_eq_some', Prod.mk.injEq]
  constructor
  · rintro ⟨a, ha, b, hb, rfl, rfl⟩
    exact ⟨ha, hb⟩
  · rintro ⟨ha, hb⟩
    exact ⟨p, ha, v, hb, rfl, rfl⟩

/-! ### Lemmas on the clear helper -/

theorem ClearKeyAndroidParameterHelper.call_eq_remove {P W : Type} (ops : ParameterOps P W)
    (mPairs : KeyValuePairs) (param : P) :
    ClearKeyAndroidParameterHelper.call ops mPairs param
      = mPairs.remove (ops.getKey param) := by
  unfold ClearKeyAndroidParameterHelper.call
  dsimp only
  cases hg : mPairs.get (ops.getKey param) with
  | some v => rfl
  | none =>
    have h := (KeyValuePairs.lookup_none_iff _ _).1 hg
    unfold KeyValuePairs.remove
    have hf : mPairs.mMap.filter (fun kv => !decide (kv.1 = ops.getKey param))
        = mPairs.mMap := by
      apply List.filter_eq_self.2
      intro kv hkv
      simp [h kv hkv]
    rw [hf]

theorem ClearKeyAndroidParameterHelper.forEach_mMap {P W : Type} (ops : ParameterOps P W)
    (params : List P) (pairs : KeyValuePairs) :
    (ClearKeyAndroidParameterHelper.forEach ops params pairs).mMap
      = pairs.mMap.filter (fun kv => decide (kv.1 ∉ params.map ops.getKey)) := by
  induction params generalizing pairs with
  | nil => simp [ClearKeyAndroidParameterHelper.forEach]
  | cons p rest ih =>
    unfold ClearKeyAndroidParameterHelper.forEach
    rw [ih, ClearKeyAndroidParameterHelper.call_eq_remove]
    unfold KeyValuePairs.remove
    dsimp only
    rw [List.filter_filter]
    apply List.filter_congr
    intro kv _
    by_cases h1 : kv.1 = ops.getKey p <;> simp [h1]

/-! ### C14: SetFromAndroidParameterHelper -/

/-- C14: applied to each parameter of a vector, `SetFromAndroidParameterHelper` leaves the
collection unchanged; what it does to the parameters is exactly the sequence of calls
`setValue(value)` on the parameters whose key is in the collection (each of them once, in
the order of the vector, so all of them when several share a key), `value` being the value
stored under the parameter's key; and the error counter increases by the number of these
calls that return false. -/
theorem setFromAndroidParameterHelper_forEach {P W : Type} (ops : ParameterOps P W)
    (params : List P) (helper : SetFromAndroidParameterHelper) (w : W) :
    (SetFromAndroidParameterHelper.forEach ops params helper w).1.mPairs = helper.mPairs ∧
    (SetFromAndroidParameterHelper.forEach ops params helper w).2
      = (runSetValueCalls ops (expectedSetValueCalls ops helper.mPairs params) w).2 ∧
    (SetFromAndroidParameterHelper.forEach ops params helper w).1.mErrorCount
      = helper.mErrorCount +
        ((runSetValueCalls ops (expectedSetValueCalls ops helper.mPairs params) w).1.count
          false : Nat) ∧
    (expectedSetValueCalls ops helper.mPairs params).map Prod.fst
      = params.filter (fun param => (helper.mPairs.get (ops.getKey param)).isSome) ∧
    (∀ c, c ∈ expectedSetValueCalls ops helper.mPairs params
      ↔ c.1 ∈ params ∧ helper.mPairs.get (ops.getKey c.1) = some c.2) :=
  ⟨SetFromAndroidParameterHelper.forEach_mPairs ops params helper w,
    (SetFromAndroidParameterHelper.forEach_run ops params helper w).1,
    (SetFromAndroidParameterHelper.forEach_run ops params helper w).2,
    expectedSetValueCalls_fst ops helper.mPairs params,
    expectedSetValueCalls_mem ops helper.mPairs params⟩

/-! ### C15: GetFromAndroidParameterHelper -/

/-- C15: when the parameter's key is in the query and its `getValue` succeeds,
`GetFromAndroidParameterHelper` adds (key, literal value) to the output, where the key then
holds the literal value if it was not there yet, and removes the key from the query, every
other key of the query and of the output being kept with its value; when the key is absent
from the query or `getValue` fails, query and output are both unchanged. -/
theorem getFromAndroidParameterHelper_call {P W : Type} (ops : ParameterOps P W) (w : W)
    (helper : GetFromAndroidParameterHelper) (param : P) :
    (∀ value literalValue, helper.mPairsIn.get (ops.getKey param) = some value →
      ops.getValue param w = some literalValue →
      GetFromAndroidParameterHelper.call ops w helper param
        = { mPairsIn := helper.mPairsIn.remove (ops.getKey param),
            mPairsOut := helper.mPairsOut.add (ops.getKey param) literalValue } ∧
      (GetFromAndroidParameterHelper.call ops w helper param).mPairsIn.get (ops.getKey param)
        = none ∧
      (GetFromAndroidParameterHelper.call ops w helper param).mPairsIn.mMap
        = helper.mPairsIn.mMap.filter (fun kv => !decide (kv.1 = ops.getKey param)) ∧
      (∀ other, other ≠ ops.getKey param →
        (GetFromAndroidParameterHelper.call ops w helper param).mPairsIn.get other
          = helper.mPairsIn.get other) ∧
      (helper.mPairsOut.get (ops.getKey param) = none →
        (GetFromAndroidParameterHelper.call ops w helper param).mPairsOut.get
          (ops.getKey param) = some literalValue) ∧
      (∀ other, other ≠ ops.getKey param →
        (GetFromAndroidParameterHelper.call ops w helper param).mPairsOut.get other
          = helper.mPairsOut.get other)) ∧
    (helper.mPairsIn.get (ops.getKey param) = none ∨ ops.getValue param w = none →
      GetFromAndroidParameterHelper.call ops w helper param = helper) := by
  constructor
  · intro value literalValue hin hval
    have hcall : GetFromAndroidParameterHelper.call ops w helper param
        = { mPairsIn := helper.mPairsIn.remove (ops.getKey param),
            mPairsOut := helper.mPairsOut.add (ops.getKey param) literalValue } := by
      simp [GetFromAndroidParameterHelper.call, hin, hval]
    rw [hcall]
    refine ⟨rfl, KeyValuePairs.get_remove_self _ _, rfl, ?_, ?_, ?_⟩
    · intro other hne
      exact KeyValuePairs.get_remove_other _ _ _ hne
    · intro hout
      exact KeyValuePairs.get_add_self _ _ _ hout
    · intro other hne
      exact KeyValuePairs.get_add_other _ _ _ _ hne
  · intro h
    unfold GetFromAndroidParameterHelper.call
    dsimp only
    cases hin : helper.mPairsIn.get (ops.getKey param) with
    | none => rfl
    | some v =>
      rcases h with h | h
      · rw [hin] at h
        cases h
      · simp [h]

/-! ### C17: ClearKeyAndroidParameterHelper -/

/-- C17: after `ClearKeyAndroidParameterHelper` has been applied to every parameter (which
is what `clearKeys` does), the collection holds exactly the input pairs whose key is the
key of no registered parameter, in their order and each with its original value; the
operation is total, no failure is raised for the keys that remain. -/
theorem clearKeyAndroidParameterHelper_forEach {P W : Type} (ops : ParameterOps P W)
    (params : List P) (pairs : KeyValuePairs) :
    AudioPlatformState.clearKeys ops params pairs
      = ClearKeyAndroidParameterHelper.forEach ops params pairs ∧
    (ClearKeyAndroidParameterHelper.forEach ops params pairs).mMap
      = pairs.mMap.filter (fun kv => decide (kv.1 ∉ params.map ops.getKey)) ∧
    (∀ key value, (key, value) ∈ (ClearKeyAndroidParameterHelper.forEach ops params pairs).mMap
      ↔ (key, value) ∈ pairs.mMap ∧ ∀ param ∈ params, ops.getKey param ≠ key) := by
  refine ⟨rfl, ClearKeyAndroidParameterHelper.forEach_mMap ops params pairs, ?_⟩
  intro key value
  rw [ClearKeyAndroidParameterHelper.forEach_mMap]
  simp only [List.mem_filter, decide_eq_true_eq, List.mem_map, not_exists, not_and]

/-! ### Lemmas on a query with one key -/

theorem KeyValuePairs.lookup_mem (l : List (String × String)) (key value : String)
    (h : KeyValuePairs.lookup l key = some value) : (key, value) ∈ l := by
  induction l with
  | nil => simp [KeyValuePairs.lookup] at h
  | cons kv rest ih =>
    obtain ⟨k, v⟩ := kv
    by_cases hk : k = key
    · simp [KeyValuePairs.lookup, hk] at h
      simp [hk, h]
    · simp [KeyValuePairs.lookup, hk] at h
      exact List.mem_cons_of_mem _ (ih h)

theorem GetFromAndroidParameterHelper.forEach_empty_query {P W : Type}
    (ops : ParameterOps P W) (w : W) (params : List P) (out : KeyValuePairs) :
    GetFromAndroidParameterHelper.forEach ops w params
        { mPairsIn := { mMap := [] }, mPairsOut := out }
      = { mPairsIn := { mMap := [] }, mPairsOut := out } := by
  induction params with
  | nil => rfl
  | cons p rest ih =>
    unfold GetFromAndroidParameterHelper.forEach
    have : GetFromAndroidParameterHelper.call ops w
        { mPairsIn := { mMap := [] }, mPairsOut := out } p
        = { mPairsIn := { mMap := [] }, mPairsOut := out } := by
      simp [GetFromAndroidParameterHelper.call, KeyValuePairs.get, KeyValuePairs.lookup]
    rw [this, ih]

theorem GetFromAndroidParameterHelper.forEach_single {P W : Type}
    (ops : ParameterOps P W) (w : W) (params : List P) (k q v : String)
    (hex : ∃ p ∈ params, ops.getKey p = k)
    (hval : ∀ p ∈ params, ops.getKey p = k → ops.getValue p w = some v) :
    GetFromAndroidParameterHelper.forEach ops w params
        { mPairsIn := { mMap := [(k, q)] }, mPairsOut := { mMap := [] } }
      = { mPairsIn := { mMap := [] }, mPairsOut := { mMap := [(k, v)] } } := by
  induction params with
  | nil =>
    obtain ⟨p, hp, _⟩ := hex
    cases hp
  | cons p rest ih =>
    unfold GetFromAndroidParameterHelper.forEach
    by_cases hk : ops.getKey p = k
    · have hv := hval p (List.mem_cons_self _ _) hk
      have : GetFromAndroidParameterHelper.call ops w
          { mPairsIn := { mMap := [(k, q)] }, mPairsOut := { mMap := [] } } p
          = { mPairsIn := { mMap := [] }, mPairsOut := { mMap := [(k, v)] } } := by
        simp [GetFromAndroidParameterHelper.call, KeyValuePairs.get, KeyValuePairs.lookup,
          hk, hv, KeyValuePairs.remove, KeyValuePairs.add]
      rw [this]
      exact GetFromAndroidParameterHelper.forEach_empty_query ops w rest _
    · have hk2 : ¬ k = ops.getKey p := fun e => hk e.symm
      have : GetFromAndroidParameterHelper.call ops w
          { mPairsIn := { mMap := [(k, q)] }, mPairsOut := { mMap := [] } } p
          = { mPairsIn := { mMap := [(k, q)] }, mPairsOut := { mMap := [] } } := by
        simp [GetFromAndroidParameterHelper.call, KeyValuePairs.get, KeyValuePairs.lookup,
          hk2]
      rw [this]
      apply ih
      · obtain ⟨p2, hp2, hk3⟩ := hex
        rcases List.mem_cons.1 hp2 with e | hmem
        · rw [e] at hk3
          exact absurd hk3 hk
        · exact ⟨p2, hmem, hk3⟩
      · intro p2 hp2 hk3
        exact hval p2 (List.mem_cons_of_mem _ hp2) hk3

/-- A query with one key, answered by `getParameters`: when a parameter has the key and
every parameter with the key reads the same literal value, that value is returned under the
key. -/
theorem getParameters_single {P W : Type} (ops : ParameterOps P W) (w : W)
    (params : List P) (k q v : String) (hex : ∃ p ∈ params, ops.getKey p = k)
    (hval : ∀ p ∈ params, ops.getKey p = k → ops.getValue p w = some v) :
    AudioPlatformState.getParameters ops params { mMap := [(k, q)] } w
      = { mMap := [(k, v)] } := by
  unfold AudioPlatformState.getParameters
  rw [GetFromAndroidParameterHelper.forEach_single ops w params k q v hex hval]

/-! ## Tiny ALSA audio device -/

/-! ### C18: status and handle after open -/

/-- In the events of a pass over routes with distinct identities, the event of a route
occurs once when the pass handles the route, and the event of another pass never. -/
theorem pass_count (ev : Bool → Nat → Bool → Event)
    (hinj : ∀ o i b o2 i2 b2, ev o i b = ev o2 i2 b2 → o = o2 ∧ i = i2 ∧ b = b2)
    (p : AudioRoute → Bool) (l : List AudioRoute)
    (hid : (l.map (fun r => (r.isOut, r.id))).Nodup) (r : AudioRoute) (hr : r ∈ l)
    (b b2 : Bool) :
    ((l.filter p).map (fun a => ev a.isOut a.id b2)).count (ev r.isOut r.id b)
      = if b = b2 ∧ p r = true then 1 else 0 := by
  have hon : ∀ x ∈ l, ∀ y ∈ l, (x.isOut, x.id) = (y.isOut, y.id) → x = y :=
    fun x hx y hy => List.inj_on_of_nodup_map hid hx hy
  by_cases hb : b = b2
  · subst hb
    by_cases hp : p r = true
    · rw [if_pos ⟨rfl, hp⟩]
      apply List.count_eq_one_of_mem
      · apply List.Nodup.map_on
        · intro x hx y hy hxy
          obtain ⟨h1, h2, _⟩ := hinj _ _ _ _ _ _ hxy
          exact hon x (List.mem_of_mem_filter hx) y (List.mem_of_mem_filter hy)
            (by rw [h1, h2])
        · exact (List.Nodup.of_map _ hid).filter _
      · exact List.mem_map.2 ⟨r, List.mem_filter.2 ⟨hr, hp⟩, rfl⟩
    · rw [if_neg (fun h => hp h.2)]
      apply List.count_eq_zero_of_not_mem
      intro hmem
      obtain ⟨a, ha, hev⟩ := List.mem_map.1 hmem
      obtain ⟨h1, h2, _⟩ := hinj _ _ _ _ _ _ hev
      have : a = r := hon a (List.mem_of_mem_filter ha) r hr (by rw [h1, h2])
      rw [this] at ha
      exact hp (List.mem_filter.1 ha).2
  · rw [if_neg (fun h => hb h.1)]
    apply List.count_eq_zero_of_not_mem
    intro hmem
    obtain ⟨a, _, hev⟩ := List.mem_map.1 hmem
    exact hb (hinj _ _ _ _ _ _ hev).2.2.symm

theorem doDisableRoutesLoop_events (b : Bool) (l : List AudioRoute) :
    (doDisableRoutesLoop b l).2
      = (l.filter (fun r => r.toDisable b)).map (fun r => Event.unroute r.isOut r.id b) := by
  induction l with
  | nil => rfl
  | cons r rest ih =>
    unfold doDisableRoutesLoop
    by_cases h : r.toDisable b = true
    · simp [h, ih, List.filter_cons]
    · simp [h, ih, List.filter_cons]

theorem doEnableRoutesLoop_events (b : Bool) (l : List AudioRoute) :
    (doEnableRoutesLoop b l).2
      = (l.filter (fun r => r.toEnable b)).map (fun r => Event.route r.isOut r.id b) := by
  induction l with
  | nil => rfl
  | cons r rest ih =>
    unfold doEnableRoutesLoop
    by_cases h : r.toEnable b = true
    · simp [h, ih, List.filter_cons]
    · simp [h, ih, List.filter_cons]

/-- The generic disable pass leaves alone what the post-disable pass looks at. -/
theorem toDisable_after_generic (r : AudioRoute) :
    (if r.toDisable false then AudioStreamRoute.detachCurrentStream r else r).toDisable true
      = r.toDisable true := by
  by_cases h : r.toDisable false = true
  · rw [if_pos h]
    have hq : r.requirePostDisable = false := by
      simp only [AudioRoute.toDisable, Bool.and_eq_true, beq_iff_eq] at h
      exact h.2
    simp [AudioRoute.toDisable, AudioStreamRoute.detachCurrentStream, hq]
  · rw [if_neg h]

/-- The pre-enable pass leaves alone what the generic enable pass looks at. -/
theorem toEnable_after_pre (r : AudioRoute) :
    (if r.toEnable true then AudioStreamRoute.attachNewStream r else r).toEnable false
      = r.toEnable false := by
  by_cases h : r.toEnable true = true
  · rw [if_pos h]
    have hq : r.requirePreEnable = true := by
      simp only [AudioRoute.toEnable, Bool.and_eq_true, beq_iff_eq] at h
      exact h.2
    simp [AudioRoute.toEnable, AudioStreamRoute.attachNewStream, hq]
  · rw [if_neg h]

/-- The events of the post-disable pass, in terms of the routes at the entry of the stage.
-/
theorem postDisable_events (l : List AudioRoute) :
    (doDisableRoutesLoop true (doDisableRoutesLoop false l).1).2
      = (l.filter (fun r => r.toDisable true)).map
          (fun r => Event.unroute r.isOut r.id true) := by
  rw [doDisableRoutesLoop_events, doDisableRoutesLoop_map, List.filter_map, List.map_map]
  have hf : (fun r => AudioRoute.toDisable r true) ∘
      (fun r => if AudioRoute.toDisable r false then AudioStreamRoute.detachCurrentStream r
        else r) = fun r => AudioRoute.toDisable r true := by
    funext r
    exact toDisable_after_generic r
  rw [hf]
  apply List.map_congr_left
  intro r _
  show Event.unroute _ _ true = _
  dsimp only
  by_cases h : r.toDisable false = true
  · rw [if_pos h]
    rfl
  · rw [if_neg h]

/-- The events of the generic enable pass, in terms of the routes at the entry of the
stage. -/
theorem genericEnable_events (l : List AudioRoute) :
    (doEnableRoutesLoop false (doEnableRoutesLoop true l).1).2
      = (l.filter (fun r => r.toEnable false)).map
          (fun r => Event.route r.isOut r.id false) := by
  rw [doEnableRoutesLoop_events, doEnableRoutesLoop_map, List.filter_map, List.map_map]
  have hf : (fun r => AudioRoute.toEnable r false) ∘
      (fun r => if AudioRoute.toEnable r true then AudioStreamRoute.attachNewStream r
        else r) = fun r => AudioRoute.toEnable r false := by
    funext r
    exact toEnable_after_pre r
  rw [hf]
  apply List.map_congr_left
  intro r _
  show Event.route _ _ false = _
  dsimp only
  by_cases h : r.toEnable true = true
  · rw [if_pos h]
    rfl
  · rw [if_neg h]

theorem toDisable_eq (r : AudioRoute) (b : Bool) :
    r.toDisable b = (r.isClosing && (r.requirePostDisable == b)) := rfl

theorem toEnable_eq (r : AudioRoute) (b : Bool) :
    r.toEnable b = (r.isBeingEnabled && (r.requirePreEnable == b)) := rfl

theorem toDisable_generic (r : AudioRoute) :
    r.toDisable false = (r.isClosing && !r.requirePostDisable) := by
  rw [toDisable_eq]
  cases r.requirePostDisable <;> simp

theorem toDisable_post (r : AudioRoute) :
    r.toDisable true = (r.isClosing && r.requirePostDisable) := by
  rw [toDisable_eq]
  cases r.requirePostDisable <;> simp

theorem toEnable_generic (r : AudioRoute) :
    r.toEnable false = (r.isBeingEnabled && !r.requirePreEnable) := by
  rw [toEnable_eq]
  cases r.requirePreEnable <;> simp

theorem toEnable_pre (r : AudioRoute) :
    r.toEnable true = (r.isBeingEnabled && r.requirePreEnable) := by
  rw [toEnable_eq]
  cases r.requirePreEnable <;> simp

/-- One route through the two passes of the Disable stage. -/
theorem disable_passes_route (r : AudioRoute) :
    (fun r => if AudioRoute.toDisable r true then AudioStreamRoute.detachCurrentStream r
        else r)
      ((fun r => if AudioRoute.toDisable r false then AudioStreamRoute.detachCurrentStream r
        else r) r)
      = if r.isClosing then AudioStreamRoute.detachCurrentStream r else r := by
  dsimp only
  rw [toDisable_after_generic]
  simp only [toDisable_eq]
  by_cases hc : r.isClosing = true <;> by_cases hq : r.requirePostDisable = true <;>
    simp [hc, hq]

/-- One route through the two passes of the Enable stage. -/
theorem enable_passes_route (r : AudioRoute) :
    (fun r => if AudioRoute.toEnable r false then AudioStreamRoute.attachNewStream r else r)
      ((fun r => if AudioRoute.toEnable r true then AudioStreamRoute.attachNewStream r
        else r) r)
      = if r.isBeingEnabled then AudioStreamRoute.attachNewStream r else r := by
  dsimp only
  rw [toEnable_after_pre]
  simp only [toEnable_eq]
  by_cases hc : r.isBeingEnabled = true <;> by_cases hq : r.requirePreEnable = true <;>
    simp [hc, hq]

theorem stageEvents_disable (m : AudioRouteManager) :
    ∃ criteria, (∀ e ∈ criteria, ∀ o i b, e ≠ Event.unroute o i b) ∧
      stageEvents m m.executeDisableRoutingStage
        = criteria ++
          ((m._routeMap.filter (fun r => r.toDisable false)).map
              (fun r => Event.unroute r.isOut r.id false) ++
            Event.commitCriteriaAndApply ::
              (m._routeMap.filter (fun r => r.toDisable true)).map
                (fun r => Event.unroute r.isOut r.id true)) := by
  refine ⟨[Event.stage Stage.Disable,
      Event.setClosingRoutes false (m._selectedClosingRoutes.get false |||
        ((m._routes.get false).prevEnabled &&& not32 (m._routes.get false).enabled)),
      Event.setOpenedRoutes false (m._selectedOpenedRoutes.get false &&&
        not32 ((m._routes.get false).prevEnabled &&& not32 (m._routes.get false).enabled)),
      Event.setClosingRoutes true (m._selectedClosingRoutes.get true |||
        ((m._routes.get true).prevEnabled &&& not32 (m._routes.get true).enabled)),
      Event.setOpenedRoutes true (m._selectedOpenedRoutes.get true &&&
        not32 ((m._routes.get true).prevEnabled &&& not32 (m._routes.get true).enabled))],
    ?_, ?_⟩
  · intro e he o i b
    simp only [List.mem_cons, List.mem_singleton, List.not_mem_nil, or_false] at he
    rcases he with rfl | rfl | rfl | rfl | rfl <;> simp
  · unfold stageEvents
    rw [executeDisableRoutingStage_trace, List.drop_left, doDisableRoutesLoop_events,
      postDisable_events]
    simp only [List.append_assoc, List.singleton_append]

theorem stageEvents_enable (m : AudioRouteManager) :
    stageEvents m m.executeEnableRoutingStage
      = Event.stage Stage.Enable ::
          ((m._routeMap.filter (fun r => r.toEnable true)).map
              (fun r => Event.route r.isOut r.id true) ++
            Event.commitCriteriaAndApply ::
              (m._routeMap.filter (fun r => r.toEnable false)).map
                (fun r => Event.route r.isOut r.id false)) := by
  unfold stageEvents
  rw [executeEnableRoutingStage_trace, List.drop_left, doEnableRoutesLoop_events,
    genericEnable_events]
  simp only [List.append_assoc, List.singleton_append]
  rfl

/-! ### C19: every closing route detached once, every enabled route attached once -/

/-- C19: `doPostDisableRoutes()` is `doDisableRoutes(true)` and `doPreEnableRoutes()` is
`doEnableRoutes(true)`.  In the Disable stage the generic pass detaches the closing stream
routes that do not require post-disable, then, after the commit, the post-disable pass
detaches those that do: a closing stream route is detached exactly once, in the pass its
configuration asks for, and no other route is detached.  In the Enable stage the pre-enable
pass attaches the stream routes being enabled that require pre-enable, then, after the
commit, the generic pass attaches the others: a route being enabled is attached exactly
once, in the pass its configuration asks for, and no other route is attached.  The routes
have distinct identities (direction and id). -/
theorem detach_attach_exactly_once (m : AudioRouteManager)
    (hid : (m._routeMap.map (fun r => (r.isOut, r.id))).Nodup) :
    (m.doPostDisableRoutes = m.doDisableRoutes true ∧
      m.doPreEnableRoutes = m.doEnableRoutes true) ∧
    (∃ criteria, (∀ e ∈ criteria, ∀ o i b, e ≠ Event.unroute o i b) ∧
      stageEvents m m.executeDisableRoutingStage
        = criteria ++
          ((m._routeMap.filter (fun r => r.isClosing && !r.requirePostDisable)).map
              (fun r => Event.unroute r.isOut r.id false) ++
            Event.commitCriteriaAndApply ::
              (m._routeMap.filter (fun r => r.isClosing && r.requirePostDisable)).map
                (fun r => Event.unroute r.isOut r.id true))) ∧
    (∀ r ∈ m._routeMap, ∀ b,
      (stageEvents m m.executeDisableRoutingStage).count (Event.unroute r.isOut r.id b)
        = if r.isClosing && (r.requirePostDisable == b) then 1 else 0) ∧
    m.executeDisableRoutingStage._routeMap
      = m._routeMap.map
          (fun r => if r.isClosing then AudioStreamRoute.detachCurrentStream r else r) ∧
    stageEvents m m.executeEnableRoutingStage
      = Event.stage Stage.Enable ::
          ((m._routeMap.filter (fun r => r.isBeingEnabled && r.requirePreEnable)).map
              (fun r => Event.route r.isOut r.id true) ++
            Event.commitCriteriaAndApply ::
              (m._routeMap.filter (fun r => r.isBeingEnabled && !r.requirePreEnable)).map
                (fun r => Event.route r.isOut r.id false)) ∧
    (∀ r ∈ m._routeMap, ∀ b,
      (stageEvents m m.executeEnableRoutingStage).count (Event.route r.isOut r.id b)
        = if r.isBeingEnabled && (r.requirePreEnable == b) then 1 else 0) ∧
    m.executeEnableRoutingStage._routeMap
      = m._routeMap.map
          (fun r => if r.isBeingEnabled then AudioStreamRoute.attachNewStream r else r) := by
  have hpf : ∀ (f g : AudioRoute → Bool), (∀ r, f r = g r) →
      m._routeMap.filter f = m._routeMap.filter g := by
    intro f g h
    exact List.filter_congr (fun r _ => h r)
  have hinjU : ∀ (o : Bool) (i : Nat) (b : Bool) (o2 : Bool) (i2 : Nat) (b2 : Bool),
      Event.unroute o i b = Event.unroute o2 i2 b2 → o = o2 ∧ i = i2 ∧ b = b2 := by
    intro o i b o2 i2 b2 h
    injection h with h1 h2 h3
    exact ⟨h1, h2, h3⟩
  have hinjR : ∀ (o : Bool) (i : Nat) (b : Bool) (o2 : Bool) (i2 : Nat) (b2 : Bool),
      Event.route o i b = Event.route o2 i2 b2 → o = o2 ∧ i = i2 ∧ b = b2 := by
    intro o i b o2 i2 b2 h
    injection h with h1 h2 h3
    exact ⟨h1, h2, h3⟩
  refine ⟨⟨rfl, rfl⟩, ?_, ?_, ?_, ?_, ?_, ?_⟩
  · obtain ⟨criteria, hc, he⟩ := stageEvents_disable m
    refine ⟨criteria, hc, ?_⟩
    rw [he, hpf (fun r => r.toDisable false) (fun r => r.isClosing && !r.requirePostDisable)
        toDisable_generic,
      hpf (fun r => r.toDisable true) (fun r => r.isClosing && r.requirePostDisable)
        toDisable_post]
  · intro r hr b
    obtain ⟨criteria, hc, he⟩ := stageEvents_disable m
    have h0 : criteria.count (Event.unroute r.isOut r.id b) = 0 :=
      List.count_eq_zero_of_not_mem (fun hmem => hc _ hmem _ _ _ rfl)
    rw [he, List.count_append, List.count_append, List.count_cons_of_ne (by simp), h0,
      pass_count Event.unroute hinjU _ _ hid r hr b false,
      pass_count Event.unroute hinjU _ _ hid r hr b true, ← toDisable_eq]
    cases b <;> cases r.toDisable false <;> cases r.toDisable true <;> simp
  · show (doDisableRoutesLoop true (doDisableRoutesLoop false m._routeMap).1).1 = _
    rw [doDisableRoutesLoop_map, doDisableRoutesLoop_map, List.map_map]
    apply List.map_congr_left
    intro r _
    exact disable_passes_route r
  · rw [stageEvents_enable,
      hpf (fun r => r.toEnable true) (fun r => r.isBeingEnabled && r.requirePreEnable)
        toEnable_pre,
      hpf (fun r => r.toEnable false) (fun r => r.isBeingEnabled && !r.requirePreEnable)
        toEnable_generic]
  · intro r hr b
    rw [stageEvents_enable, List.count_cons_of_ne (by simp), List.count_append,
      List.count_cons_of_ne (by simp),
      pass_count Event.route hinjR _ _ hid r hr b true,
      pass_count Event.route hinjR _ _ hid r hr b false, ← toEnable_eq]
    cases b <;> cases r.toEnable false <;> cases r.toEnable true <;> simp
  · show (doEnableRoutesLoop false (doEnableRoutesLoop true m._routeMap).1).1 = _
    rw [doEnableRoutesLoop_map, doEnableRoutesLoop_map, List.map_map]
    apply List.map_congr_left
    intro r _
    exact enable_passes_route r

/-- C19, an instance: in the cycle that swaps route 0 for route 1, every route gets the
detach event of a pass of the Disable stage once when it is closing and requires that pass,
and never otherwise. -/
theorem detach_attach_exactly_once_witness :
    (demoSwapManager._routeMap.map (fun r => (r.isOut, r.id))).Nodup ∧
      ∀ r ∈ demoSwapManager._routeMap, ∀ b,
        (stageEvents demoSwapManager demoSwapManager.executeDisableRoutingStage).count
            (Event.unroute r.isOut r.id b)
          = if r.isClosing && (r.requirePostDisable == b) then 1 else 0 :=
  ⟨by decide, (detach_attach_exactly_once demoSwapManager (by decide)).2.2.1⟩

/-! ## Shared keys in the get helper -/

/-! ### Lemmas on one key through the get helper -/

theorem KeyValuePairs.filter_key_of_get_none (pairs : KeyValuePairs) (key : String)
    (h : pairs.get key = none) :
    pairs.mMap.filter (fun kv => decide (kv.1 = key)) = [] := by
  have h2 := (KeyValuePairs.lookup_none_iff _ _).1 h
  apply List.filter_eq_nil_iff.2
  intro kv hkv
  simp [h2 kv hkv]

theorem KeyValuePairs.lookup_filter_key (l : List (String × String)) (key : String) :
    KeyValuePairs.lookup (l.filter (fun kv => decide (kv.1 = key))) key
      = KeyValuePairs.lookup l key := by
  induction l with
  | nil => rfl
  | cons kv rest ih =>
    obtain ⟨k, v⟩ := kv
    by_cases hk : k = key
    · simp [List.filter_cons, hk, KeyValuePairs.lookup]
    · simp [List.filter_cons, hk, KeyValuePairs.lookup, ih]

theorem KeyValuePairs.filter_key_add_other (pairs : KeyValuePairs) (key other value : String)
    (hne : other ≠ key) :
    (pairs.add other value).mMap.filter (fun kv => decide (kv.1 = key))
      = pairs.mMap.filter (fun kv => decide (kv.1 = key)) := by
  unfold KeyValuePairs.add
  by_cases h : (pairs.get other).isSome = true
  · rw [if_pos h]
  · rw [if_neg h]
    simp [List.filter_append, List.filter_cons, hne]

theorem KeyValuePairs.filter_key_add_self (pairs : KeyValuePairs) (key value : String)
    (h : pairs.get key = none) :
    (pairs.add key value).mMap.filter (fun kv => decide (kv.1 = key)) = [(key, value)] := by
  have hf := KeyValuePairs.filter_key_of_get_none pairs key h
  unfold KeyValuePairs.add
  rw [h]
  simp only [Option.isSome_none, Bool.false_eq_true, if_false, List.filter_append, hf]
  simp [List.filter_cons]

/-- A parameter whose key is absent from the query leaves the helper as it is. -/
theorem GetFromAndroidParameterHelper.call_absent {P W : Type} (ops : ParameterOps P W)
    (w : W) (helper : GetFromAndroidParameterHelper) (param : P)
    (h : helper.mPairsIn.get (ops.getKey param) = none) :
    GetFromAndroidParameterHelper.call ops w helper param = helper := by
  simp [GetFromAndroidParameterHelper.call, h]

/-- A parameter with another key leaves the key alone, in the query and in the output. -/
theorem GetFromAndroidParameterHelper.call_other {P W : Type} (ops : ParameterOps P W)
    (w : W) (helper : GetFromAndroidParameterHelper) (param : P) (key : String)
    (hne : ops.getKey param ≠ key) :
    (GetFromAndroidParameterHelper.call ops w helper param).mPairsIn.get key
        = helper.mPairsIn.get key ∧
      (GetFromAndroidParameterHelper.call ops w helper param).mPairsOut.get key
        = helper.mPairsOut.get key ∧
      (GetFromAndroidParameterHelper.call ops w helper param).mPairsOut.mMap.filter
          (fun kv => decide (kv.1 = key))
        = helper.mPairsOut.mMap.filter (fun kv => decide (kv.1 = key)) := by
  unfold GetFromAndroidParameterHelper.call
  dsimp only
  cases helper.mPairsIn.get (ops.getKey param) with
  | none => exact ⟨rfl, rfl, rfl⟩
  | some v =>
    cases ops.getValue param w with
    | none => exact ⟨rfl, rfl, rfl⟩
    | some lit =>
      exact ⟨KeyValuePairs.get_remove_other _ _ _ (fun e => hne e.symm),
        KeyValuePairs.get_add_other _ _ _ _ (fun e => hne e.symm),
        KeyValuePairs.filter_key_add_other _ _ _ _ hne⟩

/-- Once the key has left the query, no parameter touches it in the output. -/
theorem GetFromAndroidParameterHelper.forEach_key_gone {P W : Type}
    (ops : ParameterOps P W) (w : W) (key : String) (params : List P)
    (helper : GetFromAndroidParameterHelper) (h : helper.mPairsIn.get key = none) :
    (GetFromAndroidParameterHelper.forEach ops w params helper).mPairsIn.get key = none ∧
      (GetFromAndroidParameterHelper.forEach ops w params helper).mPairsOut.mMap.filter
          (fun kv => decide (kv.1 = key))
        = helper.mPairsOut.mMap.filter (fun kv => decide (kv.1 = key)) := by
  induction params generalizing helper with
  | nil => exact ⟨h, rfl⟩
  | cons p rest ih =>
    unfold GetFromAndroidParameterHelper.forEach
    by_cases hk : ops.getKey p = key
    · rw [GetFromAndroidParameterHelper.call_absent ops w helper p (by rw [hk]; exact h)]
      exact ih helper h
    · obtain ⟨h1, _, h3⟩ := GetFromAndroidParameterHelper.call_other ops w helper p key hk
      obtain ⟨i1, i2⟩ := ih (GetFromAndroidParameterHelper.call ops w helper p)
        (by rw [h1]; exact h)
      exact ⟨i1, by rw [i2, h3]⟩

/-- The key through the whole vector, when the query holds it and the output does not. -/
theorem GetFromAndroidParameterHelper.forEach_key {P W : Type}
    (ops : ParameterOps P W) (w : W) (key q : String) (params : List P)
    (helper : GetFromAndroidParameterHelper) (hin : helper.mPairsIn.get key = some q)
    (hout : helper.mPairsOut.get key = none) :
    (GetFromAndroidParameterHelper.forEach ops w params helper).mPairsOut.mMap.filter
          (fun kv => decide (kv.1 = key))
        = (firstLiteralValue ops w key params).toList.map (fun lit => (key, lit)) ∧
      (GetFromAndroidParameterHelper.forEach ops w params helper).mPairsIn.get key
        = if (firstLiteralValue ops w key params).isSome then none else some q := by
  induction params generalizing helper with
  | nil =>
    refine ⟨?_, ?_⟩
    · simpa [GetFromAndroidParameterHelper.forEach, firstLiteralValue] using
        KeyValuePairs.filter_key_of_get_none _ _ hout
    · simpa [GetFromAndroidParameterHelper.forEach, firstLiteralValue] using hin
  | cons p rest ih =>
    unfold GetFromAndroidParameterHelper.forEach
    by_cases hk : ops.getKey p = key
    · cases hv : ops.getValue p w with
      | none =>
        have hc : GetFromAndroidParameterHelper.call ops w helper p = helper := by
          simp [GetFromAndroidParameterHelper.call, hk, hin, hv]
        have hf : firstLiteralValue ops w key (p :: rest) = firstLiteralValue ops w key rest := by
          simp [firstLiteralValue, List.filterMap_cons, hk, hv]
        rw [hc, hf]
        exact ih helper hin hout
      | some lit =>
        have hc : GetFromAndroidParameterHelper.call ops w helper p
            = { mPairsIn := helper.mPairsIn.remove key,
                mPairsOut := helper.mPairsOut.add key lit } := by
          simp [GetFromAndroidParameterHelper.call, hk, hin, hv]
        have hf : firstLiteralValue ops w key (p :: rest) = some lit := by
          simp [firstLiteralValue, List.filterMap_cons, hk, hv]
        rw [hc, hf]
        obtain ⟨g1, g2⟩ := GetFromAndroidParameterHelper.forEach_key_gone ops w key rest
          { mPairsIn := helper.mPairsIn.remove key, mPairsOut := helper.mPairsOut.add key lit }
          (KeyValuePairs.get_remove_self _ _)
        refine ⟨?_, ?_⟩
        · rw [g2]
          simpa using KeyValuePairs.filter_key_add_self _ _ lit hout
        · simpa using g1
    · obtain ⟨h1, h2, _⟩ := GetFromAndroidParameterHelper.call_other ops w helper p key hk
      have hf : firstLiteralValue ops w key (p :: rest) = firstLiteralValue ops w key rest := by
        simp [firstLiteralValue, List.filterMap_cons, hk]
      rw [hf]
      exact ih (GetFromAndroidParameterHelper.call ops w helper p) (by rw [h1]; exact hin)
        (by rw [h2]; exact hout)

/-! ### C21: several parameters with one key -/

/-- C21: let the query hold the key and the output not hold it yet.  After
`GetFromAndroidParameterHelper` has been applied to the parameters in vector order, the
output holds the key exactly once, with the literal value of the first parameter with this
key whose `getValue` succeeds (and not at all when there is none), and the key has left the
query exactly when there is such a parameter; a parameter that finds its key absent from
the query, as the later parameters with the same key do, leaves query and output as they
are. -/
theorem getFromAndroidParameterHelper_shared_key {P W : Type} (ops : ParameterOps P W)
    (w : W) (key q : String) (params : List P) (helper : GetFromAndroidParameterHelper)
    (hin : helper.mPairsIn.get key = some q) (hout : helper.mPairsOut.get key = none) :
    (GetFromAndroidParameterHelper.forEach ops w params helper).mPairsOut.mMap.filter
        (fun kv => decide (kv.1 = key))
      = (firstLiteralValue ops w key params).toList.map (fun lit => (key, lit)) ∧
    (GetFromAndroidParameterHelper.forEach ops w params helper).mPairsOut.get key
      = firstLiteralValue ops w key params ∧
    (GetFromAndroidParameterHelper.forEach ops w params helper).mPairsIn.get key
      = (if (firstLiteralValue ops w key params).isSome then none else some q) ∧
    (∀ (later : GetFromAndroidParameterHelper) (param : P),
      later.mPairsIn.get (ops.getKey param) = none →
      GetFromAndroidParameterHelper.call ops w later param = later) := by
  obtain ⟨h1, h2⟩ := GetFromAndroidParameterHelper.forEach_key ops w key q params helper
    hin hout
  refine ⟨h1, ?_, h2, ?_⟩
  · unfold KeyValuePairs.get
    rw [← KeyValuePairs.lookup_filter_key, h1]
    cases firstLiteralValue ops w key params <;> simp [KeyValuePairs.lookup]
  · intro later param h
    exact GetFromAndroidParameterHelper.call_absent ops w later param h

/-- C21, an instance: of three parameters with the key `tty_mode`, the first cannot be
read, the second holds `full` and the third `off`; the output receives `tty_mode=full`
only. -/
theorem getFromAndroidParameterHelper_shared_key_witness :
    (GetFromAndroidParameterHelper.forEach demoRogueOps ()
        [("tty_mode", none), ("tty_mode", some "full"), ("tty_mode", some "off")]
        { mPairsIn := { mMap := [("tty_mode", "")] },
          mPairsOut := { mMap := [] } }).mPairsOut.mMap.filter
        (fun kv => decide (kv.1 = "tty_mode"))
      = [("tty_mode", "full")] :=
  (getFromAndroidParameterHelper_shared_key demoRogueOps () "tty_mode" ""
    [("tty_mode", none), ("tty_mode", some "full"), ("tty_mode", some "off")]
    { mPairsIn := { mMap := [("tty_mode", "")] }, mPairsOut := { mMap := [] } }
    (by decide) (by decide)).1

/-! ## Membership of a port group -/

/-! ### C22: addPortToGroup -/

/-- C22: for a non-null port `p`, `addPortToGroup(p)` returns; `p` is then the last element
of the group's port list, after all the earlier members in their order (the list grows by
exactly one, also when `p` was a member already), the group is registered last in `p`'s
list of owning groups, and nothing else changes in the group, in `p` or in any other port;
with a null port the call fails on its assertion, without a state after it. -/
theorem addPortToGroup_spec (g : AudioPortGroup) (thisGroup port : Ptr) (mem : PortHeap) :
    (port ≠ NULL →
      ∃ after heap, g.addPortToGroup thisGroup port mem = some (after, heap) ∧
        after.mPortList = g.mPortList ++ [port] ∧
        after.mPortList.getLast? = some port ∧
        after.mPortList.take g.mPortList.length = g.mPortList ∧
        after.mPortList.length = g.mPortList.length + 1 ∧
        after.name = g.name ∧
        (heap port).mGroupList = (mem port).mGroupList ++ [thisGroup] ∧
        thisGroup ∈ (heap port).mGroupList ∧
        heap port = { mem port with mGroupList := (heap port).mGroupList } ∧
        ∀ other, other ≠ port → heap other = mem other) ∧
    (port = NULL → g.addPortToGroup thisGroup port mem = none) := by
  constructor
  · intro hp
    refine ⟨{ g with mPortList := g.mPortList ++ [port] },
      mem.store port ((mem port).addGroupToPort thisGroup),
      by simp [AudioPortGroup.addPortToGroup, hp], rfl, ?_, ?_, ?_, rfl, ?_, ?_, ?_, ?_⟩
    · simp
    · simp
    · simp
    · simp [PortHeap.store, AudioPort.addGroupToPort]
    · simp [PortHeap.store, AudioPort.addGroupToPort]
    · simp [PortHeap.store, AudioPort.addGroupToPort]
    · intro other hne
      simp [PortHeap.store, hne]
  · intro hp
    simp [AudioPortGroup.addPortToGroup, hp]

/-! ## Sample specification -/

/-! ### Lemmas on the setters -/

theorem resetChannelsPolicyLoop_eq (n : Nat) (l : List ChannelsPolicy) :
    resetChannelsPolicyLoop n l = l ++ List.replicate n ChannelsPolicy.Copy := by
  induction n generalizing l with
  | zero => simp [resetChannelsPolicyLoop]
  | succ n ih =>
    unfold resetChannelsPolicyLoop
    rw [ih, List.append_assoc]
    rfl

theorem setSampleSpecItem_channelCount (MAX_CHANNELS : Nat) (s : SampleSpec) (n : Nat)
    (h : n < MAX_CHANNELS) :
    s.setSampleSpecItem MAX_CHANNELS SampleSpecItem.ChannelCountSampleSpecItem n
      = Except.ok { s with channelCount := n,
                           _channelsPolicy := List.replicate n ChannelsPolicy.Copy } := by
  simp [SampleSpec.setSampleSpecItem, SampleSpecItem.isValid, h, SampleSpec.writeItem,
    resetChannelsPolicyLoop_eq]

theorem setSampleSpecItem_format (MAX_CHANNELS : Nat) (s : SampleSpec) (v : Nat) :
    s.setSampleSpecItem MAX_CHANNELS SampleSpecItem.FormatSampleSpecItem v
      = Except.ok { s with format := v } := by
  simp [SampleSpec.setSampleSpecItem, SampleSpecItem.isValid, SampleSpec.writeItem]

theorem setSampleSpecItem_rate (MAX_CHANNELS : Nat) (s : SampleSpec) (v : Nat) :
    s.setSampleSpecItem MAX_CHANNELS SampleSpecItem.RateSampleSpecItem v
      = Except.ok { s with sampleRate := v } := by
  simp [SampleSpec.setSampleSpecItem, SampleSpecItem.isValid, SampleSpec.writeItem]

/-- Every setter that returns leaves at most as many policies as channels. -/
theorem call_policy_length (MAX_CHANNELS : Nat) (s after : SampleSpec) (c : SampleSpecCall)
    (hinv : s._channelsPolicy.length ≤ s.channelCount)
    (h : s.call MAX_CHANNELS c = Except.ok after) :
    after._channelsPolicy.length ≤ after.channelCount := by
  cases c with
  | setSampleSpecItem item value =>
    cases item with
    | ChannelCountSampleSpecItem =>
      by_cases hv : value < MAX_CHANNELS
      · simp only [SampleSpec.call, setSampleSpecItem_channelCount _ _ _ hv,
          Except.ok.injEq] at h
        rw [← h]
        simp
      · simp [SampleSpec.call, SampleSpec.setSampleSpecItem, SampleSpecItem.isValid, hv] at h
    | FormatSampleSpecItem =>
      simp only [SampleSpec.call, setSampleSpecItem_format, Except.ok.injEq] at h
      rw [← h]
      exact hinv
    | RateSampleSpecItem =>
      simp only [SampleSpec.call, setSampleSpecItem_rate, Except.ok.injEq] at h
      rw [← h]
      exact hinv
    | NbSampleSpecItems =>
      simp [SampleSpec.call, SampleSpec.setSampleSpecItem, SampleSpecItem.isValid] at h
  | setChannelsPolicy v =>
    by_cases hv : v.length ≤ s.channelCount
    · simp only [SampleSpec.call, SampleSpec.setChannelsPolicy, if_pos hv,
        Except.ok.injEq] at h
      rw [← h]
      exact hv
    · simp [SampleSpec.call, SampleSpec.setChannelsPolicy, hv] at h

theorem calls_policy_length (MAX_CHANNELS : Nat) (cs : List SampleSpecCall)
    (s after : SampleSpec) (hinv : s._channelsPolicy.length ≤ s.channelCount)
    (h : SampleSpec.calls MAX_CHANNELS cs s = Except.ok after) :
    after._channelsPolicy.length ≤ after.channelCount := by
  induction cs generalizing s with
  | nil =>
    simp only [SampleSpec.calls, Except.ok.injEq] at h
    rw [← h]
    exact hinv
  | cons c rest ih =>
    unfold SampleSpec.calls at h
    cases hc : s.call MAX_CHANNELS c with
    | error e => simp [hc] at h
    | ok s1 =>
      rw [hc] at h
      exact ih s1 (call_policy_length MAX_CHANNELS s s1 c hinv hc) h

/-- What `init` returns, whatever the object held. -/
theorem init_eq (MAX_CHANNELS : Nat) (s : SampleSpec) (channel format rate : Nat) :
    s.init MAX_CHANNELS channel format rate
      = if channel < MAX_CHANNELS then
          Except.ok { channelCount := channel, format := format, sampleRate := rate,
                      _channelMask := 0,
                      _channelsPolicy := List.replicate channel ChannelsPolicy.Copy }
        else Except.error (Fault.assertion "Max channel number reached") := by
  unfold SampleSpec.init
  by_cases h : channel < MAX_CHANNELS
  · rw [setSampleSpecItem_channelCount _ _ _ h, if_pos h]
    simp only [setSampleSpecItem_format, setSampleSpecItem_rate]
  · rw [if_neg h]
    simp [SampleSpec.setSampleSpecItem, SampleSpecItem.isValid, h]

/-! ### C23: the channel count resets the channels policy -/

/-- C23: for `n < MAX_CHANNELS`, `setSampleSpecItem(ChannelCountSampleSpecItem, n)` sets
the channel count to `n` and replaces the channels policy by exactly `n` entries, all
`Copy`, whatever policy was set before, and changes nothing else; for `n >= MAX_CHANNELS`
it fails on the assertion "Max channel number reached", without a state after it; setting
the format or the rate item returns with the channels policy unchanged. -/
theorem setSampleSpecItem_channelsPolicy (MAX_CHANNELS : Nat) (s : SampleSpec) (n v : Nat) :
    (n < MAX_CHANNELS →
      ∃ after,
        s.setSampleSpecItem MAX_CHANNELS SampleSpecItem.ChannelCountSampleSpecItem n
          = Except.ok after ∧
        after.channelCount = n ∧
        after._channelsPolicy = List.replicate n ChannelsPolicy.Copy ∧
        after._channelsPolicy.length = n ∧
        (∀ policy ∈ after._channelsPolicy, policy = ChannelsPolicy.Copy) ∧
        after = { s with channelCount := n, _channelsPolicy := after._channelsPolicy }) ∧
    (MAX_CHANNELS ≤ n →
      s.setSampleSpecItem MAX_CHANNELS SampleSpecItem.ChannelCountSampleSpecItem n
        = Except.error (Fault.assertion "Max channel number reached")) ∧
    s.setSampleSpecItem MAX_CHANNELS SampleSpecItem.FormatSampleSpecItem v
      = Except.ok { s with format := v } ∧
    s.setSampleSpecItem MAX_CHANNELS SampleSpecItem.RateSampleSpecItem v
      = Except.ok { s with sampleRate := v } := by
  refine ⟨?_, ?_, setSampleSpecItem_format _ _ _, setSampleSpecItem_rate _ _ _⟩
  · intro h
    refine ⟨_, setSampleSpecItem_channelCount MAX_CHANNELS s n h, rfl, rfl, ?_, ?_, rfl⟩
    · simp
    · intro policy hp
      exact List.eq_of_mem_replicate hp
  · intro h
    simp [SampleSpec.setSampleSpecItem, SampleSpecItem.isValid, Nat.not_lt.2 h]

/-! ### C24: never more policies than channels -/

/-- C24: a `SampleSpec` that one of the two constructors has built and that a sequence of
`setSampleSpecItem` and `setChannelsPolicy` calls, none of which fails, has led to, has at
most as many entries in its channels policy as it has channels; `setChannelsPolicy(v)`
fails on its assertion exactly when `v` is longer than the channel count, and otherwise
stores `v` as it is and changes nothing else. -/
theorem channelsPolicy_length_le (MAX_CHANNELS : Nat) (channel format rate : Nat)
    (channelsPolicy : List ChannelsPolicy) (cs : List SampleSpecCall) (s : SampleSpec)
    (v : List ChannelsPolicy) :
    (∀ start after,
      (SampleSpec.construct MAX_CHANNELS channel format rate = Except.ok start ∨
        SampleSpec.constructWithPolicy MAX_CHANNELS channel format rate channelsPolicy
          = Except.ok start) →
      SampleSpec.calls MAX_CHANNELS cs start = Except.ok after →
      after._channelsPolicy.length ≤ after.channelCount) ∧
    (s.setChannelsPolicy v
        = Except.error
          (Fault.assertion "Channel policy vector has more channel than sample spec")
      ↔ s.channelCount < v.length) ∧
    (v.length ≤ s.channelCount →
      s.setChannelsPolicy v = Except.ok { s with _channelsPolicy := v }) := by
  refine ⟨?_, ?_, ?_⟩
  · intro start after hstart hcalls
    apply calls_policy_length MAX_CHANNELS cs start after _ hcalls
    rcases hstart with h | h
    · unfold SampleSpec.construct at h
      rw [init_eq] at h
      by_cases hc : channel < MAX_CHANNELS
      · simp only [if_pos hc, Except.ok.injEq] at h
        rw [← h]
        simp
      · simp [hc] at h
    · unfold SampleSpec.constructWithPolicy at h
      rw [init_eq] at h
      by_cases hc : channel < MAX_CHANNELS
      · simp only [if_pos hc] at h
        exact call_policy_length MAX_CHANNELS _ start
          (SampleSpecCall.setChannelsPolicy channelsPolicy) (by simp) h
      · simp [hc] at h
  · unfold SampleSpec.setChannelsPolicy
    by_cases hv : v.length ≤ s.channelCount
    · simp [hv]
    · simp [hv, Nat.lt_of_not_le hv]
  · intro hv
    simp [SampleSpec.setChannelsPolicy, hv]

/-- C24, an instance: a stereo specification built with the policy (Average, Ignore), then
set to three channels and given the policy (Ignore), holds one policy for three channels.
-/
theorem channelsPolicy_length_le_witness :
    ∃ start after,
      SampleSpec.constructWithPolicy 8 2 1 48000
          [ChannelsPolicy.Average, ChannelsPolicy.Ignore] = Except.ok start ∧
        SampleSpec.calls 8
          [SampleSpecCall.setSampleSpecItem SampleSpecItem.ChannelCountSampleSpecItem 3,
            SampleSpecCall.setChannelsPolicy [ChannelsPolicy.Ignore]] start
          = Except.ok after ∧
        after._channelsPolicy.length ≤ after.channelCount :=
  ⟨{ demoSampleSpec with _channelsPolicy := [ChannelsPolicy.Average, ChannelsPolicy.Ignore] },
    { demoSampleSpec with channelCount := 3, _channelsPolicy := [ChannelsPolicy.Ignore] },
    rfl, rfl,
    (channelsPolicy_length_le 8 2 1 48000 [ChannelsPolicy.Average, ChannelsPolicy.Ignore]
      [SampleSpecCall.setSampleSpecItem SampleSpecItem.ChannelCountSampleSpecItem 3,
        SampleSpecCall.setChannelsPolicy [ChannelsPolicy.Ignore]] demoSampleSpec []).1
      { demoSampleSpec with
        _channelsPolicy := [ChannelsPolicy.Average, ChannelsPolicy.Ignore] }
      { demoSampleSpec with channelCount := 3, _channelsPolicy := [ChannelsPolicy.Ignore] }
      (Or.inr rfl) rfl⟩

/-! ### Lemmas on the conversions -/

theorem two_pow_32_le (sizeBits : Nat) (hw : sizeBits = 32 ∨ sizeBits = 64) :
    2 ^ 32 ≤ 2 ^ sizeBits := by
  rcases hw with h | h <;> subst h <;> norm_num

/-- An exact result of `convertFramesToUsec`: the duration fits in a `size_t`. -/
theorem convertFramesToUsec_exact (sizeBits : Nat) (audio_bytes_per_sample : Nat → Nat)
    (s : SampleSpec) (frames : Nat)
    (hfs : s.getFrameSize sizeBits audio_bytes_per_sample ≠ 0) (hr : 0 < s.sampleRate)
    (hf : frames < 2 ^ 32) (hfit : 1000000 * frames / s.sampleRate < 2 ^ sizeBits) :
    s.convertFramesToUsec sizeBits audio_bytes_per_sample frames
      = Except.ok (1000000 * frames / s.sampleRate) := by
  have hassert : frames / s.sampleRate ≤ (2 ^ sizeBits - 1) / 1000000 := by
    have h1 : 1000000 * (frames / s.sampleRate) ≤ 1000000 * frames / s.sampleRate :=
      Nat.mul_div_le_mul_div_assoc _ _ _
    have h2 : frames / s.sampleRate ≤ (1000000 * frames / s.sampleRate) / 1000000 := by
      rw [Nat.le_div_iff_mul_le (by norm_num)]
      omega
    exact le_trans h2 (Nat.div_le_div_right (by omega))
  have h64 : (1000000 * frames) % 2 ^ 64 = 1000000 * frames := by
    apply Nat.mod_eq_of_lt
    have : (2 : Nat) ^ 32 = 4294967296 := by norm_num
    have : (2 : Nat) ^ 64 = 18446744073709551616 := by norm_num
    omega
  unfold SampleSpec.convertFramesToUsec
  rw [if_neg hfs, if_neg (Nat.pos_iff_ne_zero.1 hr)]
  simp only [USEC_PER_SEC]
  rw [if_pos hassert, h64, Nat.mod_eq_of_lt hfit]

/-- What `convertFramesToUsec` returns when its assertions pass. -/
theorem convertFramesToUsec_value (sizeBits : Nat) (audio_bytes_per_sample : Nat → Nat)
    (s : SampleSpec) (frames : Nat)
    (hfs : s.getFrameSize sizeBits audio_bytes_per_sample ≠ 0) (hr : 0 < s.sampleRate)
    (hf : frames < 2 ^ 32)
    (hassert : frames / s.sampleRate ≤ (2 ^ sizeBits - 1) / 1000000) :
    s.convertFramesToUsec sizeBits audio_bytes_per_sample frames
      = Except.ok ((1000000 * frames / s.sampleRate) % 2 ^ sizeBits) := by
  have h64 : (1000000 * frames) % 2 ^ 64 = 1000000 * frames := by
    apply Nat.mod_eq_of_lt
    have : (2 : Nat) ^ 32 = 4294967296 := by norm_num
    have : (2 : Nat) ^ 64 = 18446744073709551616 := by norm_num
    omega
  unfold SampleSpec.convertFramesToUsec
  rw [if_neg hfs, if_neg (Nat.pos_iff_ne_zero.1 hr)]
  simp only [USEC_PER_SEC]
  rw [if_pos hassert, h64]

/-- With a `size_t` of 64 bits every duration of a 32-bit frame count fits. -/
theorem duration_fits_64 (rate frames : Nat) (hf : frames < 2 ^ 32) :
    1000000 * frames / rate < 2 ^ 64 := by
  have h1 : 1000000 * frames / rate ≤ 1000000 * frames := Nat.div_le_self _ _
  have : (2 : Nat) ^ 32 = 4294967296 := by norm_num
  have : (2 : Nat) ^ 64 = 18446744073709551616 := by norm_num
  omega

/-- An exact result of `convertUsecToframes`: the frame count fits in a `size_t`. -/
theorem convertUsecToframes_exact (sizeBits : Nat) (s : SampleSpec) (intervalUsec : Nat)
    (hu : intervalUsec < 2 ^ 32) (hr : s.sampleRate < 2 ^ 32)
    (hfit : intervalUsec * s.sampleRate / 1000000 < 2 ^ sizeBits) :
    s.convertUsecToframes sizeBits intervalUsec
      = intervalUsec * s.sampleRate / 1000000 := by
  have h64 : (intervalUsec * s.sampleRate) % 2 ^ 64 = intervalUsec * s.sampleRate := by
    apply Nat.mod_eq_of_lt
    calc intervalUsec * s.sampleRate < 2 ^ 32 * 2 ^ 32 :=
          Nat.mul_lt_mul'' hu hr
      _ = 2 ^ 64 := by norm_num
  unfold SampleSpec.convertUsecToframes
  simp only [USEC_PER_SEC]
  rw [h64, Nat.mod_eq_of_lt hfit]

/-- The frame count of an interval fits in a `size_t` of 64 bits, and in one of 32 bits
when the rate is at most one sample per microsecond. -/
theorem frames_fit (sizeBits : Nat) (hw : sizeBits = 32 ∨ sizeBits = 64) (rate usec : Nat)
    (hu : usec < 2 ^ 32) (hr : rate < 2 ^ 32) (h : sizeBits = 64 ∨ rate ≤ 1000000) :
    usec * rate / 1000000 < 2 ^ sizeBits := by
  rcases h with h | h
  · subst h
    have h1 : usec * rate / 1000000 ≤ usec * rate := Nat.div_le_self _ _
    have h2 : usec * rate < 2 ^ 32 * 2 ^ 32 := Nat.mul_lt_mul'' hu hr
    have h3 : (2 : Nat) ^ 32 * 2 ^ 32 = 2 ^ 64 := by norm_num
    omega
  · have h1 : usec * rate ≤ usec * 1000000 := Nat.mul_le_mul_left _ h
    have h2 : usec * rate / 1000000 ≤ usec * 1000000 / 1000000 := Nat.div_le_div_right h1
    rw [Nat.mul_div_cancel _ (by norm_num)] at h2
    have := two_pow_32_le sizeBits hw
    omega

/-! ### C25: frames to bytes and back -/

/-- C25: let the frame size `s` be non-zero.  For every frame count `f <= SIZE_MAX / s`,
`convertFramesToBytes(f)` returns `f * s`, which is below `2 ^ sizeBits` (no wrap-around),
and `convertBytesToFrames` of that returns `f`; for `f > SIZE_MAX / s`,
`convertFramesToBytes(f)` fails on its assertion "conversion exceeds limit". -/
theorem convertFramesToBytes_roundtrip (sizeBits : Nat) (audio_bytes_per_sample : Nat → Nat)
    (s : SampleSpec) (f : Nat) (hs : s.getFrameSize sizeBits audio_bytes_per_sample ≠ 0) :
    (f ≤ (2 ^ sizeBits - 1) / s.getFrameSize sizeBits audio_bytes_per_sample →
      s.convertFramesToBytes sizeBits audio_bytes_per_sample f
        = Except.ok (f * s.getFrameSize sizeBits audio_bytes_per_sample) ∧
      f * s.getFrameSize sizeBits audio_bytes_per_sample < 2 ^ sizeBits ∧
      s.convertBytesToFrames sizeBits audio_bytes_per_sample
          (f * s.getFrameSize sizeBits audio_bytes_per_sample) = Except.ok f) ∧
    ((2 ^ sizeBits - 1) / s.getFrameSize sizeBits audio_bytes_per_sample < f →
      s.convertFramesToBytes sizeBits audio_bytes_per_sample f
        = Except.error (Fault.assertion "conversion exceeds limit")) := by
  have hpos : 0 < s.getFrameSize sizeBits audio_bytes_per_sample := Nat.pos_of_ne_zero hs
  constructor
  · intro hf
    have hle : f * s.getFrameSize sizeBits audio_bytes_per_sample ≤ 2 ^ sizeBits - 1 :=
      (Nat.le_div_iff_mul_le hpos).1 hf
    have hlt : f * s.getFrameSize sizeBits audio_bytes_per_sample < 2 ^ sizeBits := by
      have : 0 < 2 ^ sizeBits := Nat.two_pow_pos sizeBits
      omega
    refine ⟨?_, hlt, ?_⟩
    · unfold SampleSpec.convertFramesToBytes
      rw [if_neg hs, if_pos hf, Nat.mod_eq_of_lt hlt]
    · unfold SampleSpec.convertBytesToFrames
      rw [if_neg hs, Nat.mul_div_cancel _ hpos]
  · intro hf
    unfold SampleSpec.convertFramesToBytes
    rw [if_neg hs, if_neg (Nat.not_le.2 hf)]

/-- C25, an instance: with a `size_t` of 32 bits and frames of 4 bytes, 1024 frames are
4096 bytes, and 4096 bytes are 1024 frames. -/
theorem convertFramesToBytes_roundtrip_witness :
    demoSampleSpec.convertFramesToBytes 32 demoBytesPerSample 1024
        = Except.ok (1024 * demoSampleSpec.getFrameSize 32 demoBytesPerSample) ∧
      1024 * demoSampleSpec.getFrameSize 32 demoBytesPerSample < 2 ^ 32 ∧
      demoSampleSpec.convertBytesToFrames 32 demoBytesPerSample
          (1024 * demoSampleSpec.getFrameSize 32 demoBytesPerSample) = Except.ok 1024 :=
  (convertFramesToBytes_roundtrip 32 demoBytesPerSample demoSampleSpec 1024
    (by decide)).1 (by decide)

/-! ### C26: frames to microseconds -/

/-- C26: with a `size_t` of 64 bits, for every sample rate `r > 0` and every 32-bit frame
count `f`, `convertFramesToUsec(f)` passes its assertions and returns
`floor(1000000 * f / r)` exactly.  With a `size_t` of 32 bits a frame count that passes the
assertions is returned as `floor(1000000 * f / r)` modulo `2 ^ 32`, and this is not always
the exact value: at 48 kHz the frame count 206159999 passes the "conversion exceeds limit"
assertion (206159999 / 48000 = 4294 = SIZE_MAX / 1000000), its duration is 4294999979
microseconds, and 32683 is returned. -/
theorem convertFramesToUsec_truncation :
    (∀ (audio_bytes_per_sample : Nat → Nat) (s : SampleSpec) (f : Nat),
      s.getFrameSize 64 audio_bytes_per_sample ≠ 0 → 0 < s.sampleRate → f < 2 ^ 32 →
      f / s.sampleRate ≤ (2 ^ 64 - 1) / USEC_PER_SEC ∧
        s.convertFramesToUsec 64 audio_bytes_per_sample f
          = Except.ok (1000000 * f / s.sampleRate)) ∧
    (∀ (audio_bytes_per_sample : Nat → Nat) (s : SampleSpec) (f : Nat),
      s.getFrameSize 32 audio_bytes_per_sample ≠ 0 → 0 < s.sampleRate → f < 2 ^ 32 →
      f / s.sampleRate ≤ (2 ^ 32 - 1) / USEC_PER_SEC →
      s.convertFramesToUsec 32 audio_bytes_per_sample f
        = Except.ok ((1000000 * f / s.sampleRate) % 2 ^ 32)) ∧
    (demoSampleSpec.getFrameSize 32 demoBytesPerSample ≠ 0 ∧
      206159999 / demoSampleSpec.sampleRate ≤ (2 ^ 32 - 1) / USEC_PER_SEC ∧
      1000000 * 206159999 / demoSampleSpec.sampleRate = 4294999979 ∧
      demoSampleSpec.convertFramesToUsec 32 demoBytesPerSample 206159999
        = Except.ok 32683) := by
  refine ⟨?_, ?_, ?_⟩
  · intro bps s f hfs hr hf
    refine ⟨?_, convertFramesToUsec_exact 64 bps s f hfs hr hf
      (duration_fits_64 s.sampleRate f hf)⟩
    have h1 : f / s.sampleRate ≤ f := Nat.div_le_self _ _
    have h2 : (2 : Nat) ^ 32 ≤ (2 ^ 64 - 1) / USEC_PER_SEC := by
      simp only [USEC_PER_SEC]
      norm_num
    omega
  · intro bps s f hfs hr hf hassert
    exact convertFramesToUsec_value 32 bps s f hfs hr hf hassert
  · have hfs : demoSampleSpec.getFrameSize 32 demoBytesPerSample ≠ 0 := by decide
    have hassert : 206159999 / demoSampleSpec.sampleRate ≤ (2 ^ 32 - 1) / 1000000 := by
      decide
    refine ⟨hfs, hassert, by decide, ?_⟩
    rw [convertFramesToUsec_value 32 demoBytesPerSample demoSampleSpec 206159999 hfs
      (by decide) (by norm_num) hassert]
    rfl

/-! ### C27: division by the sample rate -/

/-- C27: `convertFramesToUsec` asserts that the frame size is non-zero, and divides by the
sample rate.  With a non-zero frame size it divides by zero exactly when the sample rate is
zero, for every frame count; the stereo 16-bit specification that the constructor builds
for the rate 0 has frames of 4 bytes, and `convertFramesToUsec(0)` divides by zero in its
limit assertion. -/
theorem convertFramesToUsec_division_by_zero :
    (∀ (sizeBits : Nat) (audio_bytes_per_sample : Nat → Nat) (s : SampleSpec) (f : Nat),
      s.getFrameSize sizeBits audio_bytes_per_sample ≠ 0 →
      (s.convertFramesToUsec sizeBits audio_bytes_per_sample f
          = Except.error Fault.divisionByZero ↔ s.sampleRate = 0)) ∧
    (SampleSpec.construct 8 2 1 0 = Except.ok demoNullRateSpec ∧
      demoNullRateSpec.getFrameSize 32 demoBytesPerSample = 4 ∧
      demoNullRateSpec.convertFramesToUsec 32 demoBytesPerSample 0
        = Except.error Fault.divisionByZero) := by
  refine ⟨?_, rfl, by decide, rfl⟩
  intro sizeBits bps s f hfs
  unfold SampleSpec.convertFramesToUsec
  rw [if_neg hfs]
  by_cases hr : s.sampleRate = 0
  · simp [hr]
  · rw [if_neg hr]
    by_cases ha : f / s.sampleRate ≤ (2 ^ sizeBits - 1) / USEC_PER_SEC
    · simp [ha, hr]
    · simp [ha, hr]

/-! ### C28: frames to microseconds and back, monotonicity -/

/-- C28 (as stated, refuted): with a `size_t` of 32 bits the conversions are not monotone.
At 48 kHz the frame counts 206150000 and 206159999 both pass the assertions of
`convertFramesToUsec`, which returns 4294791666 for the smaller and 32683 for the larger;
at the rate 4294967295, `convertUsecToframes` returns 4294967295 for 1000000 microseconds
and 4294967294 for 2000000. -/
theorem conversions_monotone_counterexample :
    (demoSampleSpec.convertFramesToUsec 32 demoBytesPerSample 206150000
        = Except.ok 4294791666 ∧
      demoSampleSpec.convertFramesToUsec 32 demoBytesPerSample 206159999
        = Except.ok 32683) ∧
    ({ demoSampleSpec with sampleRate := 4294967295 }.convertUsecToframes 32 1000000
        = 4294967295 ∧
      { demoSampleSpec with sampleRate := 4294967295 }.convertUsecToframes 32 2000000
        = 4294967294) := by
  have hfs : demoSampleSpec.getFrameSize 32 demoBytesPerSample ≠ 0 := by decide
  refine ⟨⟨?_, ?_⟩, by decide, by decide⟩
  · rw [convertFramesToUsec_value 32 demoBytesPerSample demoSampleSpec 206150000 hfs
      (by decide) (by norm_num) (by decide)]
    rfl
  · rw [convertFramesToUsec_value 32 demoBytesPerSample demoSampleSpec 206159999 hfs
      (by decide) (by norm_num) (by decide)]
    rfl

/-- C28 (amended): let `size_t` have 32 or 64 bits, the frame size be non-zero and the
sample rate `r` be a positive `uint32_t`.  When `r <= 1000000`, for every 32-bit frame
count `f` whose duration `floor(1000000 * f / r)` fits in 32 bits,
`convertFramesToUsec(f)` returns that duration and `convertUsecToframes` of it is `f` or
`f - 1`, never more than `f`.  `convertUsecToframes` is monotone non-decreasing when
`size_t` has 64 bits or `r <= 1000000`; `convertFramesToUsec` returns and is monotone
non-decreasing when `size_t` has 64 bits, or up to a frame count whose duration fits in 32
bits. -/
theorem conversions_roundtrip_monotone (sizeBits : Nat)
    (audio_bytes_per_sample : Nat → Nat) (s : SampleSpec)
    (hw : sizeBits = 32 ∨ sizeBits = 64)
    (hfs : s.getFrameSize sizeBits audio_bytes_per_sample ≠ 0)
    (hr : 0 < s.sampleRate) (hr32 : s.sampleRate < 2 ^ 32) :
    (s.sampleRate ≤ 1000000 → ∀ f, f < 2 ^ 32 → 1000000 * f / s.sampleRate < 2 ^ 32 →
      s.convertFramesToUsec sizeBits audio_bytes_per_sample f
        = Except.ok (1000000 * f / s.sampleRate) ∧
      (s.convertUsecToframes sizeBits (1000000 * f / s.sampleRate) = f ∨
        s.convertUsecToframes sizeBits (1000000 * f / s.sampleRate) = f - 1) ∧
      s.convertUsecToframes sizeBits (1000000 * f / s.sampleRate) ≤ f) ∧
    (sizeBits = 64 ∨ s.sampleRate ≤ 1000000 → ∀ u1 u2, u1 ≤ u2 → u2 < 2 ^ 32 →
      s.convertUsecToframes sizeBits u1 ≤ s.convertUsecToframes sizeBits u2) ∧
    (∀ f1 f2, f1 ≤ f2 → f2 < 2 ^ 32 →
      sizeBits = 64 ∨ 1000000 * f2 / s.sampleRate < 2 ^ 32 →
      ∃ u1 u2, s.convertFramesToUsec sizeBits audio_bytes_per_sample f1 = Except.ok u1 ∧
        s.convertFramesToUsec sizeBits audio_bytes_per_sample f2 = Except.ok u2 ∧
        u1 ≤ u2) := by
  have h32 := two_pow_32_le sizeBits hw
  refine ⟨?_, ?_, ?_⟩
  · intro hrate f hf hfit
    have hback : s.convertUsecToframes sizeBits (1000000 * f / s.sampleRate)
        = 1000000 * f / s.sampleRate * s.sampleRate / 1000000 :=
      convertUsecToframes_exact sizeBits s _ hfit hr32
        (frames_fit sizeBits hw s.sampleRate _ hfit hr32 (Or.inr hrate))
    have hdm : s.sampleRate * (1000000 * f / s.sampleRate) + 1000000 * f % s.sampleRate
        = 1000000 * f := Nat.div_add_mod _ _
    have hmod : 1000000 * f % s.sampleRate < s.sampleRate := Nat.mod_lt _ hr
    have hcomm : 1000000 * f / s.sampleRate * s.sampleRate
        = s.sampleRate * (1000000 * f / s.sampleRate) := Nat.mul_comm _ _
    refine ⟨convertFramesToUsec_exact sizeBits audio_bytes_per_sample s f hfs hr hf
      (lt_of_lt_of_le hfit h32), ?_, ?_⟩
    · rw [hback, hcomm]
      generalize s.sampleRate * (1000000 * f / s.sampleRate) = x at hdm
      omega
    · rw [hback, hcomm]
      generalize s.sampleRate * (1000000 * f / s.sampleRate) = x at hdm
      omega
  · intro hcase u1 u2 hle hu2
    have hu1 : u1 < 2 ^ 32 := lt_of_le_of_lt hle hu2
    rw [convertUsecToframes_exact sizeBits s u1 hu1 hr32
        (frames_fit sizeBits hw s.sampleRate u1 hu1 hr32 hcase),
      convertUsecToframes_exact sizeBits s u2 hu2 hr32
        (frames_fit sizeBits hw s.sampleRate u2 hu2 hr32 hcase)]
    exact Nat.div_le_div_right (Nat.mul_le_mul_right _ hle)
  · intro f1 f2 hle hf2 hcase
    have hf1 : f1 < 2 ^ 32 := lt_of_le_of_lt hle hf2
    have hmono : 1000000 * f1 / s.sampleRate ≤ 1000000 * f2 / s.sampleRate :=
      Nat.div_le_div_right (Nat.mul_le_mul_left _ hle)
    have hfit2 : 1000000 * f2 / s.sampleRate < 2 ^ sizeBits := by
      rcases hcase with h | h
      · subst h
        exact duration_fits_64 s.sampleRate f2 hf2
      · exact lt_of_lt_of_le h h32
    exact ⟨_, _,
      convertFramesToUsec_exact sizeBits audio_bytes_per_sample s f1 hfs hr hf1
        (lt_of_le_of_lt hmono hfit2),
      convertFramesToUsec_exact sizeBits audio_bytes_per_sample s f2 hfs hr hf2 hfit2,
      hmono⟩

/-- C28 (amended), an instance: at 44.1 kHz with a `size_t` of 32 bits, 100 frames last
2267 microseconds, which are 99 frames. -/
theorem conversions_roundtrip_monotone_witness :
    ({ demoSampleSpec with sampleRate := 44100 }.convertFramesToUsec 32 demoBytesPerSample 100
        = Except.ok (1000000 * 100 / 44100)) ∧
      ({ demoSampleSpec with sampleRate := 44100 }.convertUsecToframes 32
            (1000000 * 100 / 44100) = 100 ∨
        { demoSampleSpec with sampleRate := 44100 }.convertUsecToframes 32
            (1000000 * 100 / 44100) = 100 - 1) ∧
      { demoSampleSpec with sampleRate := 44100 }.convertUsecToframes 32
          (1000000 * 100 / 44100) ≤ 100 :=
  (conversions_roundtrip_monotone 32 demoBytesPerSample
    { demoSampleSpec with sampleRate := 44100 } (Or.inl rfl) (by decide) (by decide)
    (by decide)).1 (by decide) 100 (by decide) (by decide)

/-! ## Closing the tiny ALSA device, and its wake lock -/

/-! ### Lemmas on close and on the wake lock -/

theorem close_of_null (dev : TinyAlsaAudioDevice) (h : dev._pcmDevice = NULL) :
    dev.close = (DEAD_OBJECT, dev) := by
  simp [TinyAlsaAudioDevice.close, h]

theorem close_of_not_null (dev : TinyAlsaAudioDevice) (h : dev._pcmDevice ≠ NULL) :
    dev.close
      = (OK, { _pcmDevice := NULL,
               calls := dev.calls ++
                 [DeviceCall.pcm_close dev._pcmDevice, DeviceCall.release_wake_lock] }) := by
  simp [TinyAlsaAudioDevice.close, h, TinyAlsaAudioDevice.releasePowerLock]

theorem wakeLockHeld_append (l1 l2 : List DeviceCall) :
    wakeLockHeld (l1 ++ l2) = l2.foldl wakeLockStep (wakeLockHeld l1) := by
  simp [wakeLockHeld, List.foldl_append]

/-- After `close` the handle is `NULL`, and the lock is held only if it was held by a
closed device. -/
theorem close_balance (dev : TinyAlsaAudioDevice)
    (hinv : wakeLockHeld dev.calls = true ↔ dev._pcmDevice ≠ NULL) :
    dev.close.2._pcmDevice = NULL ∧ wakeLockHeld dev.close.2.calls = false := by
  by_cases h : dev._pcmDevice = NULL
  · rw [close_of_null dev h]
    refine ⟨h, ?_⟩
    cases hh : wakeLockHeld dev.calls with
    | false => rfl
    | true => exact absurd h (hinv.1 hh)
  · rw [close_of_not_null dev h]
    refine ⟨rfl, ?_⟩
    rw [wakeLockHeld_append]
    rfl

/-- An `open` on a closed device whose lock is not held, with a pcm structure from
`pcm_open`: either it succeeds with the handle and the lock, or it fails with neither. -/
theorem open_balance (dev after : TinyAlsaAudioDevice) (tinyalsa : TinyAlsaAnswers)
    (cardName : Option String) (deviceId : Nat) (isOut : Bool) (status : Int)
    (hpcm : tinyalsa.pcm_open ≠ NULL)
    (h : dev.open tinyalsa cardName deviceId isOut = some (status, after)) :
    (status = NO_ERROR ∧ after._pcmDevice ≠ NULL ∧ wakeLockHeld after.calls = true) ∨
      (status = NO_MEMORY ∧ after._pcmDevice = NULL ∧ wakeLockHeld after.calls = false) := by
  unfold TinyAlsaAudioDevice.open at h
  by_cases hc : dev._pcmDevice ≠ NULL
  · rw [if_pos hc] at h
    cases h
  · rw [if_neg hc] at h
    by_cases hn : cardName.isNone = true
    · rw [if_pos hn] at h
      cases h
    · rw [if_neg hn] at h
      simp only [] at h
      rw [if_pos hpcm] at h
      by_cases hr : tinyalsa.pcm_is_ready = 0
      · rw [if_pos hr] at h
        simp only [Option.some.injEq, Prod.mk.injEq] at h
        obtain ⟨h1, h2⟩ := h
        right
        rw [← h1, ← h2, close_of_not_null _ hpcm]
        refine ⟨rfl, rfl, ?_⟩
        rw [wakeLockHeld_append]
        rfl
      · rw [if_neg hr] at h
        by_cases hp : tinyalsa.pcm_prepare ≠ 0
        · rw [if_pos hp] at h
          simp only [Option.some.injEq, Prod.mk.injEq] at h
          obtain ⟨h1, h2⟩ := h
          right
          rw [← h1, ← h2, close_of_not_null _ hpcm]
          refine ⟨rfl, rfl, ?_⟩
          rw [wakeLockHeld_append]
          rfl
        · rw [if_neg hp] at h
          simp only [Option.some.injEq, Prod.mk.injEq] at h
          obtain ⟨h1, h2⟩ := h
          left
          rw [← h1, ← h2]
          refine ⟨rfl, hpcm, ?_⟩
          simp only [TinyAlsaAudioDevice.acquirePowerLock, List.append_assoc]
          rw [wakeLockHeld_append]
          rfl

/-- A sequence of requests on which tinyalsa keeps its guarantee keeps the balance: the
lock is held exactly when the handle is not `NULL`. -/
theorem requests_balance (rs : List DeviceRequest) (dev last : TinyAlsaAudioDevice)
    (statuses : List Int)
    (hinv : wakeLockHeld dev.calls = true ↔ dev._pcmDevice ≠ NULL)
    (hpcm : ∀ r ∈ rs, r.pcmOpenReturnsStructure = true)
    (h : TinyAlsaAudioDevice.requests rs dev = some (statuses, last)) :
    (wakeLockHeld last.calls = true ↔ last._pcmDevice ≠ NULL) := by
  induction rs generalizing dev statuses with
  | nil =>
    simp only [TinyAlsaAudioDevice.requests, Option.some.injEq, Prod.mk.injEq] at h
    rw [← h.2]
    exact hinv
  | cons r rest ih =>
    unfold TinyAlsaAudioDevice.requests at h
    cases hreq : dev.request r with
    | none => simp [hreq] at h
    | some res =>
      obtain ⟨status, after⟩ := res
      rw [hreq] at h
      dsimp only at h
      cases hrest : TinyAlsaAudioDevice.requests rest after with
      | none => simp [hrest] at h
      | some res2 =>
        obtain ⟨statuses2, last2⟩ := res2
        rw [hrest] at h
        simp only [Option.some.injEq, Prod.mk.injEq] at h
        obtain ⟨_, hl⟩ := h
        subst hl
        apply ih after statuses2 _ (fun x hx => hpcm x (List.mem_cons_of_mem _ hx)) hrest
        cases r with
        | openDevice tinyalsa cardName deviceId isOut =>
          have hp : tinyalsa.pcm_open ≠ NULL := by
            have := hpcm _ (List.mem_cons_self _ _)
            simpa [DeviceRequest.pcmOpenReturnsStructure] using this
          rcases open_balance dev after tinyalsa cardName deviceId isOut status hp hreq with
            ⟨_, h2, h3⟩ | ⟨_, h2, h3⟩
          · exact ⟨fun _ => h2, fun _ => h3⟩
          · rw [h2, h3]
            simp
        | closeDevice =>
          simp only [TinyAlsaAudioDevice.request, Option.some.injEq] at hreq
          have hb := close_balance dev hinv
          rw [hreq] at hb
          rw [hb.1, hb.2]
          simp

/-! ### C29: close -/

/-- C29: `close()` returns `DEAD_OBJECT` exactly when the handle is `NULL`, and then leaves
the device as it is, without a call to tinyalsa or to the power library; otherwise it calls
`pcm_close` on the handle, sets the handle to `NULL`, calls `release_wake_lock` once and
returns `OK`; a `close` that directly follows a `close` returns `DEAD_OBJECT` and changes
nothing. -/
theorem close_spec (dev : TinyAlsaAudioDevice) :
    (dev.close.1 = DEAD_OBJECT ↔ dev._pcmDevice = NULL) ∧
    (dev._pcmDevice = NULL → dev.close = (DEAD_OBJECT, dev)) ∧
    (dev._pcmDevice ≠ NULL →
      dev.close
        = (OK, { _pcmDevice := NULL,
                 calls := dev.calls ++
                   [DeviceCall.pcm_close dev._pcmDevice, DeviceCall.release_wake_lock] })) ∧
    dev.close.2.close = (DEAD_OBJECT, dev.close.2) := by
  have hne : OK ≠ DEAD_OBJECT := by decide
  refine ⟨?_, close_of_null dev, close_of_not_null dev, ?_⟩
  · by_cases h : dev._pcmDevice = NULL
    · rw [close_of_null dev h]
      exact ⟨fun _ => h, fun _ => rfl⟩
    · rw [close_of_not_null dev h]
      exact ⟨fun e => absurd e hne, fun e => absurd e h⟩
  · apply close_of_null
    by_cases h : dev._pcmDevice = NULL
    · rw [close_of_null dev h]
      exact h
    · rw [close_of_not_null dev h]

/-! ### C30: balance of the wake lock -/

/-- C30 (as stated, refuted): on the closed device, with the wake lock not held, an `open`
during which `pcm_open` returns `NULL` and `pcm_prepare` fails returns `NO_MEMORY` with the
handle `NULL` and the wake lock still held: `close()` has found no handle and has released
nothing. -/
theorem wakeLock_balance_counterexample :
    closedDevice._pcmDevice = NULL ∧ wakeLockHeld closedDevice.calls = false ∧
      closedDevice.open { pcm_open := NULL, pcm_is_ready := 1, pcm_prepare := -1 }
          (some "card") 0 true
        = some (NO_MEMORY,
            { _pcmDevice := NULL,
              calls := [DeviceCall.acquire_wake_lock, DeviceCall.pcm_open 0 true,
                DeviceCall.pcm_prepare NULL] }) ∧
      wakeLockHeld [DeviceCall.acquire_wake_lock, DeviceCall.pcm_open 0 true,
        DeviceCall.pcm_prepare NULL] = true := by
  refine ⟨rfl, rfl, by decide, by decide⟩

/-- C30 (amended): start from a closed device with the wake lock not held, and let
`pcm_open` return a pcm structure, never `NULL`, as tinyalsa guarantees.  After every
sequence of `open` and `close` calls in which no assertion fails, whatever `pcm_is_ready`
and `pcm_prepare` return, the wake lock is held exactly when the handle is not `NULL`; and
an `open` that returns an error has released the lock it acquired at entry. -/
theorem wakeLock_balance (rs : List DeviceRequest) (dev last : TinyAlsaAudioDevice)
    (statuses : List Int)
    (hclosed : dev._pcmDevice = NULL) (hfree : wakeLockHeld dev.calls = false)
    (hpcm : ∀ r ∈ rs, r.pcmOpenReturnsStructure = true)
    (h : TinyAlsaAudioDevice.requests rs dev = some (statuses, last)) :
    (wakeLockHeld last.calls = true ↔ last._pcmDevice ≠ NULL) ∧
    (∀ (tinyalsa : TinyAlsaAnswers) (cardName : Option String) (deviceId : Nat)
        (isOut : Bool) (status : Int) (after : TinyAlsaAudioDevice),
      tinyalsa.pcm_open ≠ NULL →
      last.open tinyalsa cardName deviceId isOut = some (status, after) →
      status ≠ NO_ERROR →
      wakeLockHeld after.calls = false ∧ after._pcmDevice = NULL) := by
  refine ⟨requests_balance rs dev last statuses ?_ hpcm h, ?_⟩
  · rw [hclosed, hfree]
    simp
  · intro tinyalsa cardName deviceId isOut status after hp hopen hst
    rcases open_balance last after tinyalsa cardName deviceId isOut status hp hopen with
      ⟨h1, _, _⟩ | ⟨_, h2, h3⟩
    · exact absurd h1 hst
    · exact ⟨h3, h2⟩

/-- C30 (amended), an instance: an `open` whose `pcm_prepare` fails, an `open` that
succeeds, and a `close`, on the closed device, return `NO_MEMORY`, `NO_ERROR` and `OK`, and
leave the handle `NULL` and the wake lock not held. -/
theorem wakeLock_balance_witness :
    ∃ last,
      TinyAlsaAudioDevice.requests
          [DeviceRequest.openDevice { pcm_open := 5, pcm_is_ready := 1, pcm_prepare := -1 }
              (some "card") 0 true,
            DeviceRequest.openDevice { pcm_open := 6, pcm_is_ready := 1, pcm_prepare := 0 }
              (some "card") 0 true,
            DeviceRequest.closeDevice] closedDevice
        = some ([NO_MEMORY, NO_ERROR, OK], last) ∧
      last._pcmDevice = NULL ∧
      (wakeLockHeld last.calls = true ↔ last._pcmDevice ≠ NULL) :=
  ⟨_, rfl, rfl,
    (wakeLock_balance
      [DeviceRequest.openDevice { pcm_open := 5, pcm_is_ready := 1, pcm_prepare := -1 }
          (some "card") 0 true,
        DeviceRequest.openDevice { pcm_open := 6, pcm_is_ready := 1, pcm_prepare := 0 }
          (some "card") 0 true,
        DeviceRequest.closeDevice] closedDevice _ [NO_MEMORY, NO_ERROR, OK] rfl rfl
      (by decide) rfl).1⟩

end intel_audio
